import Mathlib

/-!
Coinfinder: the pairwise coincidence engine of `coincidence.cpp`.

A shallow embedding of `Coincidence::run` and `Coincidence::_write_header`.

Modelling conventions.

* `int` values are `Int` (table sizes stay far below `2^31`, so no wrap-around is modelled).
* A `double` is a `Dbl = Option ℚ`: `some q` is the finite value `q`, computed exactly, and
  `none` is a value that is not a finite number (the NaN or infinity produced by a division by
  zero). Every operation used by the engine maps a non-finite operand to a non-finite result, and
  `x == c` is false for a non-finite `x` and a finite constant `c`.
* The one place where the rounding of binary64 shows in the output is the cast
  `static_cast<int>(rate * num_observations + 0.5)` of lines 277 and 301, which truncates: there
  the operand is computed as the code computes it, every quotient, product and sum being rounded
  to binary64 (`binary64`, `rate_binary64`, `expected_count`).
* `std::map<const Beta*, int>` is a list of entries in iteration order, strictly ascending in the
  key address. Map iterators carry the identity of the map object they point into.
* The headers `dataset.h`, `elements.h`, `parameters.h`, `significance.h` and `binomial_test.h`
  are not part of the sources: the tables of the dataset are plain lists, and
  `Significance::correct` and `Binomial::test` are parameters (`Externals`) returning numbers.
* The results of `Significance::correct` and `Binomial::test`, and the weights of the edges, are
  rational numbers; `abs` is the absolute value.
* The `omp parallel for collapse(2)` loop is run sequentially, in index order. Diagnostics written
  to `std::cerr` are not part of the model.
* An exception (`std::logic_error`, a failed `find_id`) is the `error` of `Except String`: the run
  aborts and returns nothing.
-/

namespace Coinfinder

/-! ## Numbers -/

/-- Value of a `double` expression: `some q` is finite, `none` is NaN or an infinity. -/
abbrev Dbl := Option ℚ

/-- The cast `static_cast<double>(i)` of an `int`. -/
def Dbl.ofInt (i : Int) : Dbl := some (i : ℚ)

/-- The quotient `x / static_cast<double>(n)`; dividing by zero gives a non-finite value. -/
def Dbl.divInt (x : Dbl) (n : Int) : Dbl :=
  match x with
  | some q => if n = 0 then none else some (q / (n : ℚ))
  | none => none

/-- Product of two doubles. -/
def Dbl.mul (x y : Dbl) : Dbl :=
  match x, y with
  | some p, some q => some (p * q)
  | _, _ => none

/-- Sum of two doubles. -/
def Dbl.add (x y : Dbl) : Dbl :=
  match x, y with
  | some p, some q => some (p + q)
  | _, _ => none

/-- The cast `static_cast<int>(x)`: truncation toward zero, undefined on a non-finite value. -/
def Dbl.toInt (x : Dbl) : Option Int :=
  match x with
  | some q => some (q.num.tdiv (q.den : Int))
  | none => none

/-- The number `x * 2^e`. -/
def scale (x : ℚ) (e : Int) : ℚ :=
  if 0 ≤ e then x * ((2 ^ e.toNat : Nat) : ℚ) else x / ((2 ^ (-e).toNat : Nat) : ℚ)

/-- The loop of `log2_floor`: halve `n` until it is below 2, at most `fuel` times. -/
def log2_steps : Nat → Nat → Nat
  | 0, _ => 0
  | fuel + 1, n => if n < 2 then 0 else log2_steps fuel (n / 2) + 1

/-- The number `floor (log2 n)` of a positive `n`: the position of its leading bit. -/
def log2_floor (n : Nat) : Nat := log2_steps n n

/-- Rounding of a real number to binary64: the nearest number with a significand of 53 bits,
ties going to the even significand. With `k = floor (log2 |q|)` the significand is `|q| / 2^(k -
52)`, a number in `[2^52, 2^53)`, rounded to an integer. The exponent range of binary64 is not
modelled: the quotients, products and sums of `int` values that the engine forms stay inside
it. -/
def binary64 (q : ℚ) : ℚ :=
  if q = 0 then 0
  else
    let a : ℚ := |q|
    let k0 : Int := (log2_floor a.num.natAbs : Int) - (log2_floor a.den : Int)
    let k : Int := if scale a (-k0) < 1 then k0 - 1 else k0
    let e : Int := k - 52
    let m : ℚ := scale a (-e)
    let f : Int := m.num / (m.den : Int)
    let r : Int :=
      if m - (f : ℚ) < 1 / 2 then f
      else if 1 / 2 < m - (f : ℚ) then f + 1
      else if f % 2 = 0 then f else f + 1
    if q < 0 then -(scale (r : ℚ) e) else scale (r : ℚ) e

/-- The binary64 result of an operation whose exact result is `x`. -/
def Dbl.round (x : Dbl) : Dbl :=
  match x with
  | some q => some (binary64 q)
  | none => none

/-! ## Strings -/

/-- Lexicographic three-way comparison of two character sequences, as `char_traits::compare`
followed by the comparison of the lengths. -/
def compare_chars : List Char → List Char → Int
  | [], [] => 0
  | [], _ :: _ => -1
  | _ :: _, [] => 1
  | a :: as, b :: bs =>
    if a.toNat < b.toNat then -1
    else if b.toNat < a.toNat then 1
    else compare_chars as bs

/-- The call `s.compare(t)` of `std::string`: negative, zero or positive. -/
def string_compare (s t : String) : Int := compare_chars s.data t.data

/-! ## Data model -/

/-- Set mode (`ESetMode`); `OTHER` stands for any value outside the two handled ones. -/
inductive ESetMode where
  | INTERSECTION
  | FULL
  | OTHER
  deriving DecidableEq, Repr

/-- Max mode (`EMaxMode`); `OTHER` stands for any value outside the two handled ones. -/
inductive EMaxMode where
  | AVOID
  | ACCOMPANY
  | OTHER
  deriving DecidableEq, Repr

/-- Alternative hypothesis of the binomial test. -/
inductive EHypothesis where
  | LESS
  | GREATER
  | TWOTAILED
  deriving DecidableEq, Repr

/-- The options read by the engine (`TParameters`). -/
structure TParameters where
  sig_level : ℚ
  correction : Nat
  coin_set_mode : ESetMode
  coin_max_mode : EMaxMode
  alt_hypothesis : EHypothesis
  output_all : Bool
  verbose : Bool

/-- A connector; `addr` is the address of the object, which is its identity as a map key. -/
structure Beta where
  addr : Nat
  name : String
  deriving DecidableEq, Repr

/-- The map `std::map<const Beta*, int>` of an entity, in iteration order. -/
structure EdgeMap where
  entries : List (Beta × Int)
  sorted : (entries.map (fun kvp => kvp.1.addr)).Pairwise (fun a b => a < b)

/-- Number of entries, `size()`. -/
def EdgeMap.size (m : EdgeMap) : Nat := m.entries.length

/-- An iterator of an `EdgeMap`: the map object it belongs to and the entry it points to
(`none` for the past-the-end position). -/
structure MapIter where
  owner : Nat
  node : Option (Beta × Int)
  deriving DecidableEq

/-- The call `m.find(&beta)` on the map object `owner`. -/
def EdgeMap.find (owner : Nat) (m : EdgeMap) (beta : Beta) : MapIter :=
  ⟨owner, m.entries.find? (fun kvp => kvp.1.addr == beta.addr)⟩

/-- The call `m.end()` on the map object `owner`. -/
def EdgeMap.end_ (owner : Nat) (_m : EdgeMap) : MapIter := ⟨owner, none⟩

/-- Whether the map `m` has an entry whose key is the connector `beta`. -/
def has_key (m : EdgeMap) (beta : Beta) : Bool :=
  m.entries.any (fun kvp => kvp.1.addr == beta.addr)

/-- An entity. -/
structure Alpha where
  name : String
  edges : EdgeMap

/-- A weighted edge, identified by `"<entity>-<connector>"`. -/
structure Edge where
  name : String
  weight : ℚ
  deriving DecidableEq, Repr

/-- The dataset as the engine reads it: options, the entity table in iteration order, the
connector table, the edge table and the result of `get_num_edges()`. -/
structure DataSet where
  options : TParameters
  alphas : List Alpha
  betas : List Beta
  edges : List Edge
  num_edges : Nat

/-- The two external pure functions. -/
structure Externals where
  correct : ℚ → Nat → Nat → ℚ
  test : EHypothesis → Int → Int → Dbl → ℚ

/-- Modelled from the spec: `id_lookup<Edge>::find_id` (declared in `elements.h`, which is
missing) looks an edge up by its composite string key and fails when the key is absent. -/
def find_id (edge_table : List Edge) (id : String) : Except String Edge :=
  match edge_table.find? (fun e => e.name == id) with
  | some e => .ok e
  | none => .error "find_id: no such element."

/-- The connectors of the entity are connectors of the dataset. -/
def connectors_known (ds : DataSet) (a : Alpha) : Prop :=
  ∀ kvp ∈ a.edges.entries, kvp.1 ∈ ds.betas

deriving instance DecidableEq for Except

/-! ## Output -/

/-- One tab-separated field of the output file. -/
inductive Cell where
  | text (s : String)
  | real (x : Dbl)
  | int (i : Int)
  | unspecified
  deriving DecidableEq

/-- The field written for `static_cast<int>(x)`. -/
def Cell.ofCast (x : Dbl) : Cell :=
  match x.toInt with
  | some i => .int i
  | none => .unspecified

/-- What the loop body reads and writes outside its own locals: the return flag, the lines of
the output file, and the calls made to `dataset._generate_coincident_edge`. -/
structure RunState where
  returnflag : Int
  analysis : List (List Cell)
  coincident : List (String × String × ℚ)

/-- Lines 334-379: `Coincidence::_write_header`. -/
def _write_header (ds : DataSet) (analysis : List (List Cell)) :
    Except String (List (List Cell)) :=
  match ds.options.coin_max_mode with
  | .ACCOMPANY =>
    .ok (analysis ++ [[.text "Source", .text "Target", .text "p",
      .text "Avg synthetic distance", .text "successes", .text "observations", .text "rate",
      .text "expected", .text "total source", .text "total target", .text "fraction source",
      .text "fraction target"]])
  | .AVOID =>
    .ok (analysis ++ [[.text "Source", .text "Target", .text "p",
      .text "successes", .text "observations", .text "rate",
      .text "expected", .text "total source", .text "total target", .text "fraction source",
      .text "fraction target"]])
  | .OTHER => .error "Invalid options around MAX_MODE_MASK."

/-! ## The loop body of `Coincidence::run` -/

/-- The locals `overlaps`, `edges_ovlp` and `edges_union`. -/
structure Counts where
  overlaps : Int
  edges_ovlp : List String
  edges_union : List String

/-- Lines 100-110: the loop over `edges_yain`. -/
def first_loop (edges_yain : EdgeMap) (tain_obj : Nat) (edges_tain : EdgeMap) (c : Counts) :
    Counts :=
  edges_yain.entries.foldl
    (fun c kvp_edges =>
      let beta := kvp_edges.1
      let it := edges_tain.find tain_obj beta
      let c1 : Counts :=
        if it ≠ edges_tain.end_ tain_obj then
          { c with overlaps := c.overlaps + 1, edges_ovlp := c.edges_ovlp ++ [beta.name] }
        else c
      { c1 with edges_union := c1.edges_union ++ [beta.name] })
    c

/-- Lines 111-117: the loop over `edges_tain`; the iterator found in `edges_yain` is compared
with `edges_tain.end()`. -/
def second_loop (yain_obj : Nat) (edges_yain : EdgeMap) (tain_obj : Nat) (edges_tain : EdgeMap)
    (c : Counts) : Counts :=
  edges_tain.entries.foldl
    (fun c kvp_edges =>
      let beta := kvp_edges.1
      let it := edges_yain.find yain_obj beta
      if it = edges_tain.end_ tain_obj then
        { c with edges_union := c.edges_union ++ [beta.name] }
      else c)
    c

/-- Lines 96-117: both loops, from the initial values of the three locals. -/
def count_overlaps (yain_obj : Nat) (edges_yain : EdgeMap) (tain_obj : Nat)
    (edges_tain : EdgeMap) : Counts :=
  second_loop yain_obj edges_yain tain_obj edges_tain
    (first_loop edges_yain tain_obj edges_tain ⟨0, [], []⟩)

/-- Line 120: `total_range`. -/
def total_range (num_edges_yain num_edges_tain overlaps : Int) : Int :=
  num_edges_yain + num_edges_tain - overlaps

/-- Lines 149-150: `chance_i` and `chance_j`. -/
def chance (num_edges num_observations : Int) : Dbl :=
  (Dbl.ofInt num_edges).divInt num_observations

/-- Lines 152-153: `not_cross_1_chance` and `not_cross_2_chance`. -/
def not_cross_chance (num_edges num_observations : Int) : Dbl :=
  (Dbl.ofInt (num_observations - num_edges)).divInt num_observations

/-- Lines 158-176: the switch on `coin_max_mode`, giving `successes` and `rate`. -/
def max_mode_switch (mode : EMaxMode) (total_range overlaps : Int)
    (chance_i chance_j not_cross_1_chance not_cross_2_chance : Dbl) :
    Except String (Int × Dbl) :=
  match mode with
  | .AVOID =>
    .ok (total_range - overlaps,
      (chance_i.mul not_cross_2_chance).add (chance_j.mul not_cross_1_chance))
  | .ACCOMPANY => .ok (overlaps, chance_i.mul chance_j)
  | .OTHER => .error "Invalid options around MAX_MODE_MASK."

/-- Lines 149-171 in binary64: the value that the variable `rate` holds, each of the four
quotients and each product and sum of the switch being rounded to binary64 (the casts of the
`int` operands are exact). -/
def rate_binary64 (mode : EMaxMode) (num_edges_yain num_edges_tain num_observations : Int) :
    Dbl :=
  let chance_i := (chance num_edges_yain num_observations).round
  let chance_j := (chance num_edges_tain num_observations).round
  let not_cross_1_chance := (not_cross_chance num_edges_yain num_observations).round
  let not_cross_2_chance := (not_cross_chance num_edges_tain num_observations).round
  match mode with
  | .AVOID =>
    (((chance_i.mul not_cross_2_chance).round).add ((chance_j.mul not_cross_1_chance).round)).round
  | .ACCOMPANY => (chance_i.mul chance_j).round
  | .OTHER => none

/-- Lines 277 and 301: the field `static_cast<int>(rate * num_observations + 0.5)`, with the
product and the sum rounded to binary64 before the cast truncates. -/
def expected_count (mode : EMaxMode) (num_edges_yain num_edges_tain num_observations : Int) :
    Cell :=
  Cell.ofCast
    (((((rate_binary64 mode num_edges_yain num_edges_tain num_observations).mul
      (Dbl.ofInt num_observations)).round).add (some (1 / 2))).round)

/-- The weight of the edge `id` of the table (zero when the table has no such edge). -/
def weight_of (edge_table : List Edge) (id : String) : ℚ :=
  match find_id edge_table id with
  | .ok e => e.weight
  | .error _ => 0

/-- The secondary statistic in the words of the specification: the sum over the connectors `p`
of the overlap list of `|weight(edge(A-p)) - weight(edge(B-p))|`, divided by the length of the
overlap list. -/
def avg_synthetic_distance (edge_table : List Edge) (name_A name_B : String)
    (overlap_list : List String) : ℚ :=
  (overlap_list.map (fun p => |weight_of edge_table (name_A ++ "-" ++ p)
    - weight_of edge_table (name_B ++ "-" ++ p)|)).sum / (overlap_list.length : ℚ)

/-- Lines 258-261: the body of the loop over `edges_ovlp`, one step of `syn_sums`. -/
def syn_sums_step (edge_table : List Edge) (yain_name tain_name : String) (syn_sums : ℚ)
    (p : String) : Except String ℚ :=
  match find_id edge_table (yain_name ++ "-" ++ p) with
  | .error e => .error e
  | .ok edge1 =>
    match find_id edge_table (tain_name ++ "-" ++ p) with
    | .error e => .error e
    | .ok edge2 => .ok (syn_sums + |edge1.weight - edge2.weight|)

/-- Lines 255-262: the accumulation of `syn_sums` over `edges_ovlp`. -/
def syn_sums_loop (edge_table : List Edge) (yain_name tain_name : String)
    (edges_ovlp : List String) : Except String ℚ :=
  edges_ovlp.foldlM (syn_sums_step edge_table yain_name tain_name) 0

/-- Lines 248-315: the switch that writes the record of a pair; the result is the line that
`analysis << ... << std::endl` appends to the output file. -/
def write_record (ds : DataSet) (alpha_yain alpha_tain : Alpha) (edges_ovlp : List String)
    (p_value : ℚ) (successes num_observations : Int) (rate : Dbl)
    (num_edges_yain num_edges_tain : Int) (chance_i chance_j : Dbl) :
    Except String (List Cell) :=
  match ds.options.coin_max_mode with
  | .ACCOMPANY =>
    match syn_sums_loop ds.edges alpha_yain.name alpha_tain.name edges_ovlp with
    | .error e => .error e
    | .ok syn_sums =>
      let avg_syndist := Dbl.divInt (some syn_sums) edges_ovlp.length
      .ok [.text alpha_yain.name, .text alpha_tain.name, .real (some p_value),
        .real avg_syndist, .int successes, .int num_observations, .real rate,
        expected_count .ACCOMPANY num_edges_yain num_edges_tain num_observations,
        .int num_edges_yain, .int num_edges_tain, .real chance_i, .real chance_j]
  | .AVOID =>
    .ok [.text alpha_yain.name, .text alpha_tain.name, .real (some p_value),
      .int successes, .int num_observations, .real rate,
      expected_count .AVOID num_edges_yain num_edges_tain num_observations,
      .int num_edges_yain, .int num_edges_tain, .real chance_i, .real chance_j]
  | .OTHER => .error "Invalid options around MAX_MODE_MASK."

/-- What an iteration that gets to line 246 does: the line it appends to the output file and the
arguments of its call `dataset._generate_coincident_edge(alpha_yain, alpha_tain, retval)`. -/
structure Emission where
  line : List Cell
  coincident : String × String × ℚ
  deriving DecidableEq

/-- Lines 148-317: the loop body once `num_observations` is set. The result `none` is a
`continue`; `some e` is an iteration that runs to its end, writing `e`. -/
def body_tail (ds : DataSet) (ext : Externals) (cor_sig : ℚ) (alpha_yain alpha_tain : Alpha)
    (c : Counts) (total_range num_observations : Int) : Except String (Option Emission) :=
  let options := ds.options
  let num_edges_yain : Int := alpha_yain.edges.size
  let num_edges_tain : Int := alpha_tain.edges.size
  let chance_i := chance num_edges_yain num_observations
  let chance_j := chance num_edges_tain num_observations
  let not_cross_1_chance := not_cross_chance num_edges_yain num_observations
  let not_cross_2_chance := not_cross_chance num_edges_tain num_observations
  match max_mode_switch options.coin_max_mode total_range c.overlaps chance_i chance_j
      not_cross_1_chance not_cross_2_chance with
  | .error e => .error e
  | .ok (successes, rate) =>
    if rate = some 0 ∨ rate = some 1 then .ok none
    else
      let p_value := ext.test options.alt_hypothesis successes num_observations rate
      if p_value > cor_sig ∧ options.output_all = false then .ok none
      else
        let retval := p_value
        match write_record ds alpha_yain alpha_tain c.edges_ovlp p_value successes
            num_observations rate num_edges_yain num_edges_tain chance_i chance_j with
        | .error e => .error e
        | .ok line => .ok (some ⟨line, (alpha_yain.name, alpha_tain.name, retval)⟩)

/-- Lines 85-88: the name filter; `true` when the pair is kept. -/
def name_filter (alpha_yain alpha_tain : Alpha) : Bool :=
  !decide (string_compare alpha_tain.name alpha_yain.name ≤ 0)

/-- Lines 125-146: the switch on `coin_set_mode`. The result `some n` is the value given to
`num_observations`, `none` is the `continue` of the zero-observation guard. -/
def set_mode_switch (mode : ESetMode) (total_range max_coincidence : Int) :
    Except String (Option Int) :=
  match mode with
  | .INTERSECTION =>
    let num_observations := total_range
    if num_observations = 0 then .ok none else .ok (some num_observations)
  | .FULL =>
    let num_observations := max_coincidence
    .ok (some num_observations)
  | .OTHER => .error "Invalid options around SET_MODE_MASK."

/-- The value that the switch of lines 125-146 gives to `num_observations` under the two set
modes it handles: `total_range` under INTERSECTION, `max_coincidence` under FULL. -/
def num_observations_of (mode : ESetMode) (total_range max_coincidence : Int) : Int :=
  match mode with
  | .INTERSECTION => total_range
  | _ => max_coincidence

/-- Lines 74-317: one iteration of the double loop, as far as its effect goes. The result
`none` is an iteration left by a `continue`. -/
def iteration (ds : DataSet) (ext : Externals) (cor_sig : ℚ) (yain_count tain_count : Nat) :
    Except String (Option Emission) :=
  match ds.alphas.get? yain_count, ds.alphas.get? tain_count with
  | some alpha_yain, some alpha_tain =>
    let edges_yain := alpha_yain.edges
    let num_edges_yain : Int := edges_yain.size
    if name_filter alpha_yain alpha_tain = false then .ok none
    else
      let edges_tain := alpha_tain.edges
      let num_edges_tain : Int := edges_tain.size
      let c := count_overlaps yain_count edges_yain tain_count edges_tain
      let total_range := total_range num_edges_yain num_edges_tain c.overlaps
      let max_coincidence : Int := ds.betas.length
      match set_mode_switch ds.options.coin_set_mode total_range max_coincidence with
      | .error e => .error e
      | .ok none => .ok none
      | .ok (some num_observations) =>
        body_tail ds ext cor_sig alpha_yain alpha_tain c total_range num_observations
  | _, _ => .ok none

/-- Lines 74-189: the arguments `(alt_hypothesis, successes, num_observations, rate)` with which
the iteration calls `Binomial::test` at line 189; `none` when the iteration does not get to
line 189 (it is left by a `continue` or aborts before). -/
def test_call (ds : DataSet) (yain_count tain_count : Nat) :
    Option (EHypothesis × Int × Int × Dbl) :=
  match ds.alphas.get? yain_count, ds.alphas.get? tain_count with
  | some alpha_yain, some alpha_tain =>
    let edges_yain := alpha_yain.edges
    let num_edges_yain : Int := edges_yain.size
    if name_filter alpha_yain alpha_tain = false then none
    else
      let edges_tain := alpha_tain.edges
      let num_edges_tain : Int := edges_tain.size
      let c := count_overlaps yain_count edges_yain tain_count edges_tain
      let total_range := total_range num_edges_yain num_edges_tain c.overlaps
      let max_coincidence : Int := ds.betas.length
      match set_mode_switch ds.options.coin_set_mode total_range max_coincidence with
      | .ok (some num_observations) =>
        match max_mode_switch ds.options.coin_max_mode total_range c.overlaps
            (chance num_edges_yain num_observations) (chance num_edges_tain num_observations)
            (not_cross_chance num_edges_yain num_observations)
            (not_cross_chance num_edges_tain num_observations) with
        | .ok (successes, rate) =>
          if rate = some 0 ∨ rate = some 1 then none
          else some (ds.options.alt_hypothesis, successes, num_observations, rate)
        | .error _ => none
      | _ => none
  | _, _ => none

/-- Lines 74-317: one iteration of the double loop on the state. An iteration that runs to its
end sets `returnflag = 0` (line 247), appends its line to the output file and calls
`_generate_coincident_edge`; a `continue` leaves the state as it is. -/
def loop_body (ds : DataSet) (ext : Externals) (cor_sig : ℚ) (yain_count tain_count : Nat)
    (st : RunState) : Except String RunState :=
  match iteration ds ext cor_sig yain_count tain_count with
  | .error e => .error e
  | .ok none => .ok st
  | .ok (some e) =>
    .ok { returnflag := 0, analysis := st.analysis ++ [e.line],
          coincident := st.coincident ++ [e.coincident] }

/-- The index pairs `(yain_count, tain_count)` visited by the double loop over a table of `n`
entities, in sequential order. -/
def loop_pairs (n : Nat) : List (Nat × Nat) :=
  (List.range n).flatMap (fun yain_count => (List.range n).map (fun tain_count =>
    (yain_count, tain_count)))

/-- Whether the iteration `(yain_count, tain_count)` gets past the name filter of line 85. -/
def passes_filter (ds : DataSet) (yain_count tain_count : Nat) : Bool :=
  match ds.alphas.get? yain_count, ds.alphas.get? tain_count with
  | some alpha_yain, some alpha_tain => name_filter alpha_yain alpha_tain
  | _, _ => false

/-- The lines that the iteration `(yain_count, tain_count)` appends to the output file: one line
when it runs to its end, none when it is left by a `continue` (or aborts). -/
def pair_lines (ds : DataSet) (ext : Externals) (cor_sig : ℚ) (yain_count tain_count : Nat) :
    List (List Cell) :=
  match iteration ds ext cor_sig yain_count tain_count with
  | .ok (some e) => [e.line]
  | _ => []

/-- Every edge that the secondary statistic of a pair looks up is in the edge table. -/
def lookups_defined (ds : DataSet) : Prop :=
  ∀ (y t : Nat) (alpha_yain alpha_tain : Alpha),
    ds.alphas.get? y = some alpha_yain → ds.alphas.get? t = some alpha_tain →
    ∀ p ∈ (count_overlaps y alpha_yain.edges t alpha_tain.edges).edges_ovlp,
      (∃ e, find_id ds.edges (alpha_yain.name ++ "-" ++ p) = .ok e) ∧
      (∃ e, find_id ds.edges (alpha_tain.name ++ "-" ++ p) = .ok e)

/-- The corrected significance level of line 37. -/
def cor_sig_of (ds : DataSet) (ext : Externals) : ℚ :=
  ext.correct ds.options.sig_level ds.options.correction ds.num_edges

/-- A counted `for` loop over `0 .. n-1` threading the state, stopping at the first error. -/
def for_loop (n : Nat) (body : Nat → RunState → Except String RunState) (st : RunState) :
    Except String RunState :=
  (List.range n).foldlM (fun st i => body i st) st

/-- Lines 25-325: `Coincidence::run`; the result is the returned flag and the lines of the
output file. -/
def run (ds : DataSet) (ext : Externals) : Except String (Int × List (List Cell)) :=
  let cor_sig := ext.correct ds.options.sig_level ds.options.correction ds.num_edges
  match _write_header ds [] with
  | .error e => .error e
  | .ok analysis =>
    let returnflag : Int := -1
    let size_alpha_table := ds.alphas.length
    match for_loop size_alpha_table
        (fun yain_count st =>
          for_loop size_alpha_table
            (fun tain_count st => loop_body ds ext cor_sig yain_count tain_count st) st)
        ⟨returnflag, analysis, []⟩ with
    | .error e => .error e
    | .ok st => .ok (st.returnflag, st.analysis)

/-! ## Example data -/

/-- Connectors `p`, `q`, `r`, `s`. -/
def beta_p : Beta := ⟨1, "p"⟩
def beta_q : Beta := ⟨2, "q"⟩
def beta_r : Beta := ⟨3, "r"⟩
def beta_s : Beta := ⟨4, "s"⟩

/-- Entity `X` with connectors `p`, `q`. -/
def alpha_X : Alpha := ⟨"X", ⟨[(beta_p, 1), (beta_q, 1)], by decide⟩⟩

/-- Entity `Y` with connectors `q`, `r`. -/
def alpha_Y : Alpha := ⟨"Y", ⟨[(beta_q, 1), (beta_r, 1)], by decide⟩⟩

/-- Entity `A` without connectors. -/
def alpha_A : Alpha := ⟨"A", ⟨[], by decide⟩⟩

/-- Entity `B` without connectors. -/
def alpha_B : Alpha := ⟨"B", ⟨[], by decide⟩⟩

/-- Options with the given modes and `output_all` flag; significance level `1/20`, two-sided. -/
def example_options (set_mode : ESetMode) (max_mode : EMaxMode) (output_all : Bool) :
    TParameters :=
  ⟨1 / 20, 0, set_mode, max_mode, .TWOTAILED, output_all, false⟩

/-- The edge table of the entities `X` and `Y`. -/
def example_edges : List Edge := [⟨"X-p", 1⟩, ⟨"X-q", 3⟩, ⟨"Y-q", 5⟩, ⟨"Y-r", 1⟩]

/-- The dataset of `X` and `Y` over the four connectors `p`, `q`, `r`, `s`. -/
def example_dataset (set_mode : ESetMode) (max_mode : EMaxMode) (output_all : Bool) : DataSet :=
  ⟨example_options set_mode max_mode output_all, [alpha_X, alpha_Y],
    [beta_p, beta_q, beta_r, beta_s], example_edges, 4⟩

/-- A dataset with two entities and no connector at all. -/
def void_dataset (set_mode : ESetMode) (max_mode : EMaxMode) : DataSet :=
  ⟨example_options set_mode max_mode true, [alpha_A, alpha_B], [], [], 0⟩

/-- A dataset with the entity `A`, without connectors, and the entity `X`. -/
def mixed_dataset (set_mode : ESetMode) (max_mode : EMaxMode) : DataSet :=
  ⟨example_options set_mode max_mode true, [alpha_A, alpha_X],
    [beta_p, beta_q, beta_r, beta_s], example_edges, 4⟩

/-- A dataset with the single entity `X` and a set mode outside the handled values. -/
def single_dataset : DataSet :=
  ⟨example_options .OTHER .AVOID true, [alpha_X], [beta_p, beta_q, beta_r, beta_s],
    example_edges, 4⟩

/-- Entity `U` with the connector `p` only. -/
def alpha_U : Alpha := ⟨"U", ⟨[(beta_p, 1)], by decide⟩⟩

/-- Entity `V` with the connector `r` only. -/
def alpha_V : Alpha := ⟨"V", ⟨[(beta_r, 1)], by decide⟩⟩

/-- The dataset of `U` and `V`, whose edge sets are disjoint, under INTERSECTION and ACCOMPANY
with `output_all = true`. -/
def disjoint_dataset : DataSet :=
  ⟨example_options .INTERSECTION .ACCOMPANY true, [alpha_U, alpha_V],
    [beta_p, beta_q, beta_r, beta_s], [⟨"U-p", 1⟩, ⟨"V-r", 1⟩], 2⟩

/-- Entity `Z` with the same connectors as `X`. -/
def alpha_Z : Alpha := ⟨"Z", ⟨[(beta_p, 2), (beta_q, 5)], by decide⟩⟩

/-- The dataset of `X` and `Z`, whose edge sets are identical, over four connectors, in
ACCOMPANY mode with `output_all = true`. -/
def twin_dataset (set_mode : ESetMode) : DataSet :=
  ⟨example_options set_mode .ACCOMPANY true, [alpha_X, alpha_Z],
    [beta_p, beta_q, beta_r, beta_s],
    [⟨"X-p", 1⟩, ⟨"X-q", 3⟩, ⟨"Z-p", 2⟩, ⟨"Z-q", 7⟩], 4⟩

/-- The twelve connectors `c1`, ..., `c12`. -/
def wide_betas : List Beta :=
  [⟨1, "c1"⟩, ⟨2, "c2"⟩, ⟨3, "c3"⟩, ⟨4, "c4"⟩, ⟨5, "c5"⟩, ⟨6, "c6"⟩, ⟨7, "c7"⟩, ⟨8, "c8"⟩,
    ⟨9, "c9"⟩, ⟨10, "c10"⟩, ⟨11, "c11"⟩, ⟨12, "c12"⟩]

/-- Entity `P` with the nine connectors `c1`, ..., `c9`. -/
def alpha_P : Alpha := ⟨"P", ⟨(wide_betas.take 9).map (fun b => (b, 1)), by decide⟩⟩

/-- Entity `Q` with the eleven connectors `c2`, ..., `c12`. -/
def alpha_Q : Alpha := ⟨"Q", ⟨(wide_betas.drop 1).map (fun b => (b, 1)), by decide⟩⟩

/-- The dataset of `P` and `Q` (degrees 9 and 11, eight shared connectors) over the twelve
connectors, under INTERSECTION sizing in AVOID mode with `output_all = true`. -/
def wide_dataset : DataSet :=
  ⟨example_options .INTERSECTION .AVOID true, [alpha_P, alpha_Q], wide_betas, [], 20⟩

/-- External functions: no correction, and a binomial test that always answers `p`. -/
def example_externals (p : ℚ) : Externals := ⟨fun sig_level _ _ => sig_level, fun _ _ _ _ => p⟩

/-! ## Strings and the name filter -/

theorem compare_chars_self (a : List Char) : compare_chars a a = 0 := by
  induction a with
  | nil => rfl
  | cons x xs ih => simp [compare_chars, ih]

theorem compare_chars_swap (a b : List Char) : compare_chars b a = - compare_chars a b := by
  induction a generalizing b with
  | nil => cases b <;> simp [compare_chars]
  | cons x xs ih =>
    cases b with
    | nil => simp [compare_chars]
    | cons y ys =>
      simp only [compare_chars]
      by_cases h1 : x.toNat < y.toNat
      · have h2 : ¬ y.toNat < x.toNat := by omega
        simp [h1, h2]
      · by_cases h2 : y.toNat < x.toNat
        · simp [h1, h2]
        · simp [h1, h2, ih]

theorem compare_chars_eq_zero (a b : List Char) (h : compare_chars a b = 0) : a = b := by
  induction a generalizing b with
  | nil => cases b with
    | nil => rfl
    | cons y ys => simp [compare_chars] at h
  | cons x xs ih =>
    cases b with
    | nil => simp [compare_chars] at h
    | cons y ys =>
      simp only [compare_chars] at h
      by_cases h1 : x.toNat < y.toNat
      · simp [h1] at h
      · by_cases h2 : y.toNat < x.toNat
        · simp [h1, h2] at h
        · simp only [h1, h2, if_false] at h
          have hxy : x = y := by
            apply Char.ext
            apply UInt32.ext  
            have : x.toNat = y.toNat := by omega
            simpa [Char.toNat, UInt32.toNat] using this
          rw [hxy, ih ys h]

theorem char_lt_iff (x y : Char) : x < y ↔ x.toNat < y.toNat := Iff.rfl

theorem char_eq_of_toNat (x y : Char) (h1 : ¬ x.toNat < y.toNat) (h2 : ¬ y.toNat < x.toNat) :
    x = y := by
  apply Char.ext
  apply UInt32.ext
  have : x.toNat = y.toNat := by omega
  simpa [Char.toNat, UInt32.toNat] using this

theorem compare_chars_lt (a b : List Char) :
    compare_chars a b < 0 ↔ List.Lex (fun x y : Char => x < y) a b := by
  induction a generalizing b with
  | nil => cases b with
    | nil => simp [compare_chars]
    | cons y ys => simp [compare_chars]; exact List.Lex.nil
  | cons x xs ih =>
    cases b with
    | nil => simp [compare_chars]
    | cons y ys =>
      simp only [compare_chars]
      by_cases h1 : x.toNat < y.toNat
      · simp only [h1, if_true]
        exact ⟨fun _ => List.Lex.rel ((char_lt_iff x y).2 h1), fun _ => by decide⟩
      · by_cases h2 : y.toNat < x.toNat
        · simp only [h1, h2, if_true, if_false]
          constructor
          · intro h; exact absurd h (by decide)
          · intro h
            cases h with
            | cons h => omega
            | rel h => exact absurd ((char_lt_iff x y).1 h) h1
        · simp only [h1, h2, if_false]
          rw [ih]
          have hxy := char_eq_of_toNat x y h1 h2
          subst hxy
          constructor
          · intro h
            exact List.Lex.cons h
          · intro h
            cases h with
            | cons h => exact h
            | rel h => exact absurd ((char_lt_iff x x).1 h) h1

theorem string_compare_lt (s t : String) : string_compare s t < 0 ↔ s < t :=
  (compare_chars_lt s.data t.data).trans String.lt_iff_toList_lt.symm

theorem string_compare_swap (s t : String) : string_compare t s = - string_compare s t :=
  compare_chars_swap s.data t.data

theorem string_compare_eq_zero (s t : String) (h : string_compare s t = 0) : s = t :=
  String.ext (compare_chars_eq_zero s.data t.data h)

theorem name_filter_iff (alpha_yain alpha_tain : Alpha) :
    name_filter alpha_yain alpha_tain = true ↔ alpha_yain.name < alpha_tain.name := by
  rw [← string_compare_lt]
  have h := string_compare_swap alpha_yain.name alpha_tain.name
  simp only [name_filter, Bool.not_eq_true', decide_eq_false_iff_not]
  omega

theorem loop_pairs_nodup (n : Nat) : (loop_pairs n).Nodup :=
  List.Nodup.product (List.nodup_range n) (List.nodup_range n)

theorem mem_loop_pairs (n : Nat) (p : Nat × Nat) : p ∈ loop_pairs n ↔ p.1 < n ∧ p.2 < n := by
  obtain ⟨y, t⟩ := p
  have h : (y, t) ∈ List.product (List.range n) (List.range n) ↔
      y ∈ List.range n ∧ t ∈ List.range n := List.mem_product
  rw [List.mem_range, List.mem_range] at h
  exact h

theorem passes_filter_iff (ds : DataSet) (y t : Nat) :
    passes_filter ds y t = true ↔
      ∃ alpha_yain alpha_tain, ds.alphas.get? y = some alpha_yain ∧
        ds.alphas.get? t = some alpha_tain ∧ alpha_yain.name < alpha_tain.name := by
  unfold passes_filter
  cases h1 : ds.alphas.get? y with
  | none => simp
  | some ya =>
    cases h2 : ds.alphas.get? t with
    | none => simp
    | some ta => simp [name_filter_iff]

theorem passes_filter_self (ds : DataSet) (i : Nat) : passes_filter ds i i = false := by
  cases h : passes_filter ds i i with
  | false => rfl
  | true =>
    obtain ⟨ya, ta, h1, h2, h3⟩ := (passes_filter_iff ds i i).1 h
    rw [h1] at h2
    cases h2
    exact absurd h3 (lt_irrefl _)

theorem singleton_of_nodup_mem {α : Type} (l : List α) (x : α) (hnd : l.Nodup)
    (hmem : ∀ z, z ∈ l ↔ z = x) : l = [x] := by
  apply List.perm_singleton.1
  apply (List.perm_ext_iff_of_nodup hnd (List.nodup_singleton x)).2
  intro z
  simp [hmem z]

theorem filter_pair_singleton (ds : DataSet) (a b y t : Nat)
    (hy : y < ds.alphas.length) (ht : t < ds.alphas.length)
    (hyt : (y, t) = (a, b) ∨ (y, t) = (b, a))
    (hpass : passes_filter ds y t = true) (hrev : passes_filter ds t y = false) :
    (loop_pairs ds.alphas.length).filter
      (fun p => (decide (p = (a, b)) || decide (p = (b, a))) && passes_filter ds p.1 p.2)
      = [(y, t)] := by
  apply singleton_of_nodup_mem
  · exact (loop_pairs_nodup _).filter _
  · intro z
    simp only [List.mem_filter, mem_loop_pairs, Bool.and_eq_true, Bool.or_eq_true,
      decide_eq_true_eq]
    constructor
    · rintro ⟨-, hz, hp⟩
      rcases hyt with h | h <;> rcases hz with hz | hz
      · rw [hz, ← h]
      · exfalso
        rw [hz] at hp
        simp only [Prod.mk.injEq] at h
        rw [← h.1, ← h.2, hrev] at hp
        exact Bool.noConfusion hp
      · exfalso
        rw [hz] at hp
        simp only [Prod.mk.injEq] at h
        rw [← h.1, ← h.2, hrev] at hp
        exact Bool.noConfusion hp
      · rw [hz, ← h]
    · intro hz
      subst hz
      refine ⟨⟨hy, ht⟩, ?_, hpass⟩
      rcases hyt with h | h
      · exact Or.inl h
      · exact Or.inr h

/-- C1. Pair enumeration: when the entity names are pairwise distinct, for two distinct
entities (table positions `a` and `b`) exactly one iteration of the double loop among `(a, b)`
and `(b, a)` passes the name filter, the one whose first name is lexicographically smaller than
its second name; and no iteration with `yain_count = tain_count` passes the filter. -/
theorem pair_enumeration (ds : DataSet) (hnames : (ds.alphas.map Alpha.name).Nodup)
    (a b : Nat) (ha : a < ds.alphas.length) (hb : b < ds.alphas.length) (hab : a ≠ b) :
    (∃ alpha_yain alpha_tain : Alpha, ∃ y t : Nat,
        ds.alphas.get? y = some alpha_yain ∧ ds.alphas.get? t = some alpha_tain ∧
        alpha_yain.name < alpha_tain.name ∧
        (loop_pairs ds.alphas.length).filter
          (fun p => (decide (p = (a, b)) || decide (p = (b, a))) && passes_filter ds p.1 p.2)
          = [(y, t)]) ∧
    ∀ i, passes_filter ds i i = false := by
  refine ⟨?_, passes_filter_self ds⟩
  have hne : (ds.alphas.get ⟨a, ha⟩).name ≠ (ds.alphas.get ⟨b, hb⟩).name := by
    intro h
    apply hab
    have h1 := (List.nodup_iff_injective_get.1 hnames)
    have h2 : (ds.alphas.map Alpha.name).get ⟨a, by simpa using ha⟩
        = (ds.alphas.map Alpha.name).get ⟨b, by simpa using hb⟩ := by
      simpa using h
    have h3 := h1 h2
    simpa using h3
  have hga : ds.alphas.get? a = some (ds.alphas.get ⟨a, ha⟩) := List.get?_eq_get ha
  have hgb : ds.alphas.get? b = some (ds.alphas.get ⟨b, hb⟩) := List.get?_eq_get hb
  rcases lt_trichotomy (ds.alphas.get ⟨a, ha⟩).name (ds.alphas.get ⟨b, hb⟩).name with h | h | h
  · refine ⟨_, _, a, b, hga, hgb, h, ?_⟩
    apply filter_pair_singleton ds a b a b ha hb (Or.inl rfl)
    · exact (passes_filter_iff ds a b).2 ⟨_, _, hga, hgb, h⟩
    · cases hp : passes_filter ds b a with
      | false => rfl
      | true =>
        obtain ⟨ya, ta, h1, h2, h3⟩ := (passes_filter_iff ds b a).1 hp
        rw [hgb] at h1; rw [hga] at h2
        cases h1; cases h2
        exact absurd h (lt_asymm h3)
  · exact absurd h hne
  · refine ⟨_, _, b, a, hgb, hga, h, ?_⟩
    apply filter_pair_singleton ds a b b a hb ha (Or.inr rfl)
    · exact (passes_filter_iff ds b a).2 ⟨_, _, hgb, hga, h⟩
    · cases hp : passes_filter ds a b with
      | false => rfl
      | true =>
        obtain ⟨ya, ta, h1, h2, h3⟩ := (passes_filter_iff ds a b).1 hp
        rw [hga] at h1; rw [hgb] at h2
        cases h1; cases h2
        exact absurd h (lt_asymm h3)

/-! ## The overlap loops -/

theorem find_ne_end (owner : Nat) (m : EdgeMap) (beta : Beta) :
    m.find owner beta ≠ m.end_ owner ↔ has_key m beta = true := by
  unfold EdgeMap.find EdgeMap.end_ has_key
  cases h : m.entries.find? (fun kvp => kvp.1.addr == beta.addr) with
  | none =>
    simp only [ne_eq, not_true_eq_false, false_iff, Bool.not_eq_true]
    rw [List.find?_eq_none] at h
    simpa using h
  | some e =>
    have h1 := List.find?_some h
    have h2 := List.mem_of_find?_eq_some h
    simp only [ne_eq, MapIter.mk.injEq, true_and, reduceCtorEq, not_false_eq_true, true_iff,
      List.any_eq_true]
    exact ⟨e, h2, h1⟩

theorem first_loop_fold (l : List (Beta × Int)) (tain_obj : Nat) (edges_tain : EdgeMap)
    (c : Counts) :
    l.foldl
      (fun c kvp_edges =>
        let beta := kvp_edges.1
        let it := edges_tain.find tain_obj beta
        let c1 : Counts :=
          if it ≠ edges_tain.end_ tain_obj then
            { c with overlaps := c.overlaps + 1, edges_ovlp := c.edges_ovlp ++ [beta.name] }
          else c
        { c1 with edges_union := c1.edges_union ++ [beta.name] })
      c
    = ⟨c.overlaps + ((l.filter (fun kvp => has_key edges_tain kvp.1)).length : Int),
       c.edges_ovlp ++ (l.filter (fun kvp => has_key edges_tain kvp.1)).map (fun kvp => kvp.1.name),
       c.edges_union ++ l.map (fun kvp => kvp.1.name)⟩ := by
  induction l generalizing c with
  | nil => simp
  | cons x xs ih =>
    rw [List.foldl_cons, ih]
    by_cases h : has_key edges_tain x.1 = true
    · have h' := (find_ne_end tain_obj edges_tain x.1).2 h
      simp [h, h', add_assoc, add_comm]
    · have h' : ¬ (edges_tain.find tain_obj x.1 ≠ edges_tain.end_ tain_obj) :=
        fun hh => h ((find_ne_end tain_obj edges_tain x.1).1 hh)
      simp [h, h']

theorem first_loop_eq (edges_yain : EdgeMap) (tain_obj : Nat) (edges_tain : EdgeMap) (c : Counts) :
    first_loop edges_yain tain_obj edges_tain c
    = ⟨c.overlaps + ((edges_yain.entries.filter (fun kvp => has_key edges_tain kvp.1)).length : Int),
       c.edges_ovlp ++ (edges_yain.entries.filter (fun kvp => has_key edges_tain kvp.1)).map
         (fun kvp => kvp.1.name),
       c.edges_union ++ edges_yain.entries.map (fun kvp => kvp.1.name)⟩ :=
  first_loop_fold edges_yain.entries tain_obj edges_tain c

theorem second_loop_fold (l : List (Beta × Int)) (yain_obj : Nat) (edges_yain : EdgeMap)
    (tain_obj : Nat) (edges_tain : EdgeMap) (c : Counts) :
    l.foldl
      (fun c kvp_edges =>
        let beta := kvp_edges.1
        let it := edges_yain.find yain_obj beta
        if it = edges_tain.end_ tain_obj then
          { c with edges_union := c.edges_union ++ [beta.name] }
        else c)
      c
    = ⟨c.overlaps, c.edges_ovlp,
       c.edges_union ++ (l.filter (fun kvp =>
          decide (yain_obj = tain_obj) && !has_key edges_yain kvp.1)).map
            (fun kvp => kvp.1.name)⟩ := by
  induction l generalizing c with
  | nil => simp
  | cons x xs ih =>
    rw [List.foldl_cons, ih]
    by_cases ho : yain_obj = tain_obj
    · subst ho
      by_cases h : has_key edges_yain x.1 = true
      · have h' : edges_yain.find yain_obj x.1 ≠ edges_tain.end_ yain_obj := by
          have := (find_ne_end yain_obj edges_yain x.1).2 h
          simpa [EdgeMap.end_] using this
        simp [h, h']
      · have h' : edges_yain.find yain_obj x.1 = edges_tain.end_ yain_obj := by
          by_contra hh
          exact h ((find_ne_end yain_obj edges_yain x.1).1 (by simpa [EdgeMap.end_] using hh))
        simp [h, h']
    · have h' : edges_yain.find yain_obj x.1 ≠ edges_tain.end_ tain_obj := by
        simp [EdgeMap.find, EdgeMap.end_, ho]
      simp [ho, h']

theorem count_overlaps_eq (yain_obj : Nat) (edges_yain : EdgeMap) (tain_obj : Nat)
    (edges_tain : EdgeMap) :
    count_overlaps yain_obj edges_yain tain_obj edges_tain
    = ⟨((edges_yain.entries.filter (fun kvp => has_key edges_tain kvp.1)).length : Int),
       (edges_yain.entries.filter (fun kvp => has_key edges_tain kvp.1)).map
         (fun kvp => kvp.1.name),
       edges_yain.entries.map (fun kvp => kvp.1.name) ++
         (edges_tain.entries.filter (fun kvp =>
            decide (yain_obj = tain_obj) && !has_key edges_yain kvp.1)).map
              (fun kvp => kvp.1.name)⟩ := by
  unfold count_overlaps second_loop
  rw [second_loop_fold, first_loop_eq]
  simp

theorem overlap_le_tain (edges_yain edges_tain : EdgeMap) :
    (edges_yain.entries.filter (fun kvp => has_key edges_tain kvp.1)).length
      ≤ edges_tain.entries.length := by
  have hnd : ((edges_yain.entries.filter (fun kvp => has_key edges_tain kvp.1)).map
      (fun kvp => kvp.1.addr)).Nodup := by
    have h1 : (edges_yain.entries.map (fun kvp => kvp.1.addr)).Nodup :=
      edges_yain.sorted.imp (fun h => Nat.ne_of_lt h)
    exact h1.sublist ((List.filter_sublist _).map _)
  have hsub : ((edges_yain.entries.filter (fun kvp => has_key edges_tain kvp.1)).map
      (fun kvp => kvp.1.addr)) ⊆ edges_tain.entries.map (fun kvp => kvp.1.addr) := by
    intro x hx
    simp only [List.mem_map, List.mem_filter] at hx
    obtain ⟨kvp, ⟨-, hk⟩, rfl⟩ := hx
    simp only [has_key, List.any_eq_true, beq_iff_eq] at hk
    obtain ⟨e, he, hea⟩ := hk
    exact List.mem_map.2 ⟨e, he, hea⟩
  have h := (List.subperm_of_subset hnd hsub).length_le
  simpa using h

theorem total_range_bounds (yain_obj : Nat) (edges_yain : EdgeMap) (tain_obj : Nat)
    (edges_tain : EdgeMap) :
    (count_overlaps yain_obj edges_yain tain_obj edges_tain).overlaps
        ≤ min (edges_yain.size : Int) (edges_tain.size : Int) ∧
    total_range edges_yain.size edges_tain.size
        (count_overlaps yain_obj edges_yain tain_obj edges_tain).overlaps
      = (edges_yain.size : Int) + (edges_tain.size : Int)
        - (count_overlaps yain_obj edges_yain tain_obj edges_tain).overlaps ∧
    total_range edges_yain.size edges_tain.size
        (count_overlaps yain_obj edges_yain tain_obj edges_tain).overlaps
      ≥ max (edges_yain.size : Int) (edges_tain.size : Int) := by
  rw [count_overlaps_eq]
  have h1 : (edges_yain.entries.filter (fun kvp => has_key edges_tain kvp.1)).length
      ≤ edges_yain.entries.length := List.length_filter_le _ _
  have h2 := overlap_le_tain edges_yain edges_tain
  simp only [total_range, EdgeMap.size]
  refine ⟨?_, trivial, ?_⟩
  · simp only [le_min_iff]; omega
  · simp only [ge_iff_le, max_le_iff]; omega

/-- C5. Overlap bounds: for any two edge maps, the overlap count computed by the first loop is
at most the smaller of the two sizes, `total_range` is the sum of the sizes minus the overlap
count, and `total_range` is at least the larger of the two sizes. -/
theorem overlap_bounds (yain_obj : Nat) (edges_yain : EdgeMap) (tain_obj : Nat)
    (edges_tain : EdgeMap) :
    (count_overlaps yain_obj edges_yain tain_obj edges_tain).overlaps
        ≤ min (edges_yain.size : Int) (edges_tain.size : Int) ∧
    total_range edges_yain.size edges_tain.size
        (count_overlaps yain_obj edges_yain tain_obj edges_tain).overlaps
      = (edges_yain.size : Int) + (edges_tain.size : Int)
        - (count_overlaps yain_obj edges_yain tain_obj edges_tain).overlaps ∧
    total_range edges_yain.size edges_tain.size
        (count_overlaps yain_obj edges_yain tain_obj edges_tain).overlaps
      ≥ max (edges_yain.size : Int) (edges_tain.size : Int) :=
  total_range_bounds yain_obj edges_yain tain_obj edges_tain

/-! ## The rate model -/

theorem chance_of_ne_zero (k n : Int) (hn : n ≠ 0) : chance k n = some ((k : ℚ) / (n : ℚ)) := by
  simp [chance, Dbl.ofInt, Dbl.divInt, hn]

theorem not_cross_chance_of_ne_zero (k n : Int) (hn : n ≠ 0) :
    not_cross_chance k n = some (1 - (k : ℚ) / (n : ℚ)) := by
  have hq : (n : ℚ) ≠ 0 := by exact_mod_cast hn
  simp only [not_cross_chance, Dbl.ofInt, Dbl.divInt, hn, if_false, Option.some.injEq]
  push_cast
  field_simp

theorem chance_zero (k : Int) : chance k 0 = none := by
  simp [chance, Dbl.ofInt, Dbl.divInt]

theorem size_le_of_known (ds : DataSet) (a : Alpha) (h : connectors_known ds a) :
    a.edges.entries.length ≤ ds.betas.length := by
  have hnd : (a.edges.entries.map (fun kvp => kvp.1.addr)).Nodup :=
    a.edges.sorted.imp (fun h => Nat.ne_of_lt h)
  have hsub : (a.edges.entries.map (fun kvp => kvp.1.addr)) ⊆ ds.betas.map Beta.addr := by
    intro x hx
    obtain ⟨kvp, hk, rfl⟩ := List.mem_map.1 hx
    exact List.mem_map.2 ⟨kvp.1, h kvp hk, rfl⟩
  have h := (List.subperm_of_subset hnd hsub).length_le
  simpa using h

theorem set_mode_switch_some (mode : ESetMode) (tr maxc n : Int)
    (h : set_mode_switch mode tr maxc = .ok (some n)) :
    (mode = .INTERSECTION ∧ n = tr ∧ tr ≠ 0) ∨ (mode = .FULL ∧ n = maxc) := by
  cases mode with
  | INTERSECTION =>
    simp only [set_mode_switch] at h
    split at h
    · simp at h
    · rename_i h0
      simp only [Except.ok.injEq, Option.some.injEq] at h
      exact Or.inl ⟨rfl, h.symm, h0⟩
  | FULL =>
    simp only [set_mode_switch, Except.ok.injEq, Option.some.injEq] at h
    exact Or.inr ⟨rfl, h.symm⟩
  | OTHER => simp [set_mode_switch] at h

/-- Both degrees are at most `num_observations`: always under INTERSECTION, and under FULL when
the connectors of both entities are connectors of the dataset. -/
theorem degrees_le_observations (ds : DataSet) (yain_obj tain_obj : Nat)
    (alpha_yain alpha_tain : Alpha) (n : Int)
    (hswitch : set_mode_switch ds.options.coin_set_mode
      (total_range alpha_yain.edges.size alpha_tain.edges.size
        (count_overlaps yain_obj alpha_yain.edges tain_obj alpha_tain.edges).overlaps)
      ds.betas.length = .ok (some n))
    (hknown : ds.options.coin_set_mode = .FULL →
      connectors_known ds alpha_yain ∧ connectors_known ds alpha_tain) :
    (alpha_yain.edges.size : Int) ≤ n ∧ (alpha_tain.edges.size : Int) ≤ n := by
  rcases set_mode_switch_some _ _ _ _ hswitch with ⟨-, hn, -⟩ | ⟨hm, hn⟩
  · have hb := (total_range_bounds yain_obj alpha_yain.edges tain_obj alpha_tain.edges).2.2
    rw [← hn] at hb
    simp only [ge_iff_le, max_le_iff] at hb
    exact hb
  · obtain ⟨h1, h2⟩ := hknown hm
    have h1' := size_le_of_known ds alpha_yain h1
    have h2' := size_le_of_known ds alpha_tain h2
    rw [hn]
    simp only [EdgeMap.size]
    omega

theorem unit_interval_of_le (k n : Int) (hk : 0 ≤ k) (hn : 0 < n) (hkn : k ≤ n) :
    0 ≤ (k : ℚ) / (n : ℚ) ∧ (k : ℚ) / (n : ℚ) ≤ 1 := by
  have hq : (0 : ℚ) < (n : ℚ) := by exact_mod_cast hn
  have hk' : (0 : ℚ) ≤ (k : ℚ) := by exact_mod_cast hk
  have hkn' : (k : ℚ) ≤ (n : ℚ) := by exact_mod_cast hkn
  exact ⟨div_nonneg hk' hq.le, (div_le_one hq).2 hkn'⟩

/-- C6. ACCOMPANY rate model: for a pair whose `num_observations` is positive, in either set
mode, `successes` is the overlap count and `rate` is `chance_i * chance_j` with
`chance = degree / num_observations`; and this rate lies in `[0, 1]`, the connectors of the two
entities being connectors of the dataset (the fact that bounds a degree by the size of the
connector table under FULL sizing). -/
theorem accompany_rate (ds : DataSet) (yain_obj tain_obj : Nat)
    (alpha_yain alpha_tain : Alpha) (n : Int)
    (hswitch : set_mode_switch ds.options.coin_set_mode
      (total_range alpha_yain.edges.size alpha_tain.edges.size
        (count_overlaps yain_obj alpha_yain.edges tain_obj alpha_tain.edges).overlaps)
      ds.betas.length = .ok (some n))
    (hpos : 0 < n) :
    max_mode_switch .ACCOMPANY
        (total_range alpha_yain.edges.size alpha_tain.edges.size
          (count_overlaps yain_obj alpha_yain.edges tain_obj alpha_tain.edges).overlaps)
        (count_overlaps yain_obj alpha_yain.edges tain_obj alpha_tain.edges).overlaps
        (chance alpha_yain.edges.size n) (chance alpha_tain.edges.size n)
        (not_cross_chance alpha_yain.edges.size n) (not_cross_chance alpha_tain.edges.size n)
      = .ok ((count_overlaps yain_obj alpha_yain.edges tain_obj alpha_tain.edges).overlaps,
          some (((alpha_yain.edges.size : ℚ) / (n : ℚ)) * ((alpha_tain.edges.size : ℚ) / (n : ℚ)))) ∧
    chance alpha_yain.edges.size n = some ((alpha_yain.edges.size : ℚ) / (n : ℚ)) ∧
    chance alpha_tain.edges.size n = some ((alpha_tain.edges.size : ℚ) / (n : ℚ)) ∧
    ((ds.options.coin_set_mode = .FULL →
        connectors_known ds alpha_yain ∧ connectors_known ds alpha_tain) →
      0 ≤ ((alpha_yain.edges.size : ℚ) / (n : ℚ)) * ((alpha_tain.edges.size : ℚ) / (n : ℚ)) ∧
      ((alpha_yain.edges.size : ℚ) / (n : ℚ)) * ((alpha_tain.edges.size : ℚ) / (n : ℚ)) ≤ 1) := by
  have hn0 : n ≠ 0 := by omega
  have hc1 := chance_of_ne_zero alpha_yain.edges.size n hn0
  have hc2 := chance_of_ne_zero alpha_tain.edges.size n hn0
  simp only [Int.cast_natCast] at hc1 hc2
  refine ⟨?_, hc1, hc2, fun hknown => ?_⟩
  · simp [max_mode_switch, hc1, hc2, Dbl.mul]
  · obtain ⟨hle1, hle2⟩ := degrees_le_observations ds yain_obj tain_obj alpha_yain alpha_tain n
      hswitch hknown
    obtain ⟨ha0, ha1⟩ := unit_interval_of_le alpha_yain.edges.size n (by omega) hpos hle1
    obtain ⟨hb0, hb1⟩ := unit_interval_of_le alpha_tain.edges.size n (by omega) hpos hle2
    simp only [Int.cast_natCast] at ha0 ha1 hb0 hb1
    refine ⟨mul_nonneg ha0 hb0, ?_⟩
    calc ((alpha_yain.edges.size : ℚ) / (n : ℚ)) * ((alpha_tain.edges.size : ℚ) / (n : ℚ))
        ≤ 1 * 1 := mul_le_mul ha1 hb1 hb0 (by norm_num)
      _ = 1 := by norm_num

/-! ## Rate model: examples and the AVOID case -/

theorem known_X : connectors_known (example_dataset .FULL .ACCOMPANY true) alpha_X := by
  unfold connectors_known
  decide

theorem known_Y : connectors_known (example_dataset .FULL .ACCOMPANY true) alpha_Y := by
  unfold connectors_known
  decide

/-- C6, witness: `X` and `Y` under FULL sizing over four connectors; the rate is
`(2/4) * (2/4)`, inside `[0, 1]`. -/
theorem accompany_rate_witness :
    max_mode_switch .ACCOMPANY
        (total_range alpha_X.edges.size alpha_Y.edges.size
          (count_overlaps 0 alpha_X.edges 1 alpha_Y.edges).overlaps)
        (count_overlaps 0 alpha_X.edges 1 alpha_Y.edges).overlaps
        (chance alpha_X.edges.size 4) (chance alpha_Y.edges.size 4)
        (not_cross_chance alpha_X.edges.size 4) (not_cross_chance alpha_Y.edges.size 4)
      = .ok ((count_overlaps 0 alpha_X.edges 1 alpha_Y.edges).overlaps,
          some (((alpha_X.edges.size : ℚ) / ((4 : Int) : ℚ)) *
            ((alpha_Y.edges.size : ℚ) / ((4 : Int) : ℚ)))) ∧
    0 ≤ ((alpha_X.edges.size : ℚ) / ((4 : Int) : ℚ)) * ((alpha_Y.edges.size : ℚ) / ((4 : Int) : ℚ))
      ∧
    ((alpha_X.edges.size : ℚ) / ((4 : Int) : ℚ)) * ((alpha_Y.edges.size : ℚ) / ((4 : Int) : ℚ))
      ≤ 1 :=
  have h := accompany_rate (example_dataset .FULL .ACCOMPANY true) 0 1 alpha_X alpha_Y 4
    (by rfl) (by decide)
  ⟨h.1, h.2.2.2 (fun _ => ⟨known_X, known_Y⟩)⟩

/-- The value given to `num_observations` is not negative. -/
theorem observations_nonneg (ds : DataSet) (yain_obj tain_obj : Nat)
    (alpha_yain alpha_tain : Alpha) (n : Int)
    (hswitch : set_mode_switch ds.options.coin_set_mode
      (total_range alpha_yain.edges.size alpha_tain.edges.size
        (count_overlaps yain_obj alpha_yain.edges tain_obj alpha_tain.edges).overlaps)
      ds.betas.length = .ok (some n)) : 0 ≤ n := by
  rcases set_mode_switch_some _ _ _ _ hswitch with ⟨-, hn, -⟩ | ⟨-, hn⟩
  · have hb := (total_range_bounds yain_obj alpha_yain.edges tain_obj alpha_tain.edges).2.2
    rw [hn]
    exact le_trans (Int.natCast_nonneg alpha_yain.edges.size) (le_trans (le_max_left _ _) hb)
  · rw [hn]
    exact Int.natCast_nonneg _

/-- C7 (amended). AVOID rate model: for every pair that gets to the max-mode switch, in either
set mode, `successes` is `total_range - overlaps`. When `num_observations` is positive, the rate
computed from `chance_i`, `chance_j` and the two `not_cross` chances is `chance_i * (1 -
chance_j) + chance_j * (1 - chance_i)` with `chance = degree / num_observations`, and it lies
in `[0, 1]`, the connectors of the two entities being connectors of the dataset. When
`num_observations` is 0 the rate is not a number. -/
theorem avoid_rate (ds : DataSet) (yain_obj tain_obj : Nat)
    (alpha_yain alpha_tain : Alpha) (n : Int)
    (hswitch : set_mode_switch ds.options.coin_set_mode
      (total_range alpha_yain.edges.size alpha_tain.edges.size
        (count_overlaps yain_obj alpha_yain.edges tain_obj alpha_tain.edges).overlaps)
      ds.betas.length = .ok (some n)) :
    ∃ rate : Dbl,
      max_mode_switch .AVOID
          (total_range alpha_yain.edges.size alpha_tain.edges.size
            (count_overlaps yain_obj alpha_yain.edges tain_obj alpha_tain.edges).overlaps)
          (count_overlaps yain_obj alpha_yain.edges tain_obj alpha_tain.edges).overlaps
          (chance alpha_yain.edges.size n) (chance alpha_tain.edges.size n)
          (not_cross_chance alpha_yain.edges.size n) (not_cross_chance alpha_tain.edges.size n)
        = .ok (total_range alpha_yain.edges.size alpha_tain.edges.size
              (count_overlaps yain_obj alpha_yain.edges tain_obj alpha_tain.edges).overlaps
            - (count_overlaps yain_obj alpha_yain.edges tain_obj alpha_tain.edges).overlaps,
            rate) ∧
      0 ≤ n ∧
      (0 < n →
        chance alpha_yain.edges.size n = some ((alpha_yain.edges.size : ℚ) / (n : ℚ)) ∧
        chance alpha_tain.edges.size n = some ((alpha_tain.edges.size : ℚ) / (n : ℚ)) ∧
        rate = some
          (((alpha_yain.edges.size : ℚ) / (n : ℚ)) * (1 - (alpha_tain.edges.size : ℚ) / (n : ℚ))
          + ((alpha_tain.edges.size : ℚ) / (n : ℚ)) * (1 - (alpha_yain.edges.size : ℚ) / (n : ℚ)))
        ∧
        ((ds.options.coin_set_mode = .FULL →
            connectors_known ds alpha_yain ∧ connectors_known ds alpha_tain) →
          0 ≤ ((alpha_yain.edges.size : ℚ) / (n : ℚ)) * (1 - (alpha_tain.edges.size : ℚ) / (n : ℚ))
            + ((alpha_tain.edges.size : ℚ) / (n : ℚ)) * (1 - (alpha_yain.edges.size : ℚ) / (n : ℚ))
          ∧
          ((alpha_yain.edges.size : ℚ) / (n : ℚ)) * (1 - (alpha_tain.edges.size : ℚ) / (n : ℚ))
            + ((alpha_tain.edges.size : ℚ) / (n : ℚ)) * (1 - (alpha_yain.edges.size : ℚ) / (n : ℚ))
            ≤ 1)) ∧
      (n = 0 → rate = none) := by
  refine ⟨_, rfl, observations_nonneg ds yain_obj tain_obj alpha_yain alpha_tain n hswitch,
    fun hpos => ?_, fun hzero => ?_⟩
  · have hn0 : n ≠ 0 := by omega
    have hc1 := chance_of_ne_zero alpha_yain.edges.size n hn0
    have hc2 := chance_of_ne_zero alpha_tain.edges.size n hn0
    have hd1 := not_cross_chance_of_ne_zero alpha_yain.edges.size n hn0
    have hd2 := not_cross_chance_of_ne_zero alpha_tain.edges.size n hn0
    simp only [Int.cast_natCast] at hc1 hc2 hd1 hd2
    refine ⟨hc1, hc2, ?_, fun hknown => ?_⟩
    · simp [hc1, hc2, hd1, hd2, Dbl.mul, Dbl.add]
    · obtain ⟨hle1, hle2⟩ := degrees_le_observations ds yain_obj tain_obj alpha_yain alpha_tain
        n hswitch hknown
      obtain ⟨ha0, ha1⟩ := unit_interval_of_le alpha_yain.edges.size n (by omega) hpos hle1
      obtain ⟨hb0, hb1⟩ := unit_interval_of_le alpha_tain.edges.size n (by omega) hpos hle2
      simp only [Int.cast_natCast] at ha0 ha1 hb0 hb1
      constructor
      · nlinarith [mul_nonneg ha0 (sub_nonneg.2 hb1), mul_nonneg hb0 (sub_nonneg.2 ha1)]
      · nlinarith [mul_nonneg ha0 hb0, mul_nonneg (sub_nonneg.2 ha1) (sub_nonneg.2 hb1)]
  · rw [hzero]
    simp [chance_zero, Dbl.mul, Dbl.add]

/-- C7, witness: `X` and `Y` under INTERSECTION sizing; `num_observations = 3`,
`successes = 3 - 1` and the rate is `(2/3) * (1 - 2/3) + (2/3) * (1 - 2/3)`. -/
theorem avoid_rate_witness :
    ∃ rate : Dbl,
      max_mode_switch .AVOID
          (total_range alpha_X.edges.size alpha_Y.edges.size
            (count_overlaps 0 alpha_X.edges 1 alpha_Y.edges).overlaps)
          (count_overlaps 0 alpha_X.edges 1 alpha_Y.edges).overlaps
          (chance alpha_X.edges.size 3) (chance alpha_Y.edges.size 3)
          (not_cross_chance alpha_X.edges.size 3) (not_cross_chance alpha_Y.edges.size 3)
        = .ok (total_range alpha_X.edges.size alpha_Y.edges.size
              (count_overlaps 0 alpha_X.edges 1 alpha_Y.edges).overlaps
            - (count_overlaps 0 alpha_X.edges 1 alpha_Y.edges).overlaps, rate) ∧
      rate = some (((alpha_X.edges.size : ℚ) / ((3 : Int) : ℚ)) *
              (1 - (alpha_Y.edges.size : ℚ) / ((3 : Int) : ℚ))
            + ((alpha_Y.edges.size : ℚ) / ((3 : Int) : ℚ)) *
              (1 - (alpha_X.edges.size : ℚ) / ((3 : Int) : ℚ))) ∧
      ((alpha_X.edges.size : ℚ) / ((3 : Int) : ℚ)) *
              (1 - (alpha_Y.edges.size : ℚ) / ((3 : Int) : ℚ))
            + ((alpha_Y.edges.size : ℚ) / ((3 : Int) : ℚ)) *
              (1 - (alpha_X.edges.size : ℚ) / ((3 : Int) : ℚ)) ≤ 1 :=
  match avoid_rate (example_dataset .INTERSECTION .AVOID true) 0 1 alpha_X alpha_Y 3 (by rfl) with
  | ⟨rate, h1, _, h2, _⟩ =>
    ⟨rate, h1, (h2 (by decide)).2.2.1,
      ((h2 (by decide)).2.2.2 (fun h => ESetMode.noConfusion h)).2⟩

/-- C7, counterexample. Under FULL sizing over an empty connector table, the two entities `A`
and `B` without connectors get to the max-mode switch with `num_observations = 0`: `successes`
is `0` and the AVOID rate, computed from the chances `0 / 0`, is not a number, so it is not in
`[0, 1]`, it is neither 0 nor 1, and the binomial test is called with it. -/
theorem avoid_rate_counterexample :
    set_mode_switch (void_dataset .FULL .AVOID).options.coin_set_mode
        (total_range alpha_A.edges.size alpha_B.edges.size
          (count_overlaps 0 alpha_A.edges 1 alpha_B.edges).overlaps)
        (void_dataset .FULL .AVOID).betas.length = .ok (some 0) ∧
    max_mode_switch .AVOID
        (total_range alpha_A.edges.size alpha_B.edges.size
          (count_overlaps 0 alpha_A.edges 1 alpha_B.edges).overlaps)
        (count_overlaps 0 alpha_A.edges 1 alpha_B.edges).overlaps
        (chance alpha_A.edges.size 0) (chance alpha_B.edges.size 0)
        (not_cross_chance alpha_A.edges.size 0) (not_cross_chance alpha_B.edges.size 0)
      = .ok (0, none) ∧
    (¬ ∃ q : ℚ, (none : Dbl) = some q ∧ 0 ≤ q ∧ q ≤ 1) ∧
    connectors_known (void_dataset .FULL .AVOID) alpha_A ∧
    connectors_known (void_dataset .FULL .AVOID) alpha_B ∧
    test_call (void_dataset .FULL .AVOID) 0 1 = some (.TWOTAILED, 0, 0, none) := by
  refine ⟨by rfl, by rfl, ?_, ?_, ?_, by decide!⟩
  · rintro ⟨q, hq, -⟩
    cases hq
  · unfold connectors_known
    decide
  · unfold connectors_known
    decide

/-- C1, witness: the table `X`, `Y`; the iteration `(0, 1)` is the one that passes. -/
theorem pair_enumeration_witness :
    (∃ alpha_yain alpha_tain : Alpha, ∃ y t : Nat,
        (example_dataset .INTERSECTION .ACCOMPANY true).alphas.get? y = some alpha_yain ∧
        (example_dataset .INTERSECTION .ACCOMPANY true).alphas.get? t = some alpha_tain ∧
        alpha_yain.name < alpha_tain.name ∧
        (loop_pairs (example_dataset .INTERSECTION .ACCOMPANY true).alphas.length).filter
          (fun p => (decide (p = (0, 1)) || decide (p = (1, 0))) &&
            passes_filter (example_dataset .INTERSECTION .ACCOMPANY true) p.1 p.2)
          = [(y, t)]) ∧
    ∀ i, passes_filter (example_dataset .INTERSECTION .ACCOMPANY true) i i = false :=
  pair_enumeration (example_dataset .INTERSECTION .ACCOMPANY true) (by decide) 0 1
    (by decide) (by decide) (by decide)

/-! ## The header -/

/-- C9. Header shape: the header line has 12 columns in ACCOMPANY mode and 11 in AVOID mode;
the ACCOMPANY header is the AVOID header with the column "Avg synthetic distance" inserted
between "p" and "successes"; and the line written depends on the dataset and its options through
`coin_max_mode` only. -/
theorem header_shape :
    ∃ accompany_header avoid_header : List Cell,
      accompany_header.length = 12 ∧ avoid_header.length = 11 ∧
      avoid_header = [.text "Source", .text "Target", .text "p", .text "successes",
        .text "observations", .text "rate", .text "expected", .text "total source",
        .text "total target", .text "fraction source", .text "fraction target"] ∧
      accompany_header = avoid_header.take 3 ++ [.text "Avg synthetic distance"]
        ++ avoid_header.drop 3 ∧
      (∀ (ds : DataSet) (analysis : List (List Cell)),
        _write_header { ds with options := { ds.options with coin_max_mode := .ACCOMPANY } }
          analysis = .ok (analysis ++ [accompany_header])) ∧
      (∀ (ds : DataSet) (analysis : List (List Cell)),
        _write_header { ds with options := { ds.options with coin_max_mode := .AVOID } }
          analysis = .ok (analysis ++ [avoid_header])) ∧
      (∀ (ds : DataSet) (analysis : List (List Cell)) (o : TParameters) (alphas : List Alpha)
          (betas : List Beta) (edges : List Edge) (num_edges : Nat),
        _write_header ⟨{ o with coin_max_mode := ds.options.coin_max_mode }, alphas, betas,
          edges, num_edges⟩ analysis = _write_header ds analysis) :=
  ⟨[.text "Source", .text "Target", .text "p", .text "Avg synthetic distance",
      .text "successes", .text "observations", .text "rate", .text "expected",
      .text "total source", .text "total target", .text "fraction source",
      .text "fraction target"],
    [.text "Source", .text "Target", .text "p", .text "successes",
      .text "observations", .text "rate", .text "expected", .text "total source",
      .text "total target", .text "fraction source", .text "fraction target"],
    rfl, rfl, rfl, rfl, fun _ _ => rfl, fun _ _ => rfl, fun _ _ _ _ _ _ _ => rfl⟩

/-! ## The zero-observation guard -/

/-- C10. Zero-observation guard: under INTERSECTION sizing, whatever the other options, an
iteration whose pair has `total_range = 0` (the value given to `num_observations`) leaves the
state unchanged: no line is written and the return flag keeps its value. -/
theorem zero_observation_guard (ds : DataSet) (ext : Externals) (cor_sig : ℚ)
    (yain_count tain_count : Nat) (alpha_yain alpha_tain : Alpha) (st : RunState)
    (hy : ds.alphas.get? yain_count = some alpha_yain)
    (ht : ds.alphas.get? tain_count = some alpha_tain)
    (hmode : ds.options.coin_set_mode = .INTERSECTION)
    (hzero : total_range alpha_yain.edges.size alpha_tain.edges.size
      (count_overlaps yain_count alpha_yain.edges tain_count alpha_tain.edges).overlaps = 0) :
    loop_body ds ext cor_sig yain_count tain_count st = .ok st := by
  have hit : iteration ds ext cor_sig yain_count tain_count = .ok none := by
    unfold iteration
    rw [hy, ht]
    simp [hmode, hzero, set_mode_switch]
  unfold loop_body
  rw [hit]

/-- C10, witness: the entities `A` and `B`, both without connectors. -/
theorem zero_observation_guard_witness :
    loop_body (void_dataset .INTERSECTION .ACCOMPANY) (example_externals 0) 0 0 1 ⟨-1, [], []⟩
      = .ok ⟨-1, [], []⟩ :=
  zero_observation_guard (void_dataset .INTERSECTION .ACCOMPANY) (example_externals 0) 0 0 1
    alpha_A alpha_B ⟨-1, [], []⟩ rfl rfl rfl (by decide)

/-! ## The double loop -/

theorem loop_body_spec (ds : DataSet) (ext : Externals) (cor_sig : ℚ) (y t : Nat)
    (st st' : RunState) (h : loop_body ds ext cor_sig y t st = .ok st') :
    st'.analysis = st.analysis ++ pair_lines ds ext cor_sig y t ∧
    st'.returnflag = if pair_lines ds ext cor_sig y t = [] then st.returnflag else 0 := by
  unfold loop_body at h
  unfold pair_lines
  cases hit : iteration ds ext cor_sig y t with
  | error e => rw [hit] at h; cases h
  | ok o =>
    rw [hit] at h
    cases o with
    | none => cases h; simp
    | some e => cases h; simp

theorem fold_spec (body : Nat → RunState → Except String RunState)
    (R : Nat → List (List Cell))
    (hbody : ∀ i st st', body i st = .ok st' →
      st'.analysis = st.analysis ++ R i ∧
      st'.returnflag = if R i = [] then st.returnflag else 0)
    (l : List Nat) (st st' : RunState)
    (h : l.foldlM (fun st i => body i st) st = .ok st') :
    st'.analysis = st.analysis ++ l.flatMap R ∧
    st'.returnflag = if l.flatMap R = [] then st.returnflag else 0 := by
  induction l generalizing st with
  | nil =>
    simp only [List.foldlM_nil] at h
    cases h
    simp
  | cons x xs ih =>
    rw [List.foldlM_cons] at h
    cases hb : body x st with
    | error e => rw [hb] at h; cases h
    | ok st1 =>
      rw [hb] at h
      obtain ⟨h1, h2⟩ := hbody x st st1 hb
      obtain ⟨h3, h4⟩ := ih st1 h
      refine ⟨?_, ?_⟩
      · rw [h3, h1]; simp
      · rw [h4, h2]
        by_cases hx : R x = [] <;> by_cases hxs : List.flatMap xs R = [] <;>
          simp [hx, hxs]

theorem for_loop_spec (n : Nat) (body : Nat → RunState → Except String RunState)
    (R : Nat → List (List Cell))
    (hbody : ∀ i st st', body i st = .ok st' →
      st'.analysis = st.analysis ++ R i ∧
      st'.returnflag = if R i = [] then st.returnflag else 0)
    (st st' : RunState) (h : for_loop n body st = .ok st') :
    st'.analysis = st.analysis ++ (List.range n).flatMap R ∧
    st'.returnflag = if (List.range n).flatMap R = [] then st.returnflag else 0 :=
  fold_spec body R hbody (List.range n) st st' h

/-- The data lines of the output file, in the order of the sequential double loop. -/
theorem loop_pairs_flatMap (n : Nat) (R : Nat → Nat → List (List Cell)) :
    (List.range n).flatMap (fun y => (List.range n).flatMap (fun t => R y t))
      = (loop_pairs n).flatMap (fun p => R p.1 p.2) := by
  unfold loop_pairs
  rw [List.flatMap_assoc]
  congr 1
  funext y
  rw [List.flatMap_map]

theorem run_spec (ds : DataSet) (ext : Externals) (flag : Int) (out : List (List Cell))
    (h : run ds ext = .ok (flag, out)) :
    ∃ header, _write_header ds [] = .ok [header] ∧
      out = header :: (loop_pairs ds.alphas.length).flatMap
        (fun p => pair_lines ds ext (cor_sig_of ds ext) p.1 p.2) ∧
      flag = if (loop_pairs ds.alphas.length).flatMap
        (fun p => pair_lines ds ext (cor_sig_of ds ext) p.1 p.2) = [] then -1 else 0 := by
  unfold run at h
  cases hh : _write_header ds [] with
  | error e => simp [hh] at h
  | ok analysis =>
    have hhdr : ∃ header, analysis = [header] := by
      unfold _write_header at hh
      split at hh
      · cases hh; exact ⟨_, rfl⟩
      · cases hh; exact ⟨_, rfl⟩
      · cases hh
    obtain ⟨header, rfl⟩ := hhdr
    simp only [hh] at h
    split at h
    · cases h
    · rename_i st hfor
      cases h
      have hinner : ∀ y st st',
          for_loop ds.alphas.length
            (fun tain_count st => loop_body ds ext (cor_sig_of ds ext) y tain_count st) st
            = .ok st' →
          st'.analysis = st.analysis ++ (List.range ds.alphas.length).flatMap
            (fun t => pair_lines ds ext (cor_sig_of ds ext) y t) ∧
          st'.returnflag = if (List.range ds.alphas.length).flatMap
            (fun t => pair_lines ds ext (cor_sig_of ds ext) y t) = [] then st.returnflag
            else 0 :=
        fun y st st' h => for_loop_spec _ _ _
          (fun t st st' h => loop_body_spec ds ext (cor_sig_of ds ext) y t st st' h) st st' h
      obtain ⟨h1, h2⟩ := for_loop_spec _ _ _ hinner _ _ hfor
      rw [loop_pairs_flatMap] at h1 h2
      exact ⟨header, rfl, by simpa using h1, h2⟩

/-! ## What an iteration writes -/

theorem write_record_names (ds : DataSet) (alpha_yain alpha_tain : Alpha)
    (edges_ovlp : List String) (p_value : ℚ) (successes num_observations : Int) (rate : Dbl)
    (num_edges_yain num_edges_tain : Int) (chance_i chance_j : Dbl) (line : List Cell)
    (h : write_record ds alpha_yain alpha_tain edges_ovlp p_value successes num_observations
      rate num_edges_yain num_edges_tain chance_i chance_j = .ok line) :
    line.take 2 = [.text alpha_yain.name, .text alpha_tain.name] := by
  unfold write_record at h
  split at h
  · split at h
    · cases h
    · cases h; rfl
  · cases h; rfl
  · cases h

theorem max_mode_switch_ok (mode : EMaxMode) (hmode : mode ≠ .OTHER) (tr ov : Int)
    (ci cj n1 n2 : Dbl) : ∃ s r, max_mode_switch mode tr ov ci cj n1 n2 = .ok (s, r) := by
  cases mode with
  | AVOID => exact ⟨_, _, rfl⟩
  | ACCOMPANY => exact ⟨_, _, rfl⟩
  | OTHER => exact absurd rfl hmode

/-- An iteration that gets past the name filter and does not abort writes a line exactly when
the pair passes the zero-observation guard, the degenerate-rate guard and the output filter. -/
theorem iteration_spec (ds : DataSet) (ext : Externals) (cor_sig : ℚ) (y t : Nat)
    (alpha_yain alpha_tain : Alpha)
    (hy : ds.alphas.get? y = some alpha_yain) (ht : ds.alphas.get? t = some alpha_tain)
    (hlt : alpha_yain.name < alpha_tain.name)
    (o : Option Emission) (hit : iteration ds ext cor_sig y t = .ok o)
    (s : Int) (r : Dbl)
    (hsr : max_mode_switch ds.options.coin_max_mode
      (total_range alpha_yain.edges.size alpha_tain.edges.size
        (count_overlaps y alpha_yain.edges t alpha_tain.edges).overlaps)
      (count_overlaps y alpha_yain.edges t alpha_tain.edges).overlaps
      (chance alpha_yain.edges.size (num_observations_of ds.options.coin_set_mode
        (total_range alpha_yain.edges.size alpha_tain.edges.size
          (count_overlaps y alpha_yain.edges t alpha_tain.edges).overlaps) ds.betas.length))
      (chance alpha_tain.edges.size (num_observations_of ds.options.coin_set_mode
        (total_range alpha_yain.edges.size alpha_tain.edges.size
          (count_overlaps y alpha_yain.edges t alpha_tain.edges).overlaps) ds.betas.length))
      (not_cross_chance alpha_yain.edges.size (num_observations_of ds.options.coin_set_mode
        (total_range alpha_yain.edges.size alpha_tain.edges.size
          (count_overlaps y alpha_yain.edges t alpha_tain.edges).overlaps) ds.betas.length))
      (not_cross_chance alpha_tain.edges.size (num_observations_of ds.options.coin_set_mode
        (total_range alpha_yain.edges.size alpha_tain.edges.size
          (count_overlaps y alpha_yain.edges t alpha_tain.edges).overlaps) ds.betas.length))
      = .ok (s, r)) :
    ((∃ e, o = some e) ↔
      (ds.options.coin_set_mode = .INTERSECTION →
        num_observations_of ds.options.coin_set_mode
          (total_range alpha_yain.edges.size alpha_tain.edges.size
            (count_overlaps y alpha_yain.edges t alpha_tain.edges).overlaps) ds.betas.length
          ≠ 0) ∧
      r ≠ some 0 ∧ r ≠ some 1 ∧
      (ds.options.output_all = false →
        ext.test ds.options.alt_hypothesis s (num_observations_of ds.options.coin_set_mode
          (total_range alpha_yain.edges.size alpha_tain.edges.size
            (count_overlaps y alpha_yain.edges t alpha_tain.edges).overlaps) ds.betas.length) r
          ≤ cor_sig)) ∧
    (∀ e, o = some e → e.line.take 2 = [.text alpha_yain.name, .text alpha_tain.name]) := by
  have hf : name_filter alpha_yain alpha_tain = true := (name_filter_iff _ _).2 hlt
  unfold iteration at hit
  rw [hy, ht] at hit
  simp only [hf, Bool.true_eq_false, if_false] at hit
  generalize hc : count_overlaps y alpha_yain.edges t alpha_tain.edges = c at hit hsr ⊢
  generalize htr : total_range alpha_yain.edges.size alpha_tain.edges.size c.overlaps = tr
    at hit hsr ⊢
  cases hm : ds.options.coin_set_mode with
  | OTHER => rw [hm] at hit; simp [set_mode_switch] at hit
  | INTERSECTION =>
    rw [hm] at hit hsr
    simp only [set_mode_switch, num_observations_of] at hit hsr ⊢
    by_cases h0 : tr = 0
    · simp only [h0, if_true] at hit
      cases hit
      simp [h0]
    · simp only [h0, if_false] at hit
      simp only [body_tail, hsr] at hit
      by_cases hg : r = some 0 ∨ r = some 1
      · simp only [hg, if_true] at hit
        cases hit
        simp only [reduceCtorEq, exists_false, false_iff, not_and, false_implies, implies_true,
          and_true]
        intro _ h1 h2
        rcases hg with hg | hg
        · exact absurd hg h1
        · exact absurd hg h2
      · simp only [hg, if_false] at hit
        have hg' : r ≠ some 0 ∧ r ≠ some 1 := not_or.1 hg
        by_cases hp : ext.test ds.options.alt_hypothesis s tr r > cor_sig ∧
            ds.options.output_all = false
        · simp only [hp, and_self, if_true] at hit
          cases hit
          simp only [reduceCtorEq, exists_false, false_iff, not_and, false_implies, implies_true,
            and_true]
          intro _ _ _ hout
          exact absurd (hout hp.2) (not_le.2 hp.1)
        · simp only [hp, if_false] at hit
          split at hit
          · cases hit
          · rename_i line hw
            cases hit
            refine ⟨⟨fun _ => ⟨fun _ => h0, hg'.1, hg'.2, fun ho => ?_⟩, fun _ => ⟨_, rfl⟩⟩, ?_⟩
            · exact not_lt.1 (fun hgt => hp ⟨hgt, ho⟩)
            · intro e he
              cases he
              exact write_record_names _ _ _ _ _ _ _ _ _ _ _ _ _ hw
  | FULL =>
    rw [hm] at hit hsr
    simp only [set_mode_switch, num_observations_of] at hit hsr ⊢
    simp only [body_tail, hsr] at hit
    by_cases hg : r = some 0 ∨ r = some 1
    · simp only [hg, if_true] at hit
      cases hit
      simp only [reduceCtorEq, exists_false, false_iff, not_and, false_implies, implies_true,
        and_true]
      intro _ h1 h2
      rcases hg with hg | hg
      · exact absurd hg h1
      · exact absurd hg h2
    · simp only [hg, if_false] at hit
      have hg' : r ≠ some 0 ∧ r ≠ some 1 := not_or.1 hg
      by_cases hp : ext.test ds.options.alt_hypothesis s ds.betas.length r > cor_sig ∧
          ds.options.output_all = false
      · simp only [hp, and_self, if_true] at hit
        cases hit
        simp only [reduceCtorEq, exists_false, false_iff, not_and, false_implies, implies_true,
          and_true]
        intro _ _ _ hout
        exact absurd (hout hp.2) (not_le.2 hp.1)
      · simp only [hp, if_false] at hit
        split at hit
        · cases hit
        · rename_i line hw
          cases hit
          refine ⟨⟨fun _ => ⟨fun h => ESetMode.noConfusion h, hg'.1, hg'.2, fun ho => ?_⟩,
            fun _ => ⟨_, rfl⟩⟩, ?_⟩
          · exact not_lt.1 (fun hgt => hp ⟨hgt, ho⟩)
          · intro e he
            cases he
            exact write_record_names _ _ _ _ _ _ _ _ _ _ _ _ _ hw

/-! ## The output of a run -/

theorem fold_ok (body : Nat → RunState → Except String RunState) (l : List Nat)
    (st st' : RunState) (h : l.foldlM (fun st i => body i st) st = .ok st') :
    ∀ i ∈ l, ∃ s s', body i s = .ok s' := by
  induction l generalizing st with
  | nil => intro i hi; cases hi
  | cons x xs ih =>
    rw [List.foldlM_cons] at h
    cases hb : body x st with
    | error e => rw [hb] at h; cases h
    | ok st1 =>
      rw [hb] at h
      intro i hi
      rcases List.mem_cons.1 hi with rfl | hi
      · exact ⟨st, st1, hb⟩
      · exact ih st1 h i hi

theorem loop_body_ok (ds : DataSet) (ext : Externals) (cor_sig : ℚ) (y t : Nat)
    (st st' : RunState) (h : loop_body ds ext cor_sig y t st = .ok st') :
    ∃ o, iteration ds ext cor_sig y t = .ok o := by
  unfold loop_body at h
  cases hit : iteration ds ext cor_sig y t with
  | error e => rw [hit] at h; cases h
  | ok o => exact ⟨o, rfl⟩

theorem run_iterations_ok (ds : DataSet) (ext : Externals) (flag : Int)
    (out : List (List Cell)) (h : run ds ext = .ok (flag, out)) (y t : Nat)
    (hy : y < ds.alphas.length) (ht : t < ds.alphas.length) :
    ∃ o, iteration ds ext (cor_sig_of ds ext) y t = .ok o := by
  unfold run at h
  cases hh : _write_header ds [] with
  | error e => simp [hh] at h
  | ok analysis =>
    simp only [hh] at h
    split at h
    · cases h
    · rename_i st hfor
      obtain ⟨s, s', hs⟩ := fold_ok _ _ _ _ hfor y (List.mem_range.2 hy)
      obtain ⟨s1, s1', hs1⟩ := fold_ok _ _ _ _ hs t (List.mem_range.2 ht)
      exact loop_body_ok ds ext _ y t s1 s1' hs1

theorem run_max_mode (ds : DataSet) (ext : Externals) (flag : Int)
    (out : List (List Cell)) (h : run ds ext = .ok (flag, out)) :
    ds.options.coin_max_mode ≠ .OTHER := by
  intro hm
  unfold run at h
  simp [_write_header, hm] at h

theorem get?_name_inj (ds : DataSet) (hnames : (ds.alphas.map Alpha.name).Nodup)
    (i j : Nat) (a b : Alpha) (hi : ds.alphas.get? i = some a) (hj : ds.alphas.get? j = some b)
    (hab : a.name = b.name) : i = j := by
  have hi' : (ds.alphas.map Alpha.name).get? i = some a.name := by
    rw [List.get?_eq_getElem?] at hi ⊢
    rw [List.getElem?_map, hi]; rfl
  have hj' : (ds.alphas.map Alpha.name).get? j = some a.name := by
    rw [List.get?_eq_getElem?] at hj ⊢
    rw [List.getElem?_map, hj, hab]; rfl
  obtain ⟨hil, hi''⟩ := List.get?_eq_some.1 hi'
  obtain ⟨hjl, hj''⟩ := List.get?_eq_some.1 hj'
  have hinj := List.nodup_iff_injective_get.1 hnames
  have heq : (⟨i, hil⟩ : Fin (ds.alphas.map Alpha.name).length) = ⟨j, hjl⟩ :=
    hinj (by rw [hi'', hj''])
  exact congrArg Fin.val heq

theorem output_filter_aux (ds : DataSet) (ext : Externals) (flag : Int) (out : List (List Cell))
    (hrun : run ds ext = .ok (flag, out))
    (hnames : (ds.alphas.map Alpha.name).Nodup)
    (y t : Nat) (alpha_yain alpha_tain : Alpha)
    (hy : ds.alphas.get? y = some alpha_yain) (ht : ds.alphas.get? t = some alpha_tain)
    (hlt : alpha_yain.name < alpha_tain.name) :
    (∃ line ∈ out.tail, line.take 2 = [.text alpha_yain.name, .text alpha_tain.name]) ↔
      ∃ e, iteration ds ext (cor_sig_of ds ext) y t = .ok (some e) := by
  obtain ⟨header, -, hout, -⟩ := run_spec ds ext flag out hrun
  have hyl : y < ds.alphas.length := (List.get?_eq_some.1 hy).1
  have htl : t < ds.alphas.length := (List.get?_eq_some.1 ht).1
  have hmax := run_max_mode ds ext flag out hrun
  rw [hout, List.tail_cons]
  constructor
  · rintro ⟨line, hline, hnm⟩
    obtain ⟨⟨y', t'⟩, hp, hl⟩ := List.mem_flatMap.1 hline
    obtain ⟨hy'l, ht'l⟩ := (mem_loop_pairs _ _).1 hp
    simp only at hy'l ht'l hl
    unfold pair_lines at hl
    cases hit : iteration ds ext (cor_sig_of ds ext) y' t' with
    | error e => rw [hit] at hl; cases hl
    | ok o =>
      rw [hit] at hl
      cases o with
      | none => cases hl
      | some e =>
        simp only [List.mem_singleton] at hl
        subst hl
        obtain ⟨ya', hya'⟩ : ∃ a, ds.alphas.get? y' = some a :=
          ⟨_, List.get?_eq_get hy'l⟩
        obtain ⟨ta', hta'⟩ : ∃ a, ds.alphas.get? t' = some a :=
          ⟨_, List.get?_eq_get ht'l⟩
        have hlt' : ya'.name < ta'.name := by
          have hf : name_filter ya' ta' = true := by
            by_contra hf
            unfold iteration at hit
            rw [hya', hta'] at hit
            simp [hf] at hit
          exact (name_filter_iff _ _).1 hf
        obtain ⟨s, r, hsr⟩ := max_mode_switch_ok ds.options.coin_max_mode hmax
          (total_range ya'.edges.size ta'.edges.size
            (count_overlaps y' ya'.edges t' ta'.edges).overlaps)
          (count_overlaps y' ya'.edges t' ta'.edges).overlaps
          (chance ya'.edges.size (num_observations_of ds.options.coin_set_mode
            (total_range ya'.edges.size ta'.edges.size
              (count_overlaps y' ya'.edges t' ta'.edges).overlaps) ds.betas.length))
          (chance ta'.edges.size (num_observations_of ds.options.coin_set_mode
            (total_range ya'.edges.size ta'.edges.size
              (count_overlaps y' ya'.edges t' ta'.edges).overlaps) ds.betas.length))
          (not_cross_chance ya'.edges.size (num_observations_of ds.options.coin_set_mode
            (total_range ya'.edges.size ta'.edges.size
              (count_overlaps y' ya'.edges t' ta'.edges).overlaps) ds.betas.length))
          (not_cross_chance ta'.edges.size (num_observations_of ds.options.coin_set_mode
            (total_range ya'.edges.size ta'.edges.size
              (count_overlaps y' ya'.edges t' ta'.edges).overlaps) ds.betas.length))
        have hn := (iteration_spec ds ext _ y' t' ya' ta' hya' hta' hlt' _ hit s r hsr).2 e rfl
        rw [hnm] at hn
        simp only [List.cons.injEq, Cell.text.injEq, and_true] at hn
        have e1 := get?_name_inj ds hnames y y' _ _ hy hya' hn.1
        have e2 := get?_name_inj ds hnames t t' _ _ ht hta' hn.2
        subst e1; subst e2
        exact ⟨e, hit⟩
  · rintro ⟨e, hit⟩
    obtain ⟨s, r, hsr⟩ := max_mode_switch_ok ds.options.coin_max_mode hmax
      (total_range alpha_yain.edges.size alpha_tain.edges.size
        (count_overlaps y alpha_yain.edges t alpha_tain.edges).overlaps)
      (count_overlaps y alpha_yain.edges t alpha_tain.edges).overlaps
      (chance alpha_yain.edges.size (num_observations_of ds.options.coin_set_mode
        (total_range alpha_yain.edges.size alpha_tain.edges.size
          (count_overlaps y alpha_yain.edges t alpha_tain.edges).overlaps) ds.betas.length))
      (chance alpha_tain.edges.size (num_observations_of ds.options.coin_set_mode
        (total_range alpha_yain.edges.size alpha_tain.edges.size
          (count_overlaps y alpha_yain.edges t alpha_tain.edges).overlaps) ds.betas.length))
      (not_cross_chance alpha_yain.edges.size (num_observations_of ds.options.coin_set_mode
        (total_range alpha_yain.edges.size alpha_tain.edges.size
          (count_overlaps y alpha_yain.edges t alpha_tain.edges).overlaps) ds.betas.length))
      (not_cross_chance alpha_tain.edges.size (num_observations_of ds.options.coin_set_mode
        (total_range alpha_yain.edges.size alpha_tain.edges.size
          (count_overlaps y alpha_yain.edges t alpha_tain.edges).overlaps) ds.betas.length))
    have hn := (iteration_spec ds ext _ y t _ _ hy ht hlt _ hit s r hsr).2 e rfl
    refine ⟨e.line, ?_, hn⟩
    apply List.mem_flatMap.2
    refine ⟨(y, t), (mem_loop_pairs _ _).2 ⟨hyl, htl⟩, ?_⟩
    simp [pair_lines, hit]

/-- C2. Output filter: when the names are pairwise distinct and the run returns, a pair with
`name(yain) < name(tain)` has a record among the data lines of the output exactly when it passes
the zero-observation guard (under INTERSECTION), its rate is neither 0 nor 1, and, if
`output_all` is false, its p-value is at most `cor_sig`; with `output_all` true the p-value plays
no part. Here `s` and `r` are the values of `successes` and `rate` computed for the pair. -/
theorem output_filter (ds : DataSet) (ext : Externals) (flag : Int) (out : List (List Cell))
    (hrun : run ds ext = .ok (flag, out))
    (hnames : (ds.alphas.map Alpha.name).Nodup)
    (y t : Nat) (alpha_yain alpha_tain : Alpha)
    (hy : ds.alphas.get? y = some alpha_yain) (ht : ds.alphas.get? t = some alpha_tain)
    (hlt : alpha_yain.name < alpha_tain.name) :
    ∃ (s : Int) (r : Dbl),
      max_mode_switch ds.options.coin_max_mode
        (total_range alpha_yain.edges.size alpha_tain.edges.size
          (count_overlaps y alpha_yain.edges t alpha_tain.edges).overlaps)
        (count_overlaps y alpha_yain.edges t alpha_tain.edges).overlaps
        (chance alpha_yain.edges.size (num_observations_of ds.options.coin_set_mode
          (total_range alpha_yain.edges.size alpha_tain.edges.size
            (count_overlaps y alpha_yain.edges t alpha_tain.edges).overlaps) ds.betas.length))
        (chance alpha_tain.edges.size (num_observations_of ds.options.coin_set_mode
          (total_range alpha_yain.edges.size alpha_tain.edges.size
            (count_overlaps y alpha_yain.edges t alpha_tain.edges).overlaps) ds.betas.length))
        (not_cross_chance alpha_yain.edges.size (num_observations_of ds.options.coin_set_mode
          (total_range alpha_yain.edges.size alpha_tain.edges.size
            (count_overlaps y alpha_yain.edges t alpha_tain.edges).overlaps) ds.betas.length))
        (not_cross_chance alpha_tain.edges.size (num_observations_of ds.options.coin_set_mode
          (total_range alpha_yain.edges.size alpha_tain.edges.size
            (count_overlaps y alpha_yain.edges t alpha_tain.edges).overlaps) ds.betas.length))
        = .ok (s, r) ∧
      ((∃ line ∈ out.tail, line.take 2 = [.text alpha_yain.name, .text alpha_tain.name]) ↔
        (ds.options.coin_set_mode = .INTERSECTION →
          num_observations_of ds.options.coin_set_mode
            (total_range alpha_yain.edges.size alpha_tain.edges.size
              (count_overlaps y alpha_yain.edges t alpha_tain.edges).overlaps) ds.betas.length
            ≠ 0) ∧
        r ≠ some 0 ∧ r ≠ some 1 ∧
        (ds.options.output_all = false →
          ext.test ds.options.alt_hypothesis s (num_observations_of ds.options.coin_set_mode
            (total_range alpha_yain.edges.size alpha_tain.edges.size
              (count_overlaps y alpha_yain.edges t alpha_tain.edges).overlaps) ds.betas.length)
            r ≤ cor_sig_of ds ext)) := by
  have hmax := run_max_mode ds ext flag out hrun
  obtain ⟨s, r, hsr⟩ := max_mode_switch_ok ds.options.coin_max_mode hmax
    (total_range alpha_yain.edges.size alpha_tain.edges.size
      (count_overlaps y alpha_yain.edges t alpha_tain.edges).overlaps)
    (count_overlaps y alpha_yain.edges t alpha_tain.edges).overlaps
    (chance alpha_yain.edges.size (num_observations_of ds.options.coin_set_mode
      (total_range alpha_yain.edges.size alpha_tain.edges.size
        (count_overlaps y alpha_yain.edges t alpha_tain.edges).overlaps) ds.betas.length))
    (chance alpha_tain.edges.size (num_observations_of ds.options.coin_set_mode
      (total_range alpha_yain.edges.size alpha_tain.edges.size
        (count_overlaps y alpha_yain.edges t alpha_tain.edges).overlaps) ds.betas.length))
    (not_cross_chance alpha_yain.edges.size (num_observations_of ds.options.coin_set_mode
      (total_range alpha_yain.edges.size alpha_tain.edges.size
        (count_overlaps y alpha_yain.edges t alpha_tain.edges).overlaps) ds.betas.length))
    (not_cross_chance alpha_tain.edges.size (num_observations_of ds.options.coin_set_mode
      (total_range alpha_yain.edges.size alpha_tain.edges.size
        (count_overlaps y alpha_yain.edges t alpha_tain.edges).overlaps) ds.betas.length))
  refine ⟨s, r, hsr, ?_⟩
  have hyl : y < ds.alphas.length := (List.get?_eq_some.1 hy).1
  have htl : t < ds.alphas.length := (List.get?_eq_some.1 ht).1
  obtain ⟨o, hit⟩ := run_iterations_ok ds ext flag out hrun y t hyl htl
  rw [output_filter_aux ds ext flag out hrun hnames y t _ _ hy ht hlt]
  rw [← (iteration_spec ds ext _ y t _ _ hy ht hlt o hit s r hsr).1, hit]
  constructor
  · rintro ⟨e, he⟩
    exact ⟨e, by cases he; rfl⟩
  · rintro ⟨e, he⟩
    exact ⟨e, by rw [he]⟩

theorem name_XY : alpha_X.name < alpha_Y.name :=
  (string_compare_lt _ _).1 (by decide)

/-- C2, witness: `X` and `Y` under INTERSECTION and ACCOMPANY with `output_all = false` and a
test answering `1/100`, below the threshold `1/20`. -/
theorem output_filter_witness :
    ∃ (s : Int) (r : Dbl),
      max_mode_switch .ACCOMPANY
        (total_range alpha_X.edges.size alpha_Y.edges.size
          (count_overlaps 0 alpha_X.edges 1 alpha_Y.edges).overlaps)
        (count_overlaps 0 alpha_X.edges 1 alpha_Y.edges).overlaps
        (chance alpha_X.edges.size (num_observations_of .INTERSECTION
          (total_range alpha_X.edges.size alpha_Y.edges.size
            (count_overlaps 0 alpha_X.edges 1 alpha_Y.edges).overlaps) 4))
        (chance alpha_Y.edges.size (num_observations_of .INTERSECTION
          (total_range alpha_X.edges.size alpha_Y.edges.size
            (count_overlaps 0 alpha_X.edges 1 alpha_Y.edges).overlaps) 4))
        (not_cross_chance alpha_X.edges.size (num_observations_of .INTERSECTION
          (total_range alpha_X.edges.size alpha_Y.edges.size
            (count_overlaps 0 alpha_X.edges 1 alpha_Y.edges).overlaps) 4))
        (not_cross_chance alpha_Y.edges.size (num_observations_of .INTERSECTION
          (total_range alpha_X.edges.size alpha_Y.edges.size
            (count_overlaps 0 alpha_X.edges 1 alpha_Y.edges).overlaps) 4))
        = .ok (s, r) ∧
      ((∃ line ∈ [[Cell.text "X", .text "Y", .real (some (1 / 100)), .real (some 2), .int 1,
            .int 3, .real (some (4 / 9)), .int 1, .int 2, .int 2, .real (some (2 / 3)),
            .real (some (2 / 3))]],
          line.take 2 = [.text "X", .text "Y"]) ↔
        (ESetMode.INTERSECTION = .INTERSECTION →
          num_observations_of .INTERSECTION
            (total_range alpha_X.edges.size alpha_Y.edges.size
              (count_overlaps 0 alpha_X.edges 1 alpha_Y.edges).overlaps) 4 ≠ 0) ∧
        r ≠ some 0 ∧ r ≠ some 1 ∧
        (false = false → (1 / 100 : ℚ) ≤ 1 / 20)) :=
  output_filter (example_dataset .INTERSECTION .ACCOMPANY false) (example_externals (1 / 100))
    0 [[.text "Source", .text "Target", .text "p",
      .text "Avg synthetic distance", .text "successes", .text "observations", .text "rate",
      .text "expected", .text "total source", .text "total target", .text "fraction source",
      .text "fraction target"],
     [.text "X", .text "Y", .real (some (1 / 100)), .real (some 2), .int 1, .int 3,
      .real (some (4 / 9)), .int 1, .int 2, .int 2, .real (some (2 / 3)),
      .real (some (2 / 3))]]
    (by decide!) (by decide) 0 1 alpha_X alpha_Y rfl rfl name_XY

/-- C3, the code at the failing input: with `output_all = true` and a test answering `1`, above
the threshold `1/20`, the run of `X` and `Y` finds no significant pair and returns `0`. -/
theorem return_contract_failing_input :
    run (example_dataset .INTERSECTION .ACCOMPANY true) (example_externals 1) = .ok (0,
      [[.text "Source", .text "Target", .text "p",
        .text "Avg synthetic distance", .text "successes", .text "observations", .text "rate",
        .text "expected", .text "total source", .text "total target", .text "fraction source",
        .text "fraction target"],
       [.text "X", .text "Y", .real (some 1), .real (some 2), .int 1, .int 3,
        .real (some (4 / 9)), .int 1, .int 2, .int 2, .real (some (2 / 3)),
        .real (some (2 / 3))]]) ∧
    cor_sig_of (example_dataset .INTERSECTION .ACCOMPANY true) (example_externals 1) = 1 / 20 ∧
    (∀ (h : EHypothesis) (s n : Int) (r : Dbl),
      ¬ ((example_externals 1).test h s n r
        ≤ cor_sig_of (example_dataset .INTERSECTION .ACCOMPANY true) (example_externals 1))) := by
  refine ⟨by decide!, rfl, ?_⟩
  intro h s n r
  show ¬ ((1 : ℚ) ≤ 1 / 20)
  norm_num

/-- C4. Emitted flag: when the run returns, the flag is `0` if at least one record was written
after the header line, and `-1` if none was. -/
theorem emitted_flag (ds : DataSet) (ext : Externals) (flag : Int) (out : List (List Cell))
    (hrun : run ds ext = .ok (flag, out)) :
    (out.tail ≠ [] → flag = 0) ∧ (out.tail = [] → flag = -1) := by
  obtain ⟨header, -, hout, hflag⟩ := run_spec ds ext flag out hrun
  rw [hout, List.tail_cons]
  constructor
  · intro h; rw [hflag, if_neg h]
  · intro h; rw [hflag, if_pos h]

/-- C4, witness: a run that writes no record returns `-1`. -/
theorem emitted_flag_witness :
    (([[Cell.text "Source", .text "Target", .text "p",
        .text "successes", .text "observations", .text "rate",
        .text "expected", .text "total source", .text "total target", .text "fraction source",
        .text "fraction target"]] : List (List Cell)).tail ≠ [] → (-1 : Int) = 0) ∧
    (([[Cell.text "Source", .text "Target", .text "p",
        .text "successes", .text "observations", .text "rate",
        .text "expected", .text "total source", .text "total target", .text "fraction source",
        .text "fraction target"]] : List (List Cell)).tail = [] → (-1 : Int) = -1) :=
  emitted_flag (example_dataset .INTERSECTION .AVOID false) (example_externals 1) (-1)
    [[.text "Source", .text "Target", .text "p",
        .text "successes", .text "observations", .text "rate",
        .text "expected", .text "total source", .text "total target", .text "fraction source",
        .text "fraction target"]] (by decide!)

/-! ## The secondary statistic -/

theorem syn_sums_fold (edge_table : List Edge) (yain_name tain_name : String)
    (l : List String) (init s : ℚ)
    (h : l.foldlM (syn_sums_step edge_table yain_name tain_name) init = .ok s) :
    s = init + (l.map (fun p => |weight_of edge_table (yain_name ++ "-" ++ p)
      - weight_of edge_table (tain_name ++ "-" ++ p)|)).sum ∧
    ∀ p ∈ l, (∃ e, find_id edge_table (yain_name ++ "-" ++ p) = .ok e) ∧
      (∃ e, find_id edge_table (tain_name ++ "-" ++ p) = .ok e) := by
  induction l generalizing init with
  | nil =>
    simp only [List.foldlM_nil] at h
    cases h
    simp
  | cons x xs ih =>
    rw [List.foldlM_cons] at h
    cases h1 : find_id edge_table (yain_name ++ "-" ++ x) with
    | error e => simp only [syn_sums_step, h1] at h; cases h
    | ok edge1 =>
      cases h2 : find_id edge_table (tain_name ++ "-" ++ x) with
      | error e => simp only [syn_sums_step, h1, h2] at h; cases h
      | ok edge2 =>
        simp only [syn_sums_step, h1, h2] at h
        obtain ⟨hs, hall⟩ := ih _ h
        refine ⟨?_, ?_⟩
        · rw [hs]
          simp only [List.map_cons, List.sum_cons, weight_of, h1, h2]
          ring
        · intro p hp
          rcases List.mem_cons.1 hp with rfl | hp
          · exact ⟨⟨_, h1⟩, ⟨_, h2⟩⟩
          · exact hall p hp

theorem syn_sums_loop_spec (edge_table : List Edge) (yain_name tain_name : String)
    (l : List String) (s : ℚ) (h : syn_sums_loop edge_table yain_name tain_name l = .ok s) :
    s = (l.map (fun p => |weight_of edge_table (yain_name ++ "-" ++ p)
      - weight_of edge_table (tain_name ++ "-" ++ p)|)).sum ∧
    ∀ p ∈ l, (∃ e, find_id edge_table (yain_name ++ "-" ++ p) = .ok e) ∧
      (∃ e, find_id edge_table (tain_name ++ "-" ++ p) = .ok e) := by
  have := syn_sums_fold edge_table yain_name tain_name l 0 s h
  simpa using this

theorem write_record_spec (ds : DataSet) (alpha_yain alpha_tain : Alpha)
    (edges_ovlp : List String) (p_value : ℚ) (successes num_observations : Int) (rate : Dbl)
    (num_edges_yain num_edges_tain : Int) (chance_i chance_j : Dbl) (line : List Cell)
    (h : write_record ds alpha_yain alpha_tain edges_ovlp p_value successes num_observations
      rate num_edges_yain num_edges_tain chance_i chance_j = .ok line) :
    (ds.options.coin_max_mode = .ACCOMPANY →
      line.length = 12 ∧
      (∀ p ∈ edges_ovlp,
        (∃ e, find_id ds.edges (alpha_yain.name ++ "-" ++ p) = .ok e) ∧
        (∃ e, find_id ds.edges (alpha_tain.name ++ "-" ++ p) = .ok e)) ∧
      (edges_ovlp ≠ [] → line.get? 3 = some (.real (some
        (avg_synthetic_distance ds.edges alpha_yain.name alpha_tain.name edges_ovlp))))) ∧
    (ds.options.coin_max_mode = .AVOID →
      line = [.text alpha_yain.name, .text alpha_tain.name, .real (some p_value),
        .int successes, .int num_observations, .real rate,
        expected_count .AVOID num_edges_yain num_edges_tain num_observations,
        .int num_edges_yain, .int num_edges_tain, .real chance_i, .real chance_j]) := by
  unfold write_record at h
  cases hm : ds.options.coin_max_mode with
  | OTHER => simp [hm] at h
  | AVOID =>
    simp only [hm] at h
    cases h
    exact ⟨fun h => EMaxMode.noConfusion h, fun _ => rfl⟩
  | ACCOMPANY =>
    simp only [hm] at h
    refine ⟨fun _ => ?_, fun h => EMaxMode.noConfusion h⟩
    split at h
    · cases h
    · rename_i syn_sums hs
      cases h
      obtain ⟨hsum, hall⟩ := syn_sums_loop_spec _ _ _ _ _ hs
      refine ⟨rfl, hall, fun hne => ?_⟩
      have hlen : (edges_ovlp.length : Int) ≠ 0 := by
        have : edges_ovlp.length ≠ 0 := fun h0 => hne (List.length_eq_zero.1 h0)
        exact_mod_cast this
      simp [Dbl.divInt, hlen, avg_synthetic_distance, hsum]

theorem body_tail_write_record (ds : DataSet) (ext : Externals) (cor_sig : ℚ)
    (alpha_yain alpha_tain : Alpha) (c : Counts) (tr n : Int) (e : Emission)
    (h : body_tail ds ext cor_sig alpha_yain alpha_tain c tr n = .ok (some e)) :
    ∃ (p : ℚ) (s : Int) (r : Dbl),
      write_record ds alpha_yain alpha_tain c.edges_ovlp p s n r alpha_yain.edges.size
        alpha_tain.edges.size (chance alpha_yain.edges.size n) (chance alpha_tain.edges.size n)
        = .ok e.line := by
  simp only [body_tail] at h
  split at h
  · cases h
  · rename_i s r hsr
    split at h
    · cases h
    · split at h
      · cases h
      · split at h
        · cases h
        · rename_i line hw
          cases h
          exact ⟨_, _, _, hw⟩

theorem iteration_write_record (ds : DataSet) (ext : Externals) (cor_sig : ℚ) (y t : Nat)
    (alpha_yain alpha_tain : Alpha)
    (hy : ds.alphas.get? y = some alpha_yain) (ht : ds.alphas.get? t = some alpha_tain)
    (e : Emission) (hit : iteration ds ext cor_sig y t = .ok (some e)) :
    ∃ (p : ℚ) (s n : Int) (r : Dbl),
      write_record ds alpha_yain alpha_tain
        (count_overlaps y alpha_yain.edges t alpha_tain.edges).edges_ovlp p s n r
        alpha_yain.edges.size alpha_tain.edges.size
        (chance alpha_yain.edges.size n) (chance alpha_tain.edges.size n) = .ok e.line := by
  unfold iteration at hit
  rw [hy, ht] at hit
  simp only at hit
  split at hit
  · cases hit
  · split at hit
    · cases hit
    · cases hit
    · rename_i n hn
      obtain ⟨p, s, r, hw⟩ := body_tail_write_record _ _ _ _ _ _ _ _ _ hit
      exact ⟨p, s, n, r, hw⟩

/-- C8. Secondary statistic: for a pair whose iteration writes a record, in ACCOMPANY mode the
record has 12 fields, every edge looked up for a connector of the overlap list exists, and, when
the overlap list is not empty, the fourth field is the sum over the connectors `p` of the overlap
list of `|weight(edge(name(A) + "-" + p)) - weight(edge(name(B) + "-" + p))|` divided by the
length of the overlap list; the overlap list holds the names of the connectors of `A` that are
also connectors of `B`. In AVOID mode the record is the list of the 11 other fields. -/
theorem secondary_statistic (ds : DataSet) (ext : Externals) (cor_sig : ℚ) (y t : Nat)
    (alpha_yain alpha_tain : Alpha)
    (hy : ds.alphas.get? y = some alpha_yain) (ht : ds.alphas.get? t = some alpha_tain)
    (e : Emission) (hit : iteration ds ext cor_sig y t = .ok (some e)) :
    (count_overlaps y alpha_yain.edges t alpha_tain.edges).edges_ovlp
      = (alpha_yain.edges.entries.filter (fun kvp => has_key alpha_tain.edges kvp.1)).map
          (fun kvp => kvp.1.name) ∧
    (ds.options.coin_max_mode = .ACCOMPANY →
      e.line.length = 12 ∧
      (∀ p ∈ (count_overlaps y alpha_yain.edges t alpha_tain.edges).edges_ovlp,
        (∃ e1, find_id ds.edges (alpha_yain.name ++ "-" ++ p) = .ok e1) ∧
        (∃ e2, find_id ds.edges (alpha_tain.name ++ "-" ++ p) = .ok e2)) ∧
      ((count_overlaps y alpha_yain.edges t alpha_tain.edges).edges_ovlp ≠ [] →
        e.line.get? 3 = some (.real (some
          (avg_synthetic_distance ds.edges alpha_yain.name alpha_tain.name
            (count_overlaps y alpha_yain.edges t alpha_tain.edges).edges_ovlp))))) ∧
    (ds.options.coin_max_mode = .AVOID →
      ∃ (p : ℚ) (s n : Int) (r : Dbl),
        e.line = [.text alpha_yain.name, .text alpha_tain.name, .real (some p),
          .int s, .int n, .real r,
          expected_count .AVOID alpha_yain.edges.size alpha_tain.edges.size n,
          .int alpha_yain.edges.size, .int alpha_tain.edges.size,
          .real (chance alpha_yain.edges.size n), .real (chance alpha_tain.edges.size n)]) := by
  obtain ⟨p, s, n, r, hw⟩ := iteration_write_record ds ext cor_sig y t _ _ hy ht e hit
  obtain ⟨hacc, havoid⟩ := write_record_spec _ _ _ _ _ _ _ _ _ _ _ _ _ hw
  refine ⟨?_, hacc, fun hm => ⟨p, s, n, r, havoid hm⟩⟩
  rw [count_overlaps_eq]

/-- C8, witness: `X` and `Y` share the connector `q`; the weights of `X-q` and `Y-q` are 3 and
5, so the average synthetic distance is `|3 - 5| / 1 = 2`. -/
theorem secondary_statistic_witness :
    ([Cell.text "X", .text "Y", .real (some 1), .real (some 2), .int 1, .int 3,
        .real (some (4 / 9)), .int 1, .int 2, .int 2, .real (some (2 / 3)),
        .real (some (2 / 3))] : List Cell).get? 3
      = some (.real (some (avg_synthetic_distance example_edges "X" "Y"
          (count_overlaps 0 alpha_X.edges 1 alpha_Y.edges).edges_ovlp))) ∧
    avg_synthetic_distance example_edges "X" "Y"
      (count_overlaps 0 alpha_X.edges 1 alpha_Y.edges).edges_ovlp = 2 :=
  have h := secondary_statistic (example_dataset .INTERSECTION .ACCOMPANY true)
    (example_externals 1) (1 / 20) 0 1 alpha_X alpha_Y rfl rfl
    ⟨[.text "X", .text "Y", .real (some 1), .real (some 2), .int 1, .int 3,
        .real (some (4 / 9)), .int 1, .int 2, .int 2, .real (some (2 / 3)),
        .real (some (2 / 3))], ("X", "Y", 1)⟩ (by decide!)
  ⟨(h.2.1 rfl).2.2 (by decide), by decide!⟩

/-! ## Runs that return -/

theorem syn_sums_fold_ok (edge_table : List Edge) (yain_name tain_name : String)
    (l : List String) (init : ℚ)
    (h : ∀ p ∈ l, (∃ e, find_id edge_table (yain_name ++ "-" ++ p) = .ok e) ∧
      (∃ e, find_id edge_table (tain_name ++ "-" ++ p) = .ok e)) :
    ∃ s, l.foldlM (syn_sums_step edge_table yain_name tain_name) init = .ok s := by
  induction l generalizing init with
  | nil => exact ⟨init, rfl⟩
  | cons x xs ih =>
    obtain ⟨⟨e1, h1⟩, ⟨e2, h2⟩⟩ := h x (List.mem_cons_self _ _)
    rw [List.foldlM_cons]
    simp only [syn_sums_step, h1, h2]
    exact ih _ (fun p hp => h p (List.mem_cons_of_mem _ hp))

theorem write_record_ok (ds : DataSet) (hmax : ds.options.coin_max_mode ≠ .OTHER)
    (alpha_yain alpha_tain : Alpha) (edges_ovlp : List String)
    (hlook : ds.options.coin_max_mode = .ACCOMPANY → ∀ p ∈ edges_ovlp,
      (∃ e, find_id ds.edges (alpha_yain.name ++ "-" ++ p) = .ok e) ∧
      (∃ e, find_id ds.edges (alpha_tain.name ++ "-" ++ p) = .ok e))
    (p_value : ℚ) (successes num_observations : Int) (rate : Dbl)
    (num_edges_yain num_edges_tain : Int) (chance_i chance_j : Dbl) :
    ∃ line, write_record ds alpha_yain alpha_tain edges_ovlp p_value successes
      num_observations rate num_edges_yain num_edges_tain chance_i chance_j = .ok line := by
  unfold write_record
  cases hm : ds.options.coin_max_mode with
  | OTHER => exact absurd hm hmax
  | AVOID => exact ⟨_, rfl⟩
  | ACCOMPANY =>
    obtain ⟨s, hs⟩ := syn_sums_fold_ok ds.edges alpha_yain.name alpha_tain.name edges_ovlp 0
      (hlook hm)
    simp only [syn_sums_loop, hs]
    exact ⟨_, rfl⟩

theorem body_tail_ok (ds : DataSet) (ext : Externals) (cor_sig : ℚ)
    (hmax : ds.options.coin_max_mode ≠ .OTHER)
    (alpha_yain alpha_tain : Alpha) (c : Counts)
    (hlook : ds.options.coin_max_mode = .ACCOMPANY → ∀ p ∈ c.edges_ovlp,
      (∃ e, find_id ds.edges (alpha_yain.name ++ "-" ++ p) = .ok e) ∧
      (∃ e, find_id ds.edges (alpha_tain.name ++ "-" ++ p) = .ok e))
    (tr n : Int) :
    ∃ o, body_tail ds ext cor_sig alpha_yain alpha_tain c tr n = .ok o := by
  obtain ⟨s, r, hsr⟩ := max_mode_switch_ok ds.options.coin_max_mode hmax tr c.overlaps
    (chance alpha_yain.edges.size n) (chance alpha_tain.edges.size n)
    (not_cross_chance alpha_yain.edges.size n) (not_cross_chance alpha_tain.edges.size n)
  simp only [body_tail, hsr]
  split
  · exact ⟨_, rfl⟩
  · split
    · exact ⟨_, rfl⟩
    · obtain ⟨line, hl⟩ := write_record_ok ds hmax alpha_yain alpha_tain c.edges_ovlp hlook
        (ext.test ds.options.alt_hypothesis s n r) s n r alpha_yain.edges.size
        alpha_tain.edges.size (chance alpha_yain.edges.size n) (chance alpha_tain.edges.size n)
      rw [hl]
      exact ⟨_, rfl⟩

theorem iteration_ok (ds : DataSet) (ext : Externals) (cor_sig : ℚ)
    (hset : ds.options.coin_set_mode ≠ .OTHER) (hmax : ds.options.coin_max_mode ≠ .OTHER)
    (hlook : ds.options.coin_max_mode = .ACCOMPANY → lookups_defined ds) (y t : Nat) :
    ∃ o, iteration ds ext cor_sig y t = .ok o := by
  unfold iteration
  cases hy : ds.alphas.get? y with
  | none => exact ⟨_, rfl⟩
  | some alpha_yain =>
    cases ht : ds.alphas.get? t with
    | none => exact ⟨_, rfl⟩
    | some alpha_tain =>
      simp only
      split
      · exact ⟨_, rfl⟩
      · cases hm : ds.options.coin_set_mode with
        | OTHER => exact absurd hm hset
        | INTERSECTION =>
          by_cases h0 : total_range alpha_yain.edges.size alpha_tain.edges.size
              (count_overlaps y alpha_yain.edges t alpha_tain.edges).overlaps = 0
          · simp only [set_mode_switch, h0, if_true]
            exact ⟨_, rfl⟩
          · simp only [set_mode_switch, h0, if_false]
            exact body_tail_ok ds ext cor_sig hmax _ _ _
              (fun h => hlook h y t _ _ hy ht) _ _
        | FULL =>
          simp only [set_mode_switch]
          exact body_tail_ok ds ext cor_sig hmax _ _ _
            (fun h => hlook h y t _ _ hy ht) _ _

theorem fold_total (body : Nat → RunState → Except String RunState)
    (hbody : ∀ i st, ∃ st', body i st = .ok st') (l : List Nat) (st : RunState) :
    ∃ st', l.foldlM (fun st i => body i st) st = .ok st' := by
  induction l generalizing st with
  | nil => exact ⟨st, rfl⟩
  | cons x xs ih =>
    obtain ⟨st1, h1⟩ := hbody x st
    rw [List.foldlM_cons, h1]
    exact ih st1

/-- With both modes among the handled values and, in ACCOMPANY mode, every looked-up edge in the
edge table, the run returns. -/
theorem run_returns (ds : DataSet) (ext : Externals)
    (hset : ds.options.coin_set_mode ≠ .OTHER) (hmax : ds.options.coin_max_mode ≠ .OTHER)
    (hlook : ds.options.coin_max_mode = .ACCOMPANY → lookups_defined ds) :
    ∃ flag out, run ds ext = .ok (flag, out) := by
  have hbody : ∀ y t st, ∃ st', loop_body ds ext (cor_sig_of ds ext) y t st = .ok st' := by
    intro y t st
    obtain ⟨o, ho⟩ := iteration_ok ds ext (cor_sig_of ds ext) hset hmax hlook y t
    unfold loop_body
    rw [ho]
    cases o with
    | none => exact ⟨_, rfl⟩
    | some e => exact ⟨_, rfl⟩
  have hhdr : ∃ a, _write_header ds [] = .ok a := by
    unfold _write_header
    cases hm : ds.options.coin_max_mode with
    | OTHER => exact absurd hm hmax
    | AVOID => exact ⟨_, rfl⟩
    | ACCOMPANY => exact ⟨_, rfl⟩
  obtain ⟨a, ha⟩ := hhdr
  obtain ⟨st', hst⟩ := fold_total
    (fun yain_count st => for_loop ds.alphas.length
      (fun tain_count st => loop_body ds ext (cor_sig_of ds ext) yain_count tain_count st) st)
    (fun y st => fold_total _ (fun t st => hbody y t st) _ st)
    (List.range ds.alphas.length) ⟨-1, a, []⟩
  refine ⟨st'.returnflag, st'.analysis, ?_⟩
  unfold run
  rw [ha]
  simp only
  have hst' : for_loop ds.alphas.length
      (fun yain_count st => for_loop ds.alphas.length
        (fun tain_count st =>
          loop_body ds ext (ext.correct ds.options.sig_level ds.options.correction ds.num_edges)
            yain_count tain_count st) st) ⟨-1, a, []⟩ = .ok st' := hst
  rw [hst']

/-! ## The degenerate-rate guard -/

theorem max_mode_accompany_eval (tr ov a b n : Int) (hn : n ≠ 0) :
    max_mode_switch .ACCOMPANY tr ov (chance a n) (chance b n) (not_cross_chance a n)
      (not_cross_chance b n) = .ok (ov, some (((a : ℚ) / (n : ℚ)) * ((b : ℚ) / (n : ℚ)))) := by
  simp [max_mode_switch, chance_of_ne_zero _ _ hn, Dbl.mul]

theorem max_mode_avoid_eval (tr ov a b n : Int) (hn : n ≠ 0) :
    max_mode_switch .AVOID tr ov (chance a n) (chance b n) (not_cross_chance a n)
      (not_cross_chance b n)
      = .ok (tr - ov, some (((a : ℚ) / (n : ℚ)) * (1 - (b : ℚ) / (n : ℚ))
          + ((b : ℚ) / (n : ℚ)) * (1 - (a : ℚ) / (n : ℚ)))) := by
  simp [max_mode_switch, chance_of_ne_zero _ _ hn, not_cross_chance_of_ne_zero _ _ hn,
    Dbl.mul, Dbl.add]

/-- The iteration of a pair whose rate is 0 or 1: it is a `continue`, and it makes no call of
the binomial test. -/
theorem degenerate_rate_skip (ds : DataSet) (ext : Externals) (cor_sig : ℚ)
    (yain_count tain_count : Nat) (alpha_yain alpha_tain : Alpha)
    (hy : ds.alphas.get? yain_count = some alpha_yain)
    (ht : ds.alphas.get? tain_count = some alpha_tain)
    (n s : Int) (r : Dbl)
    (hswitch : set_mode_switch ds.options.coin_set_mode
      (total_range alpha_yain.edges.size alpha_tain.edges.size
        (count_overlaps yain_count alpha_yain.edges tain_count alpha_tain.edges).overlaps)
      ds.betas.length = .ok (some n))
    (hrate : max_mode_switch ds.options.coin_max_mode
      (total_range alpha_yain.edges.size alpha_tain.edges.size
        (count_overlaps yain_count alpha_yain.edges tain_count alpha_tain.edges).overlaps)
      (count_overlaps yain_count alpha_yain.edges tain_count alpha_tain.edges).overlaps
      (chance alpha_yain.edges.size n) (chance alpha_tain.edges.size n)
      (not_cross_chance alpha_yain.edges.size n) (not_cross_chance alpha_tain.edges.size n)
      = .ok (s, r))
    (hdeg : r = some 0 ∨ r = some 1) :
    iteration ds ext cor_sig yain_count tain_count = .ok none ∧
    test_call ds yain_count tain_count = none := by
  constructor
  · unfold iteration
    rw [hy, ht]
    simp only [hswitch, body_tail, hrate, hdeg, if_true]
    split <;> rfl
  · unfold test_call
    rw [hy, ht]
    simp only [hswitch, hrate, hdeg, if_true]
    split <;> rfl

/-- C11. Degenerate-rate guard: whatever the options (set mode, max mode, alternative
hypothesis, `output_all`, `verbose`), the external functions and the threshold, an iteration whose
pair has a computed rate equal to 0 or to 1 leaves the state unchanged (no record is written) and
makes no call of `Binomial::test`. -/
theorem degenerate_rate_guard (ds : DataSet) (ext : Externals) (cor_sig : ℚ)
    (yain_count tain_count : Nat) (alpha_yain alpha_tain : Alpha) (st : RunState)
    (hy : ds.alphas.get? yain_count = some alpha_yain)
    (ht : ds.alphas.get? tain_count = some alpha_tain)
    (n s : Int) (r : Dbl)
    (hswitch : set_mode_switch ds.options.coin_set_mode
      (total_range alpha_yain.edges.size alpha_tain.edges.size
        (count_overlaps yain_count alpha_yain.edges tain_count alpha_tain.edges).overlaps)
      ds.betas.length = .ok (some n))
    (hrate : max_mode_switch ds.options.coin_max_mode
      (total_range alpha_yain.edges.size alpha_tain.edges.size
        (count_overlaps yain_count alpha_yain.edges tain_count alpha_tain.edges).overlaps)
      (count_overlaps yain_count alpha_yain.edges tain_count alpha_tain.edges).overlaps
      (chance alpha_yain.edges.size n) (chance alpha_tain.edges.size n)
      (not_cross_chance alpha_yain.edges.size n) (not_cross_chance alpha_tain.edges.size n)
      = .ok (s, r))
    (hdeg : r = some 0 ∨ r = some 1) :
    loop_body ds ext cor_sig yain_count tain_count st = .ok st ∧
    pair_lines ds ext cor_sig yain_count tain_count = [] ∧
    test_call ds yain_count tain_count = none := by
  obtain ⟨hit, htc⟩ := degenerate_rate_skip ds ext cor_sig yain_count tain_count alpha_yain
    alpha_tain hy ht n s r hswitch hrate hdeg
  refine ⟨?_, ?_, htc⟩
  · unfold loop_body
    rw [hit]
  · unfold pair_lines
    rw [hit]

/-- C11, witness: the entity `A` without connectors and the entity `X` under INTERSECTION and
ACCOMPANY; the rate is `0 * 1 = 0`. -/
theorem degenerate_rate_guard_witness :
    loop_body (mixed_dataset .INTERSECTION .ACCOMPANY) (example_externals 0) (1 / 20) 0 1
        ⟨-1, [], []⟩ = .ok ⟨-1, [], []⟩ ∧
    pair_lines (mixed_dataset .INTERSECTION .ACCOMPANY) (example_externals 0) (1 / 20) 0 1 = [] ∧
    test_call (mixed_dataset .INTERSECTION .ACCOMPANY) 0 1 = none :=
  degenerate_rate_guard (mixed_dataset .INTERSECTION .ACCOMPANY) (example_externals 0) (1 / 20)
    0 1 alpha_A alpha_X ⟨-1, [], []⟩ rfl rfl 2 0 (some 0) (by rfl) (by decide!) (Or.inl rfl)

/-! ## The call of the binomial test -/

/-- An iteration that calls the binomial test goes on as lines 223-317 say, with the p-value
that the test returns for the arguments of `test_call`. -/
theorem iteration_of_test_call (ds : DataSet) (ext : Externals) (cor_sig : ℚ) (y t : Nat)
    (alpha_yain alpha_tain : Alpha)
    (hy : ds.alphas.get? y = some alpha_yain) (ht : ds.alphas.get? t = some alpha_tain)
    (h : EHypothesis) (s n : Int) (r : Dbl) (hcall : test_call ds y t = some (h, s, n, r)) :
    iteration ds ext cor_sig y t =
      if ext.test h s n r > cor_sig ∧ ds.options.output_all = false then .ok none
      else
        match write_record ds alpha_yain alpha_tain
          (count_overlaps y alpha_yain.edges t alpha_tain.edges).edges_ovlp (ext.test h s n r)
          s n r alpha_yain.edges.size alpha_tain.edges.size
          (chance alpha_yain.edges.size n) (chance alpha_tain.edges.size n) with
        | .error e => .error e
        | .ok line => .ok (some ⟨line, (alpha_yain.name, alpha_tain.name, ext.test h s n r)⟩) := by
  unfold test_call at hcall
  unfold iteration
  rw [hy, ht] at hcall ⊢
  simp only at hcall ⊢
  split at hcall
  · cases hcall
  · rename_i hf
    simp only [hf, if_false]
    split at hcall
    · rename_i n' hn'
      split at hcall
      · rename_i s' r' hsr'
        split at hcall
        · cases hcall
        · rename_i hdeg
          simp only [Option.some.injEq, Prod.mk.injEq] at hcall
          obtain ⟨rfl, rfl, rfl, rfl⟩ := hcall
          simp only [hn', body_tail, hsr', hdeg, if_false, Bool.true_eq_false]
      · cases hcall
    · cases hcall

/-- An iteration that does not call the binomial test does the same whatever the external
functions and the threshold are. -/
theorem iteration_of_no_test_call (ds : DataSet) (ext ext' : Externals) (cor_sig cor_sig' : ℚ)
    (y t : Nat) (hcall : test_call ds y t = none) :
    iteration ds ext cor_sig y t = iteration ds ext' cor_sig' y t := by
  unfold test_call at hcall
  unfold iteration
  cases hy : ds.alphas.get? y with
  | none => rfl
  | some alpha_yain =>
    cases ht : ds.alphas.get? t with
    | none => rfl
    | some alpha_tain =>
      rw [hy, ht] at hcall
      simp only at hcall ⊢
      by_cases hf : name_filter alpha_yain alpha_tain = false
      · simp only [hf, if_true]
      · simp only [hf, if_false] at hcall ⊢
        cases hn : set_mode_switch ds.options.coin_set_mode
            (total_range alpha_yain.edges.size alpha_tain.edges.size
              (count_overlaps y alpha_yain.edges t alpha_tain.edges).overlaps)
            ds.betas.length with
        | error e => rfl
        | ok o =>
          cases o with
          | none => rfl
          | some n =>
            rw [hn] at hcall
            simp only at hcall ⊢
            cases hsr : max_mode_switch ds.options.coin_max_mode
                (total_range alpha_yain.edges.size alpha_tain.edges.size
                  (count_overlaps y alpha_yain.edges t alpha_tain.edges).overlaps)
                (count_overlaps y alpha_yain.edges t alpha_tain.edges).overlaps
                (chance alpha_yain.edges.size n) (chance alpha_tain.edges.size n)
                (not_cross_chance alpha_yain.edges.size n)
                (not_cross_chance alpha_tain.edges.size n) with
            | error e => simp only [body_tail, hsr]
            | ok sr =>
              obtain ⟨s, r⟩ := sr
              rw [hsr] at hcall
              simp only at hcall
              by_cases hdeg : r = some 0 ∨ r = some 1
              · simp only [body_tail, hsr, hdeg, if_true]
              · simp only [hdeg, if_false] at hcall
                cases hcall

/-! ## An entity without connectors -/

theorem overlaps_of_empty (yain_obj : Nat) (edges_yain : EdgeMap) (tain_obj : Nat)
    (edges_tain : EdgeMap) (h : edges_yain.entries = [] ∨ edges_tain.entries = []) :
    (count_overlaps yain_obj edges_yain tain_obj edges_tain).overlaps = 0 := by
  rw [count_overlaps_eq]
  simp only
  rcases h with h | h
  · rw [h]; rfl
  · have : edges_yain.entries.filter (fun kvp => has_key edges_tain kvp.1) = [] := by
      apply List.filter_eq_nil_iff.2
      intro kvp _
      simp [has_key, h]
    rw [this]; rfl

/-- The rate of a pair with one empty and one non-empty edge set, under INTERSECTION sizing. -/
theorem empty_entity_rate (mode : EMaxMode) (hmode : mode ≠ .OTHER) (a b : Nat)
    (hab : (a = 0 ∧ b ≠ 0) ∨ (a ≠ 0 ∧ b = 0)) :
    ∃ (s : Int) (r : Dbl),
      max_mode_switch mode (total_range a b 0) 0
        (chance a (total_range a b 0)) (chance b (total_range a b 0))
        (not_cross_chance a (total_range a b 0)) (not_cross_chance b (total_range a b 0))
        = .ok (s, r) ∧ (r = some 0 ∨ r = some 1) := by
  have htr : total_range a b 0 = (a : Int) + (b : Int) := by simp [total_range]
  rw [htr]
  rcases hab with ⟨ha, hb⟩ | ⟨ha, hb⟩
  · subst ha
    have hn : ((0 : Nat) : Int) + (b : Int) ≠ 0 := by omega
    have hbq : (b : ℚ) ≠ 0 := by exact_mod_cast hb
    cases mode with
    | OTHER => exact absurd rfl hmode
    | ACCOMPANY =>
      refine ⟨_, _, max_mode_accompany_eval _ _ _ _ _ hn, Or.inl ?_⟩
      simp
    | AVOID =>
      refine ⟨_, _, max_mode_avoid_eval _ _ _ _ _ hn, Or.inr ?_⟩
      simp [hbq]
  · subst hb
    have hn : (a : Int) + ((0 : Nat) : Int) ≠ 0 := by omega
    have haq : (a : ℚ) ≠ 0 := by exact_mod_cast ha
    cases mode with
    | OTHER => exact absurd rfl hmode
    | ACCOMPANY =>
      refine ⟨_, _, max_mode_accompany_eval _ _ _ _ _ hn, Or.inl ?_⟩
      simp
    | AVOID =>
      refine ⟨_, _, max_mode_avoid_eval _ _ _ _ _ hn, Or.inr ?_⟩
      simp [haq]

/-- C12. Empty-entity scenario: under INTERSECTION sizing and for either max mode, a pair with
one empty and one non-empty edge set has `num_observations` equal to the degree of the non-empty
entity, the chance of the empty entity is 0, the computed rate is 0 or 1, and the iteration leaves
the state unchanged (no record, whatever `output_all`) without a call of the binomial test. -/
theorem empty_entity_skipped (ds : DataSet) (ext : Externals) (cor_sig : ℚ)
    (yain_count tain_count : Nat) (alpha_yain alpha_tain : Alpha) (st : RunState)
    (hy : ds.alphas.get? yain_count = some alpha_yain)
    (ht : ds.alphas.get? tain_count = some alpha_tain)
    (hset : ds.options.coin_set_mode = .INTERSECTION)
    (hmax : ds.options.coin_max_mode ≠ .OTHER)
    (hempty : (alpha_yain.edges.entries = [] ∧ alpha_tain.edges.entries ≠ []) ∨
      (alpha_yain.edges.entries ≠ [] ∧ alpha_tain.edges.entries = [])) :
    ∃ (n s : Int) (r : Dbl),
      set_mode_switch ds.options.coin_set_mode
        (total_range alpha_yain.edges.size alpha_tain.edges.size
          (count_overlaps yain_count alpha_yain.edges tain_count alpha_tain.edges).overlaps)
        ds.betas.length = .ok (some n) ∧
      (alpha_yain.edges.entries = [] → n = alpha_tain.edges.size ∧
        chance alpha_yain.edges.size n = some 0) ∧
      (alpha_tain.edges.entries = [] → n = alpha_yain.edges.size ∧
        chance alpha_tain.edges.size n = some 0) ∧
      max_mode_switch ds.options.coin_max_mode
        (total_range alpha_yain.edges.size alpha_tain.edges.size
          (count_overlaps yain_count alpha_yain.edges tain_count alpha_tain.edges).overlaps)
        (count_overlaps yain_count alpha_yain.edges tain_count alpha_tain.edges).overlaps
        (chance alpha_yain.edges.size n) (chance alpha_tain.edges.size n)
        (not_cross_chance alpha_yain.edges.size n) (not_cross_chance alpha_tain.edges.size n)
        = .ok (s, r) ∧
      (r = some 0 ∨ r = some 1) ∧
      loop_body ds ext cor_sig yain_count tain_count st = .ok st ∧
      pair_lines ds ext cor_sig yain_count tain_count = [] ∧
      test_call ds yain_count tain_count = none := by
  have hov : (count_overlaps yain_count alpha_yain.edges tain_count alpha_tain.edges).overlaps
      = 0 := by
    apply overlaps_of_empty
    rcases hempty with ⟨h, -⟩ | ⟨-, h⟩
    · exact Or.inl h
    · exact Or.inr h
  have hsizes : (alpha_yain.edges.size = 0 ∧ alpha_tain.edges.size ≠ 0) ∨
      (alpha_yain.edges.size ≠ 0 ∧ alpha_tain.edges.size = 0) := by
    simp only [EdgeMap.size, ne_eq, List.length_eq_zero]
    exact hempty
  have htr : total_range alpha_yain.edges.size alpha_tain.edges.size 0
      = (alpha_yain.edges.size : Int) + (alpha_tain.edges.size : Int) := by simp [total_range]
  have hn0 : total_range alpha_yain.edges.size alpha_tain.edges.size 0 ≠ 0 := by
    rw [htr]; omega
  obtain ⟨s, r, hsr, hdeg⟩ := empty_entity_rate ds.options.coin_max_mode hmax
    alpha_yain.edges.size alpha_tain.edges.size hsizes
  have hswitch : set_mode_switch ds.options.coin_set_mode
      (total_range alpha_yain.edges.size alpha_tain.edges.size
        (count_overlaps yain_count alpha_yain.edges tain_count alpha_tain.edges).overlaps)
      ds.betas.length
      = .ok (some (total_range alpha_yain.edges.size alpha_tain.edges.size 0)) := by
    rw [hov, hset]
    simp [set_mode_switch, hn0]
  have hsr' : max_mode_switch ds.options.coin_max_mode
      (total_range alpha_yain.edges.size alpha_tain.edges.size
        (count_overlaps yain_count alpha_yain.edges tain_count alpha_tain.edges).overlaps)
      (count_overlaps yain_count alpha_yain.edges tain_count alpha_tain.edges).overlaps
      (chance alpha_yain.edges.size (total_range alpha_yain.edges.size alpha_tain.edges.size 0))
      (chance alpha_tain.edges.size (total_range alpha_yain.edges.size alpha_tain.edges.size 0))
      (not_cross_chance alpha_yain.edges.size
        (total_range alpha_yain.edges.size alpha_tain.edges.size 0))
      (not_cross_chance alpha_tain.edges.size
        (total_range alpha_yain.edges.size alpha_tain.edges.size 0)) = .ok (s, r) := by
    rw [hov]; exact hsr
  obtain ⟨hit, htc⟩ := degenerate_rate_skip ds ext cor_sig yain_count tain_count alpha_yain
    alpha_tain hy ht _ s r hswitch hsr' hdeg
  refine ⟨_, s, r, hswitch, ?_, ?_, hsr', hdeg, ?_, ?_, htc⟩
  · intro he
    have h0 : alpha_yain.edges.size = 0 := by simp [EdgeMap.size, he]
    refine ⟨by rw [htr, h0]; simp, ?_⟩
    rw [chance_of_ne_zero _ _ hn0, h0]
    simp
  · intro he
    have h0 : alpha_tain.edges.size = 0 := by simp [EdgeMap.size, he]
    refine ⟨by rw [htr, h0]; simp, ?_⟩
    rw [chance_of_ne_zero _ _ hn0, h0]
    simp
  · unfold loop_body
    rw [hit]
  · unfold pair_lines
    rw [hit]

/-- C12, witness: the entity `A` without connectors and the entity `X` with two, in AVOID
mode. -/
theorem empty_entity_skipped_witness :
    ∃ (n s : Int) (r : Dbl),
      set_mode_switch (mixed_dataset .INTERSECTION .AVOID).options.coin_set_mode
        (total_range alpha_A.edges.size alpha_X.edges.size
          (count_overlaps 0 alpha_A.edges 1 alpha_X.edges).overlaps)
        (mixed_dataset .INTERSECTION .AVOID).betas.length = .ok (some n) ∧
      (alpha_A.edges.entries = [] → n = alpha_X.edges.size ∧
        chance alpha_A.edges.size n = some 0) ∧
      (alpha_X.edges.entries = [] → n = alpha_A.edges.size ∧
        chance alpha_X.edges.size n = some 0) ∧
      max_mode_switch (mixed_dataset .INTERSECTION .AVOID).options.coin_max_mode
        (total_range alpha_A.edges.size alpha_X.edges.size
          (count_overlaps 0 alpha_A.edges 1 alpha_X.edges).overlaps)
        (count_overlaps 0 alpha_A.edges 1 alpha_X.edges).overlaps
        (chance alpha_A.edges.size n) (chance alpha_X.edges.size n)
        (not_cross_chance alpha_A.edges.size n) (not_cross_chance alpha_X.edges.size n)
        = .ok (s, r) ∧
      (r = some 0 ∨ r = some 1) ∧
      loop_body (mixed_dataset .INTERSECTION .AVOID) (example_externals 0) (1 / 20) 0 1
        ⟨-1, [], []⟩ = .ok ⟨-1, [], []⟩ ∧
      pair_lines (mixed_dataset .INTERSECTION .AVOID) (example_externals 0) (1 / 20) 0 1 = [] ∧
      test_call (mixed_dataset .INTERSECTION .AVOID) 0 1 = none :=
  empty_entity_skipped (mixed_dataset .INTERSECTION .AVOID) (example_externals 0) (1 / 20) 0 1
    alpha_A alpha_X ⟨-1, [], []⟩ rfl rfl rfl (by decide) (Or.inl ⟨rfl, by decide⟩)

/-! ## The worked scenario -/

theorem run_two (ds : DataSet) (ext : Externals) (header : List Cell) (e : Emission)
    (hlen : ds.alphas.length = 2)
    (hheader : _write_header ds [] = .ok [header])
    (h00 : iteration ds ext (cor_sig_of ds ext) 0 0 = .ok none)
    (h01 : iteration ds ext (cor_sig_of ds ext) 0 1 = .ok (some e))
    (h10 : iteration ds ext (cor_sig_of ds ext) 1 0 = .ok none)
    (h11 : iteration ds ext (cor_sig_of ds ext) 1 1 = .ok none) :
    run ds ext = .ok (0, [header, e.line]) := by
  have hr : List.range 2 = [0, 1] := rfl
  unfold run
  rw [hheader, hlen]
  simp only [for_loop, hr, List.foldlM_cons, List.foldlM_nil, loop_body]
  unfold cor_sig_of at h00 h01 h10 h11
  rw [h00, h01]
  simp only [bind, Except.bind, pure, Except.pure]
  rw [h10, h11]
  rfl

theorem scenario_iteration (ext : Externals) (cor_sig : ℚ) :
    iteration (example_dataset .INTERSECTION .ACCOMPANY true) ext cor_sig 0 1
      = .ok (some ⟨[.text "X", .text "Y",
          .real (some (ext.test .TWOTAILED 1 3 (some (4 / 9)))), .real (some 2), .int 1,
          .int 3, .real (some (4 / 9)), .int 1, .int 2, .int 2, .real (some (2 / 3)),
          .real (some (2 / 3))], ("X", "Y", ext.test .TWOTAILED 1 3 (some (4 / 9)))⟩) := by
  have hcall : test_call (example_dataset .INTERSECTION .ACCOMPANY true) 0 1
      = some (.TWOTAILED, 1, 3, some (4 / 9)) := by decide!
  rw [iteration_of_test_call (example_dataset .INTERSECTION .ACCOMPANY true) ext cor_sig 0 1
    alpha_X alpha_Y rfl rfl _ _ _ _ hcall]
  have hall : (example_dataset .INTERSECTION .ACCOMPANY true).options.output_all = true := rfl
  have hov : (count_overlaps 0 alpha_X.edges 1 alpha_Y.edges).edges_ovlp = ["q"] := by decide
  have hsyn : syn_sums_loop (example_dataset .INTERSECTION .ACCOMPANY true).edges
      alpha_X.name alpha_Y.name ["q"] = .ok 2 := by decide!
  have hcast : expected_count .ACCOMPANY alpha_X.edges.size alpha_Y.edges.size 3
      = .int 1 := by decide!
  have hc1 : chance alpha_X.edges.size 3 = some (2 / 3) := by decide!
  have hc2 : chance alpha_Y.edges.size 3 = some (2 / 3) := by decide!
  have hd : Dbl.divInt (some 2) (["q"] : List String).length = some 2 := by decide!
  have hm : (example_dataset .INTERSECTION .ACCOMPANY true).options.coin_max_mode
      = .ACCOMPANY := rfl
  simp only [hall, Bool.true_eq_false, and_false, if_false, hov, write_record, hm, hsyn, hcast,
    hc1, hc2, hd]
  rfl

theorem scenario_skipped (ext : Externals) (cor_sig : ℚ) (y t : Nat)
    (h : test_call (example_dataset .INTERSECTION .ACCOMPANY true) y t = none)
    (h0 : iteration (example_dataset .INTERSECTION .ACCOMPANY true) (example_externals 0) 0 y t
      = .ok none) :
    iteration (example_dataset .INTERSECTION .ACCOMPANY true) ext cor_sig y t = .ok none := by
  rw [iteration_of_no_test_call _ ext (example_externals 0) cor_sig 0 y t h, h0]

/-- C13. Worked scenario: for the entities `X` (connectors `p`, `q`) and `Y` (connectors `q`,
`r`) over four connectors, under INTERSECTION, ACCOMPANY, two-sided, `output_all = true`, the
engine computes `overlaps = 1`, `total_range = 3`, `num_observations = 3`, both chances `2/3`,
`rate = 4/9` and `successes = 1`, calls the binomial test with `(1, 3, 4/9)`, and, whatever the
external functions (hence the p-value) are, returns `0` with exactly one data line, from `X` to
`Y`. -/
theorem worked_scenario (ext : Externals) :
    (count_overlaps 0 alpha_X.edges 1 alpha_Y.edges).overlaps = 1 ∧
    (count_overlaps 0 alpha_X.edges 1 alpha_Y.edges).edges_ovlp = ["q"] ∧
    total_range alpha_X.edges.size alpha_Y.edges.size
      (count_overlaps 0 alpha_X.edges 1 alpha_Y.edges).overlaps = 3 ∧
    set_mode_switch .INTERSECTION 3 (example_dataset .INTERSECTION .ACCOMPANY true).betas.length
      = .ok (some 3) ∧
    chance alpha_X.edges.size 3 = some (2 / 3) ∧
    chance alpha_Y.edges.size 3 = some (2 / 3) ∧
    max_mode_switch .ACCOMPANY 3 1 (chance alpha_X.edges.size 3) (chance alpha_Y.edges.size 3)
      (not_cross_chance alpha_X.edges.size 3) (not_cross_chance alpha_Y.edges.size 3)
      = .ok (1, some (4 / 9)) ∧
    test_call (example_dataset .INTERSECTION .ACCOMPANY true) 0 1
      = some (.TWOTAILED, 1, 3, some (4 / 9)) ∧
    run (example_dataset .INTERSECTION .ACCOMPANY true) ext = .ok (0,
      [[.text "Source", .text "Target", .text "p",
        .text "Avg synthetic distance", .text "successes", .text "observations", .text "rate",
        .text "expected", .text "total source", .text "total target", .text "fraction source",
        .text "fraction target"],
       [.text "X", .text "Y", .real (some (ext.test .TWOTAILED 1 3 (some (4 / 9)))),
        .real (some 2), .int 1, .int 3, .real (some (4 / 9)), .int 1, .int 2, .int 2,
        .real (some (2 / 3)), .real (some (2 / 3))]]) := by
  refine ⟨by decide, by decide, by decide, by rfl, by decide!, by decide!, by decide!,
    by decide!, ?_⟩
  exact run_two (example_dataset .INTERSECTION .ACCOMPANY true) ext _ _ rfl rfl
    (scenario_skipped ext _ 0 0 (by decide!) (by decide!))
    (scenario_iteration ext _)
    (scenario_skipped ext _ 1 0 (by decide!) (by decide!))
    (scenario_skipped ext _ 1 1 (by decide!) (by decide!))

/-! ## Configuration errors -/

theorem fold_error (body : Nat → RunState → Except String RunState) (msg : String)
    (E : Nat → Prop)
    (hbody : ∀ i st, (E i → body i st = .error msg) ∧ (¬ E i → body i st = .ok st))
    (l : List Nat) (st : RunState) :
    ((∃ i ∈ l, E i) → l.foldlM (fun st i => body i st) st = .error msg) ∧
    ((∀ i ∈ l, ¬ E i) → l.foldlM (fun st i => body i st) st = .ok st) := by
  induction l with
  | nil =>
    refine ⟨?_, fun _ => rfl⟩
    rintro ⟨i, hi, -⟩
    cases hi
  | cons x xs ih =>
    rw [List.foldlM_cons]
    by_cases hx : E x
    · rw [(hbody x st).1 hx]
      refine ⟨fun _ => rfl, fun h => absurd hx (h x (List.mem_cons_self _ _))⟩
    · rw [(hbody x st).2 hx]
      refine ⟨?_, ?_⟩
      · rintro ⟨i, hi, hE⟩
        rcases List.mem_cons.1 hi with rfl | hi
        · exact absurd hE hx
        · exact ih.1 ⟨i, hi, hE⟩
      · intro h
        exact ih.2 (fun i hi => h i (List.mem_cons_of_mem _ hi))

theorem iteration_other_set_mode (ds : DataSet) (ext : Externals) (cor_sig : ℚ) (y t : Nat)
    (hset : ds.options.coin_set_mode = .OTHER) :
    (passes_filter ds y t = true →
      iteration ds ext cor_sig y t = .error "Invalid options around SET_MODE_MASK.") ∧
    (¬ passes_filter ds y t = true → iteration ds ext cor_sig y t = .ok none) := by
  unfold passes_filter iteration
  cases hy : ds.alphas.get? y with
  | none => simp
  | some alpha_yain =>
    cases ht : ds.alphas.get? t with
    | none => simp
    | some alpha_tain =>
      simp only [hset, set_mode_switch]
      constructor
      · intro h; simp [h]
      · intro h; simp [h]

theorem loop_body_other_set_mode (ds : DataSet) (ext : Externals) (cor_sig : ℚ) (y t : Nat)
    (hset : ds.options.coin_set_mode = .OTHER) (st : RunState) :
    (passes_filter ds y t = true →
      loop_body ds ext cor_sig y t st = .error "Invalid options around SET_MODE_MASK.") ∧
    (¬ passes_filter ds y t = true → loop_body ds ext cor_sig y t st = .ok st) := by
  obtain ⟨h1, h2⟩ := iteration_other_set_mode ds ext cor_sig y t hset
  unfold loop_body
  exact ⟨fun h => by rw [h1 h], fun h => by rw [h2 h]⟩

theorem run_max_mode_error (ds : DataSet) (ext : Externals)
    (hmax : ds.options.coin_max_mode = .OTHER) :
    run ds ext = .error "Invalid options around MAX_MODE_MASK." := by
  unfold run
  simp [_write_header, hmax]

theorem run_set_mode_other (ds : DataSet) (ext : Externals)
    (hset : ds.options.coin_set_mode = .OTHER) (hmax : ds.options.coin_max_mode ≠ .OTHER) :
    ((∃ y t, passes_filter ds y t = true) →
      run ds ext = .error "Invalid options around SET_MODE_MASK.") ∧
    ((∀ y t, passes_filter ds y t = false) →
      ∃ header, _write_header ds [] = .ok [header] ∧ run ds ext = .ok (-1, [header])) := by
  have hhdr : ∃ header, _write_header ds [] = .ok [header] := by
    unfold _write_header
    cases hm : ds.options.coin_max_mode with
    | OTHER => exact absurd hm hmax
    | AVOID => exact ⟨_, rfl⟩
    | ACCOMPANY => exact ⟨_, rfl⟩
  obtain ⟨header, hheader⟩ := hhdr
  have hinner := fun (y : Nat) (st : RunState) =>
    fold_error (fun t st => loop_body ds ext (cor_sig_of ds ext) y t st)
      "Invalid options around SET_MODE_MASK." (fun t => passes_filter ds y t = true)
      (fun t st => loop_body_other_set_mode ds ext _ y t hset st)
      (List.range ds.alphas.length) st
  have hpass_lt : ∀ y t, passes_filter ds y t = true →
      y < ds.alphas.length ∧ t < ds.alphas.length := by
    intro y t h
    obtain ⟨ya, ta, h1, h2, -⟩ := (passes_filter_iff ds y t).1 h
    exact ⟨(List.get?_eq_some.1 h1).1, (List.get?_eq_some.1 h2).1⟩
  have houter := fold_error
    (fun y st => for_loop ds.alphas.length
      (fun t st => loop_body ds ext (cor_sig_of ds ext) y t st) st)
    "Invalid options around SET_MODE_MASK." (fun y => ∃ t, passes_filter ds y t = true)
    (fun y st => ⟨fun ⟨t, h⟩ => (hinner y st).1 ⟨t, List.mem_range.2 (hpass_lt y t h).2, h⟩,
      fun h => (hinner y st).2 (fun t _ ht => h ⟨t, ht⟩)⟩)
    (List.range ds.alphas.length) ⟨-1, [header], []⟩
  constructor
  · rintro ⟨y, t, h⟩
    have := houter.1 ⟨y, List.mem_range.2 (hpass_lt y t h).1, t, h⟩
    unfold run
    rw [hheader]
    simp only
    unfold for_loop cor_sig_of at this
    unfold for_loop
    rw [this]
  · intro h
    have := houter.2 (fun y _ ⟨t, ht⟩ => by rw [h y t] at ht; cases ht)
    refine ⟨header, hheader, ?_⟩
    unfold run
    rw [hheader]
    simp only
    unfold for_loop cor_sig_of at this
    unfold for_loop
    rw [this]

/-- C14 (amended). Configuration error: with a max mode outside AVOID and ACCOMPANY the run
aborts with the logic error of `_write_header`, whatever the registry; with a set mode outside
INTERSECTION and FULL (and a handled max mode) the run aborts with the logic error of the set-mode
switch when some iteration passes the name filter, that is when the registry holds two entities
with different names, and otherwise returns `-1` after writing the header. -/
theorem configuration_error (ds : DataSet) (ext : Externals) :
    (ds.options.coin_max_mode = .OTHER →
      run ds ext = .error "Invalid options around MAX_MODE_MASK.") ∧
    (ds.options.coin_set_mode = .OTHER → ds.options.coin_max_mode ≠ .OTHER →
      (∃ y t alpha_yain alpha_tain, ds.alphas.get? y = some alpha_yain ∧
        ds.alphas.get? t = some alpha_tain ∧ alpha_yain.name < alpha_tain.name) →
      run ds ext = .error "Invalid options around SET_MODE_MASK.") ∧
    (ds.options.coin_set_mode = .OTHER → ds.options.coin_max_mode ≠ .OTHER →
      (¬ ∃ y t alpha_yain alpha_tain, ds.alphas.get? y = some alpha_yain ∧
        ds.alphas.get? t = some alpha_tain ∧ alpha_yain.name < alpha_tain.name) →
      ∃ header, _write_header ds [] = .ok [header] ∧ run ds ext = .ok (-1, [header])) := by
  refine ⟨run_max_mode_error ds ext, ?_, ?_⟩
  · rintro hset hmax ⟨y, t, ya, ta, h1, h2, h3⟩
    exact (run_set_mode_other ds ext hset hmax).1
      ⟨y, t, (passes_filter_iff ds y t).2 ⟨ya, ta, h1, h2, h3⟩⟩
  · intro hset hmax hno
    apply (run_set_mode_other ds ext hset hmax).2
    intro y t
    cases hp : passes_filter ds y t with
    | false => rfl
    | true => exact absurd ((passes_filter_iff ds y t).1 hp) (fun ⟨ya, ta, h⟩ => hno ⟨y, t, ya, ta, h⟩)

/-- C14, counterexample: with the single entity `X`, a set mode outside the handled values and
AVOID, the run does not abort: it writes the header and returns `-1`. -/
theorem configuration_error_counterexample :
    single_dataset.options.coin_set_mode = .OTHER ∧
    run single_dataset (example_externals 0) = .ok (-1,
      [[.text "Source", .text "Target", .text "p",
        .text "successes", .text "observations", .text "rate",
        .text "expected", .text "total source", .text "total target", .text "fraction source",
        .text "fraction target"]]) := by
  exact ⟨rfl, by decide!⟩

/-- C14, witness: `X` and `Y` with a set mode outside the handled values: the run aborts. -/
theorem configuration_error_witness :
    run (example_dataset .OTHER .AVOID true) (example_externals 0)
      = .error "Invalid options around SET_MODE_MASK." :=
  (configuration_error (example_dataset .OTHER .AVOID true) (example_externals 0)).2.1 rfl
    (by decide) ⟨0, 1, alpha_X, alpha_Y, rfl, rfl, name_XY⟩

/-! ## The shape of a record -/

/-- The values with which an iteration that runs to its end writes its record. -/
theorem iteration_emission (ds : DataSet) (ext : Externals) (cor_sig : ℚ) (y t : Nat)
    (alpha_yain alpha_tain : Alpha)
    (hy : ds.alphas.get? y = some alpha_yain) (ht : ds.alphas.get? t = some alpha_tain)
    (e : Emission) (hit : iteration ds ext cor_sig y t = .ok (some e)) :
    ∃ (n s : Int) (r : Dbl),
      set_mode_switch ds.options.coin_set_mode
        (total_range alpha_yain.edges.size alpha_tain.edges.size
          (count_overlaps y alpha_yain.edges t alpha_tain.edges).overlaps)
        ds.betas.length = .ok (some n) ∧
      max_mode_switch ds.options.coin_max_mode
        (total_range alpha_yain.edges.size alpha_tain.edges.size
          (count_overlaps y alpha_yain.edges t alpha_tain.edges).overlaps)
        (count_overlaps y alpha_yain.edges t alpha_tain.edges).overlaps
        (chance alpha_yain.edges.size n) (chance alpha_tain.edges.size n)
        (not_cross_chance alpha_yain.edges.size n) (not_cross_chance alpha_tain.edges.size n)
        = .ok (s, r) ∧
      r ≠ some 0 ∧ r ≠ some 1 ∧
      test_call ds y t = some (ds.options.alt_hypothesis, s, n, r) ∧
      write_record ds alpha_yain alpha_tain
        (count_overlaps y alpha_yain.edges t alpha_tain.edges).edges_ovlp
        (ext.test ds.options.alt_hypothesis s n r) s n r
        alpha_yain.edges.size alpha_tain.edges.size
        (chance alpha_yain.edges.size n) (chance alpha_tain.edges.size n) = .ok e.line := by
  unfold iteration at hit
  unfold test_call
  rw [hy, ht] at hit ⊢
  simp only at hit ⊢
  by_cases hf : name_filter alpha_yain alpha_tain = false
  · simp only [hf, if_true] at hit
    cases hit
  · simp only [hf, if_false, Bool.true_eq_false] at hit ⊢
    cases hn : set_mode_switch ds.options.coin_set_mode
        (total_range alpha_yain.edges.size alpha_tain.edges.size
          (count_overlaps y alpha_yain.edges t alpha_tain.edges).overlaps)
        ds.betas.length with
    | error e' => rw [hn] at hit; cases hit
    | ok o =>
      cases o with
      | none => rw [hn] at hit; cases hit
      | some n =>
        rw [hn] at hit
        simp only [body_tail] at hit
        cases hsr : max_mode_switch ds.options.coin_max_mode
            (total_range alpha_yain.edges.size alpha_tain.edges.size
              (count_overlaps y alpha_yain.edges t alpha_tain.edges).overlaps)
            (count_overlaps y alpha_yain.edges t alpha_tain.edges).overlaps
            (chance alpha_yain.edges.size n) (chance alpha_tain.edges.size n)
            (not_cross_chance alpha_yain.edges.size n)
            (not_cross_chance alpha_tain.edges.size n) with
        | error e' => rw [hsr] at hit; cases hit
        | ok sr =>
          obtain ⟨s, r⟩ := sr
          rw [hsr] at hit
          simp only at hit
          by_cases hdeg : r = some 0 ∨ r = some 1
          · simp only [hdeg, if_true] at hit
            cases hit
          · simp only [hdeg, if_false] at hit
            by_cases hp : ext.test ds.options.alt_hypothesis s n r > cor_sig ∧
                ds.options.output_all = false
            · simp only [hp, and_self, if_true] at hit
              cases hit
            · simp only [hp, if_false] at hit
              split at hit
              · cases hit
              · rename_i line hw
                cases hit
                refine ⟨n, s, r, rfl, hsr, (not_or.1 hdeg).1, (not_or.1 hdeg).2, ?_, hw⟩
                simp only [hsr, hdeg, if_false]

theorem write_record_shape (ds : DataSet) (alpha_yain alpha_tain : Alpha)
    (edges_ovlp : List String) (p_value : ℚ) (successes num_observations : Int) (rate : Dbl)
    (num_edges_yain num_edges_tain : Int) (chance_i chance_j : Dbl) (line : List Cell)
    (h : write_record ds alpha_yain alpha_tain edges_ovlp p_value successes num_observations
      rate num_edges_yain num_edges_tain chance_i chance_j = .ok line) :
    (ds.options.coin_max_mode = .ACCOMPANY →
      ∃ avg_syndist : Dbl,
        line = [.text alpha_yain.name, .text alpha_tain.name, .real (some p_value),
          .real avg_syndist, .int successes, .int num_observations, .real rate,
          expected_count .ACCOMPANY num_edges_yain num_edges_tain num_observations,
          .int num_edges_yain, .int num_edges_tain, .real chance_i, .real chance_j]) ∧
    (ds.options.coin_max_mode = .AVOID →
      line = [.text alpha_yain.name, .text alpha_tain.name, .real (some p_value),
        .int successes, .int num_observations, .real rate,
        expected_count .AVOID num_edges_yain num_edges_tain num_observations,
        .int num_edges_yain, .int num_edges_tain, .real chance_i, .real chance_j]) := by
  unfold write_record at h
  cases hm : ds.options.coin_max_mode with
  | OTHER => simp [hm] at h
  | AVOID =>
    simp only [hm] at h
    cases h
    exact ⟨fun h => EMaxMode.noConfusion h, fun _ => rfl⟩
  | ACCOMPANY =>
    simp only [hm] at h
    refine ⟨fun _ => ?_, fun h => EMaxMode.noConfusion h⟩
    split at h
    · cases h
    · cases h
      exact ⟨_, rfl⟩

/-- The expected count where binary64 and exact arithmetic part: for degrees 9 and 11 and
`num_observations = 12` in AVOID mode the exact rate is `7/24` and `rate * 12 + 0.5` is exactly
4, while the binary64 rate lies below `7/24`, the binary64 sum lies below 4, and the cast
writes 3. -/
theorem expected_count_rounding :
    expected_count .AVOID 9 11 12 = .int 3 ∧
    rate_binary64 .AVOID 9 11 12 = some (2627099782632789 / 9007199254740992) ∧
    Cell.ofCast ((Dbl.mul (some (7 / 24)) (Dbl.ofInt 12)).add (some (1 / 2))) = .int 4 := by
  decide!

/-- C15. Record shape: a written record has as many fields as the header line of the same run
(12 in ACCOMPANY mode, 11 in AVOID mode), and its fields are, in the order of the header
columns: source name, target name, p-value, (in ACCOMPANY mode only) average synthetic distance,
successes, num_observations, rate, expected count (the cast `static_cast<int>(rate *
num_observations + 0.5)` as binary64 arithmetic gives it, `expected_count`), the two degrees and
the two chances. -/
theorem record_shape (ds : DataSet) (ext : Externals) (cor_sig : ℚ) (y t : Nat)
    (alpha_yain alpha_tain : Alpha)
    (hy : ds.alphas.get? y = some alpha_yain) (ht : ds.alphas.get? t = some alpha_tain)
    (e : Emission) (hit : iteration ds ext cor_sig y t = .ok (some e)) :
    ∃ (header : List Cell) (n s : Int) (r : Dbl),
      _write_header ds [] = .ok [header] ∧
      e.line.length = header.length ∧
      set_mode_switch ds.options.coin_set_mode
        (total_range alpha_yain.edges.size alpha_tain.edges.size
          (count_overlaps y alpha_yain.edges t alpha_tain.edges).overlaps)
        ds.betas.length = .ok (some n) ∧
      max_mode_switch ds.options.coin_max_mode
        (total_range alpha_yain.edges.size alpha_tain.edges.size
          (count_overlaps y alpha_yain.edges t alpha_tain.edges).overlaps)
        (count_overlaps y alpha_yain.edges t alpha_tain.edges).overlaps
        (chance alpha_yain.edges.size n) (chance alpha_tain.edges.size n)
        (not_cross_chance alpha_yain.edges.size n) (not_cross_chance alpha_tain.edges.size n)
        = .ok (s, r) ∧
      (ds.options.coin_max_mode = .ACCOMPANY →
        header = [.text "Source", .text "Target", .text "p", .text "Avg synthetic distance",
          .text "successes", .text "observations", .text "rate", .text "expected",
          .text "total source", .text "total target", .text "fraction source",
          .text "fraction target"] ∧
        ∃ avg_syndist : Dbl,
          e.line = [.text alpha_yain.name, .text alpha_tain.name,
            .real (some (ext.test ds.options.alt_hypothesis s n r)), .real avg_syndist,
            .int s, .int n, .real r,
            expected_count .ACCOMPANY alpha_yain.edges.size alpha_tain.edges.size n,
            .int alpha_yain.edges.size, .int alpha_tain.edges.size,
            .real (chance alpha_yain.edges.size n), .real (chance alpha_tain.edges.size n)]) ∧
      (ds.options.coin_max_mode = .AVOID →
        header = [.text "Source", .text "Target", .text "p",
          .text "successes", .text "observations", .text "rate", .text "expected",
          .text "total source", .text "total target", .text "fraction source",
          .text "fraction target"] ∧
        e.line = [.text alpha_yain.name, .text alpha_tain.name,
          .real (some (ext.test ds.options.alt_hypothesis s n r)),
          .int s, .int n, .real r,
          expected_count .AVOID alpha_yain.edges.size alpha_tain.edges.size n,
          .int alpha_yain.edges.size, .int alpha_tain.edges.size,
          .real (chance alpha_yain.edges.size n), .real (chance alpha_tain.edges.size n)]) := by
  obtain ⟨n, s, r, hn, hsr, -, -, -, hw⟩ :=
    iteration_emission ds ext cor_sig y t alpha_yain alpha_tain hy ht e hit
  obtain ⟨hacc, havoid⟩ := write_record_shape _ _ _ _ _ _ _ _ _ _ _ _ _ hw
  cases hm : ds.options.coin_max_mode with
  | OTHER => simp [write_record, hm] at hw
  | ACCOMPANY =>
    obtain ⟨avg, hline⟩ := hacc hm
    refine ⟨_, n, s, r, by simp only [_write_header, hm, List.nil_append], ?_, hn,
      by rw [← hm]; exact hsr, fun _ => ⟨rfl, avg, hline⟩, fun h => EMaxMode.noConfusion h⟩
    rw [hline]; rfl
  | AVOID =>
    have hline := havoid hm
    refine ⟨_, n, s, r, by simp only [_write_header, hm, List.nil_append], ?_, hn,
      by rw [← hm]; exact hsr, fun h => EMaxMode.noConfusion h, fun _ => ⟨rfl, hline⟩⟩
    rw [hline]; rfl

/-- C15, witness: the record of `P` and `Q` (degrees 9 and 11, eight shared connectors, so
`num_observations = 12`) in AVOID mode has the 11 fields of the header, the expected count
being 3. -/
theorem record_shape_witness :
    ∃ header : List Cell,
      _write_header wide_dataset [] = .ok [header] ∧
      ([Cell.text "P", .text "Q", .real (some 1), .int 4, .int 12, .real (some (7 / 24)),
        .int 3, .int 9, .int 11, .real (some (3 / 4)), .real (some (11 / 12))]
          : List Cell).length = header.length ∧
      header.get? 6 = some (.text "expected") :=
  have h := record_shape wide_dataset (example_externals 1) (1 / 20) 0 1 alpha_P alpha_Q rfl rfl
    ⟨[.text "P", .text "Q", .real (some 1), .int 4, .int 12, .real (some (7 / 24)),
        .int 3, .int 9, .int 11, .real (some (3 / 4)), .real (some (11 / 12))], ("P", "Q", 1)⟩
    (by decide!)
  match h with
  | ⟨header, _, _, _, h1, h2, _, _, _, h3⟩ => ⟨header, h1, h2, by rw [(h3 rfl).1]; rfl⟩

/-! ## The union list -/

/-- For two distinct map objects the second loop appends nothing: `edges_union` holds the
connectors of `edges_yain` only. -/
theorem edges_union_eq (yain_obj : Nat) (edges_yain : EdgeMap) (tain_obj : Nat)
    (edges_tain : EdgeMap) (hobj : yain_obj ≠ tain_obj) :
    (count_overlaps yain_obj edges_yain tain_obj edges_tain).edges_union
      = edges_yain.entries.map (fun kvp => kvp.1.name) := by
  rw [count_overlaps_eq]
  simp [hobj]

/-- C16, the code at the failing input: for `X` (connectors `p`, `q`) and `Y` (connectors `q`,
`r`), `edges_union` is `["p", "q"]`: the connector `r` of `Y`, which is not a connector of `X`,
is missing, and the length 2 differs from `total_range = 3`. -/
theorem union_construction_failing_input :
    (count_overlaps 0 alpha_X.edges 1 alpha_Y.edges).edges_union = ["p", "q"] ∧
    has_key alpha_X.edges beta_r = false ∧ has_key alpha_Y.edges beta_r = true ∧
    total_range alpha_X.edges.size alpha_Y.edges.size
      (count_overlaps 0 alpha_X.edges 1 alpha_Y.edges).overlaps = 3 ∧
    ((count_overlaps 0 alpha_X.edges 1 alpha_Y.edges).edges_union.length : Int) ≠
      total_range alpha_X.edges.size alpha_Y.edges.size
        (count_overlaps 0 alpha_X.edges 1 alpha_Y.edges).overlaps := by
  refine ⟨by decide, by decide, by decide, by decide, by decide⟩

/-! ## The unguarded division -/

/-- C17. Unguarded division: for the entities `U` (connector `p`) and `V` (connector `r`), with
disjoint non-empty edge sets, under INTERSECTION and ACCOMPANY with `output_all = true`, the
overlap list is empty, the pair passes the zero-observation guard (`num_observations = 2`) and
the degenerate-rate guard (`rate = 1/4`), the binomial test is called, and whatever p-value it
returns the record is written with an average synthetic distance `0 / 0`, which is not a
number. -/
theorem unguarded_division (ext : Externals) :
    (count_overlaps 0 alpha_U.edges 1 alpha_V.edges).edges_ovlp = [] ∧
    alpha_U.edges.entries ≠ [] ∧ alpha_V.edges.entries ≠ [] ∧
    set_mode_switch disjoint_dataset.options.coin_set_mode
      (total_range alpha_U.edges.size alpha_V.edges.size
        (count_overlaps 0 alpha_U.edges 1 alpha_V.edges).overlaps)
      disjoint_dataset.betas.length = .ok (some 2) ∧
    test_call disjoint_dataset 0 1 = some (.TWOTAILED, 0, 2, some (1 / 4)) ∧
    Dbl.divInt (some 0)
      ((count_overlaps 0 alpha_U.edges 1 alpha_V.edges).edges_ovlp.length : Int) = none ∧
    run disjoint_dataset ext = .ok (0,
      [[.text "Source", .text "Target", .text "p",
        .text "Avg synthetic distance", .text "successes", .text "observations", .text "rate",
        .text "expected", .text "total source", .text "total target", .text "fraction source",
        .text "fraction target"],
       [.text "U", .text "V", .real (some (ext.test .TWOTAILED 0 2 (some (1 / 4)))),
        .real none, .int 0, .int 2, .real (some (1 / 4)), .int 1, .int 1, .int 1,
        .real (some (1 / 2)), .real (some (1 / 2))]]) := by
  have hcall : test_call disjoint_dataset 0 1 = some (.TWOTAILED, 0, 2, some (1 / 4)) := by
    decide!
  have hskip : ∀ y t, test_call disjoint_dataset y t = none →
      iteration disjoint_dataset (example_externals 0) 0 y t = .ok none →
      iteration disjoint_dataset ext (cor_sig_of disjoint_dataset ext) y t = .ok none := by
    intro y t h h0
    rw [iteration_of_no_test_call _ ext (example_externals 0) _ 0 y t h, h0]
  have hit : iteration disjoint_dataset ext (cor_sig_of disjoint_dataset ext) 0 1
      = .ok (some ⟨[.text "U", .text "V", .real (some (ext.test .TWOTAILED 0 2 (some (1 / 4)))),
        .real none, .int 0, .int 2, .real (some (1 / 4)), .int 1, .int 1, .int 1,
        .real (some (1 / 2)), .real (some (1 / 2))],
        ("U", "V", ext.test .TWOTAILED 0 2 (some (1 / 4)))⟩) := by
    rw [iteration_of_test_call disjoint_dataset ext _ 0 1 alpha_U alpha_V rfl rfl _ _ _ _ hcall]
    have hall : disjoint_dataset.options.output_all = true := rfl
    have hov : (count_overlaps 0 alpha_U.edges 1 alpha_V.edges).edges_ovlp = [] := by decide
    have hsyn : syn_sums_loop disjoint_dataset.edges alpha_U.name alpha_V.name [] = .ok 0 := by
      decide!
    have hcast : expected_count .ACCOMPANY alpha_U.edges.size alpha_V.edges.size 2
        = .int 1 := by decide!
    have hc1 : chance alpha_U.edges.size 2 = some (1 / 2) := by decide!
    have hc2 : chance alpha_V.edges.size 2 = some (1 / 2) := by decide!
    have hd : Dbl.divInt (some 0) (([] : List String).length : Int) = none := by decide!
    have hm : disjoint_dataset.options.coin_max_mode = .ACCOMPANY := rfl
    simp only [hall, Bool.true_eq_false, and_false, if_false, hov, write_record, hm, hsyn,
      hcast, hc1, hc2, hd]
    rfl
  refine ⟨by decide, by decide, by decide, by rfl, hcall, by decide!, ?_⟩
  exact run_two disjoint_dataset ext _ _ rfl rfl
    (hskip 0 0 (by decide!) (by decide!)) hit
    (hskip 1 0 (by decide!) (by decide!))
    (hskip 1 1 (by decide!) (by decide!))

/-! ## Identical edge sets -/

theorem has_key_iff (m : EdgeMap) (beta : Beta) :
    has_key m beta = true ↔ beta.addr ∈ m.entries.map (fun kvp => kvp.1.addr) := by
  simp only [has_key, List.any_eq_true, beq_iff_eq, List.mem_map]

/-- With the same connectors in both maps, every entry of `edges_yain` is an overlap. -/
theorem overlap_of_identical (yain_obj : Nat) (edges_yain : EdgeMap) (tain_obj : Nat)
    (edges_tain : EdgeMap)
    (hsame : edges_yain.entries.map (fun kvp => kvp.1.addr)
      = edges_tain.entries.map (fun kvp => kvp.1.addr)) :
    (count_overlaps yain_obj edges_yain tain_obj edges_tain).overlaps = edges_yain.size ∧
    (count_overlaps yain_obj edges_yain tain_obj edges_tain).edges_ovlp
      = edges_yain.entries.map (fun kvp => kvp.1.name) ∧
    edges_tain.size = edges_yain.size := by
  have hfilter : edges_yain.entries.filter (fun kvp => has_key edges_tain kvp.1)
      = edges_yain.entries := by
    apply List.filter_eq_self.2
    intro kvp hk
    rw [has_key_iff, ← hsame]
    exact List.mem_map.2 ⟨kvp, hk, rfl⟩
  rw [count_overlaps_eq]
  simp only [hfilter, EdgeMap.size]
  refine ⟨trivial, trivial, ?_⟩
  have := congrArg List.length hsame
  simpa using this.symm

theorem intersection_identical_skip (ds : DataSet) (ext : Externals) (cor_sig : ℚ) (y t : Nat)
    (alpha_yain alpha_tain : Alpha)
    (hy : ds.alphas.get? y = some alpha_yain) (ht : ds.alphas.get? t = some alpha_tain)
    (hsame : alpha_yain.edges.entries.map (fun kvp => kvp.1.addr)
      = alpha_tain.edges.entries.map (fun kvp => kvp.1.addr))
    (hset : ds.options.coin_set_mode = .INTERSECTION)
    (hmax : ds.options.coin_max_mode ≠ .OTHER) :
    iteration ds ext cor_sig y t = .ok none ∧ test_call ds y t = none := by
  obtain ⟨hov, -, hsz⟩ := overlap_of_identical y alpha_yain.edges t alpha_tain.edges hsame
  have htr : total_range alpha_yain.edges.size alpha_tain.edges.size
      (count_overlaps y alpha_yain.edges t alpha_tain.edges).overlaps
      = alpha_yain.edges.size := by
    rw [hov, hsz]; simp [total_range]
  by_cases h0 : alpha_yain.edges.size = 0
  · have htr0 : total_range alpha_yain.edges.size alpha_tain.edges.size
        (count_overlaps y alpha_yain.edges t alpha_tain.edges).overlaps = 0 := by
      rw [htr]; exact_mod_cast h0
    constructor
    · unfold iteration
      rw [hy, ht]
      simp [htr0, hset, set_mode_switch]
    · unfold test_call
      rw [hy, ht]
      simp [htr0, hset, set_mode_switch]
  · have hn : ((alpha_yain.edges.size : Nat) : Int) ≠ 0 := by exact_mod_cast h0
    have hq : ((alpha_yain.edges.size : Nat) : ℚ) ≠ 0 := by exact_mod_cast h0
    have hswitch : set_mode_switch ds.options.coin_set_mode
        (total_range alpha_yain.edges.size alpha_tain.edges.size
          (count_overlaps y alpha_yain.edges t alpha_tain.edges).overlaps)
        ds.betas.length = .ok (some (alpha_yain.edges.size : Int)) := by
      rw [htr, hset]
      simp [set_mode_switch, hn]
    cases hm : ds.options.coin_max_mode with
    | OTHER => exact absurd hm hmax
    | ACCOMPANY =>
      have hr := max_mode_accompany_eval
        (total_range alpha_yain.edges.size alpha_tain.edges.size
          (count_overlaps y alpha_yain.edges t alpha_tain.edges).overlaps)
        (count_overlaps y alpha_yain.edges t alpha_tain.edges).overlaps
        alpha_yain.edges.size alpha_tain.edges.size alpha_yain.edges.size hn
      rw [← hm] at hr
      exact degenerate_rate_skip ds ext cor_sig y t alpha_yain alpha_tain hy ht _ _ _ hswitch hr
        (Or.inr (by rw [hsz]; simp [hq]))
    | AVOID =>
      have hr := max_mode_avoid_eval
        (total_range alpha_yain.edges.size alpha_tain.edges.size
          (count_overlaps y alpha_yain.edges t alpha_tain.edges).overlaps)
        (count_overlaps y alpha_yain.edges t alpha_tain.edges).overlaps
        alpha_yain.edges.size alpha_tain.edges.size alpha_yain.edges.size hn
      rw [← hm] at hr
      exact degenerate_rate_skip ds ext cor_sig y t alpha_yain alpha_tain hy ht _ _ _ hswitch hr
        (Or.inl (by rw [hsz]; simp [hq]))

/-- C18 (amended). Identical edge sets under ACCOMPANY: the overlap list holds all `|E|`
connectors; for every value `n ≠ 0` of `num_observations` the mode switch gives `successes = |E|`
and `rate = (|E| / n)^2`; when the record of the pair is written, its synthetic distance is the
one over all `|E|` shared connectors; and under INTERSECTION sizing the iteration is always a
`continue` (no test, no record, no synthetic distance). -/
theorem identical_sets (ds : DataSet) (ext : Externals) (cor_sig : ℚ) (y t : Nat)
    (alpha_yain alpha_tain : Alpha)
    (hy : ds.alphas.get? y = some alpha_yain) (ht : ds.alphas.get? t = some alpha_tain)
    (hsame : alpha_yain.edges.entries.map (fun kvp => kvp.1.addr)
      = alpha_tain.edges.entries.map (fun kvp => kvp.1.addr))
    (hmax : ds.options.coin_max_mode = .ACCOMPANY) :
    (count_overlaps y alpha_yain.edges t alpha_tain.edges).edges_ovlp
      = alpha_yain.edges.entries.map (fun kvp => kvp.1.name) ∧
    (∀ n : Int, n ≠ 0 →
      max_mode_switch ds.options.coin_max_mode
        (total_range alpha_yain.edges.size alpha_tain.edges.size
          (count_overlaps y alpha_yain.edges t alpha_tain.edges).overlaps)
        (count_overlaps y alpha_yain.edges t alpha_tain.edges).overlaps
        (chance alpha_yain.edges.size n) (chance alpha_tain.edges.size n)
        (not_cross_chance alpha_yain.edges.size n) (not_cross_chance alpha_tain.edges.size n)
        = .ok ((alpha_yain.edges.size : Int),
            some (((alpha_yain.edges.size : ℚ) / (n : ℚ)) ^ 2))) ∧
    (∀ e, iteration ds ext cor_sig y t = .ok (some e) →
      alpha_yain.edges.entries ≠ [] →
      e.line.get? 3 = some (.real (some (avg_synthetic_distance ds.edges alpha_yain.name
        alpha_tain.name (alpha_yain.edges.entries.map (fun kvp => kvp.1.name)))))) ∧
    (ds.options.coin_set_mode = .INTERSECTION →
      iteration ds ext cor_sig y t = .ok none ∧ test_call ds y t = none ∧
      pair_lines ds ext cor_sig y t = []) := by
  obtain ⟨hov, hovl, hsz⟩ := overlap_of_identical y alpha_yain.edges t alpha_tain.edges hsame
  refine ⟨hovl, ?_, ?_, ?_⟩
  · intro n hn
    rw [hmax, max_mode_accompany_eval _ _ _ _ _ hn, hov, hsz]
    simp only [Int.cast_natCast, pow_two]
  · intro e hit hne
    obtain ⟨p, s, n, r, hw⟩ := iteration_write_record ds ext cor_sig y t _ _ hy ht e hit
    have h := ((write_record_spec _ _ _ _ _ _ _ _ _ _ _ _ _ hw).1 hmax).2.2
    rw [hovl] at h
    exact h (by simpa using hne)
  · intro hset
    obtain ⟨h1, h2⟩ := intersection_identical_skip ds ext cor_sig y t _ _ hy ht hsame hset
      (by rw [hmax]; decide)
    refine ⟨h1, h2, ?_⟩
    unfold pair_lines
    rw [h1]

/-- C18, counterexample: `X` and `Z` have the same connectors `p`, `q`; under INTERSECTION and
ACCOMPANY with `output_all = true` the rate is 1, the iteration is a `continue`, and the run
writes the header only: no synthetic distance is computed for the pair. -/
theorem identical_sets_counterexample :
    alpha_X.edges.entries.map (fun kvp => kvp.1.addr)
      = alpha_Z.edges.entries.map (fun kvp => kvp.1.addr) ∧
    max_mode_switch .ACCOMPANY 2 2 (chance alpha_X.edges.size 2) (chance alpha_Z.edges.size 2)
      (not_cross_chance alpha_X.edges.size 2) (not_cross_chance alpha_Z.edges.size 2)
      = .ok (2, some 1) ∧
    iteration (twin_dataset .INTERSECTION) (example_externals 0) (1 / 20) 0 1 = .ok none ∧
    run (twin_dataset .INTERSECTION) (example_externals 0) = .ok (-1,
      [[.text "Source", .text "Target", .text "p",
        .text "Avg synthetic distance", .text "successes", .text "observations", .text "rate",
        .text "expected", .text "total source", .text "total target", .text "fraction source",
        .text "fraction target"]]) := by
  refine ⟨by decide, by decide!, by decide!, by decide!⟩

/-- C18, witness: `X` and `Z` under FULL sizing over four connectors: `rate = (2/4)^2`, and the
record carries the synthetic distance over both shared connectors, `(|1 - 2| + |3 - 7|) / 2`. -/
theorem identical_sets_witness :
    max_mode_switch (twin_dataset .FULL).options.coin_max_mode
        (total_range alpha_X.edges.size alpha_Z.edges.size
          (count_overlaps 0 alpha_X.edges 1 alpha_Z.edges).overlaps)
        (count_overlaps 0 alpha_X.edges 1 alpha_Z.edges).overlaps
        (chance alpha_X.edges.size 4) (chance alpha_Z.edges.size 4)
        (not_cross_chance alpha_X.edges.size 4) (not_cross_chance alpha_Z.edges.size 4)
        = .ok ((alpha_X.edges.size : Int),
            some (((alpha_X.edges.size : ℚ) / ((4 : Int) : ℚ)) ^ 2)) ∧
    avg_synthetic_distance (twin_dataset .FULL).edges alpha_X.name alpha_Z.name
      (alpha_X.edges.entries.map (fun kvp => kvp.1.name)) = 5 / 2 :=
  have h := identical_sets (twin_dataset .FULL) (example_externals 1) (1 / 20) 0 1
    alpha_X alpha_Z rfl rfl (by decide) rfl
  ⟨h.2.1 4 (by decide), by decide!⟩

/-! ## The arguments of the binomial test -/

theorem overlaps_nonneg (yain_obj : Nat) (edges_yain : EdgeMap) (tain_obj : Nat)
    (edges_tain : EdgeMap) :
    0 ≤ (count_overlaps yain_obj edges_yain tain_obj edges_tain).overlaps := by
  rw [count_overlaps_eq]
  exact Int.natCast_nonneg _

theorem filter_map_addr (l : List (Beta × Int)) (m : EdgeMap) :
    (l.filter (fun kvp => has_key m kvp.1)).map (fun kvp => kvp.1.addr)
      = (l.map (fun kvp => kvp.1.addr)).filter
          (fun a => decide (a ∈ m.entries.map (fun kvp => kvp.1.addr))) := by
  induction l with
  | nil => rfl
  | cons x xs ih =>
    by_cases hx : has_key m x.1 = true
    · have hx' := (has_key_iff m x.1).1 hx
      simp only [List.filter_cons, hx, if_true, List.map_cons, ih, hx', decide_True]
    · have hx' : ¬ x.1.addr ∈ m.entries.map (fun kvp => kvp.1.addr) :=
        fun h => hx ((has_key_iff m x.1).2 h)
      simp only [List.filter_cons, hx, if_false, List.map_cons, ih, hx', decide_False,
        Bool.false_eq_true]

theorem nodup_addr (m : EdgeMap) : (m.entries.map (fun kvp => kvp.1.addr)).Nodup :=
  m.sorted.imp (fun h => Nat.ne_of_lt h)

/-- The overlap count is the same from both sides. -/
theorem inter_length_comm (la lb : List Nat) (ha : la.Nodup) (hb : lb.Nodup) :
    (la.filter (fun a => decide (a ∈ lb))).length
      = (lb.filter (fun a => decide (a ∈ la))).length := by
  apply List.Perm.length_eq
  apply (List.perm_ext_iff_of_nodup (ha.filter _) (hb.filter _)).2
  intro a
  simp only [List.mem_filter, decide_eq_true_eq]
  tauto

/-- The two degrees minus the overlap count is the number of connectors of the union. -/
theorem total_range_le_of_known (ds : DataSet) (yain_obj tain_obj : Nat)
    (alpha_yain alpha_tain : Alpha)
    (h1 : connectors_known ds alpha_yain) (h2 : connectors_known ds alpha_tain) :
    total_range alpha_yain.edges.size alpha_tain.edges.size
      (count_overlaps yain_obj alpha_yain.edges tain_obj alpha_tain.edges).overlaps
      ≤ ds.betas.length := by
  have hla := nodup_addr alpha_yain.edges
  have hlb := nodup_addr alpha_tain.edges
  generalize hA : alpha_yain.edges.entries.map (fun kvp => kvp.1.addr) = la at hla
  generalize hB : alpha_tain.edges.entries.map (fun kvp => kvp.1.addr) = lb at hlb
  have hov : (count_overlaps yain_obj alpha_yain.edges tain_obj alpha_tain.edges).overlaps
      = ((la.filter (fun a => decide (a ∈ lb))).length : Int) := by
    rw [count_overlaps_eq]
    simp only
    have := congrArg List.length (filter_map_addr alpha_yain.edges.entries alpha_tain.edges)
    rw [List.length_map, hA, hB] at this
    rw [this]
  have hunion : (la ++ lb.filter (fun a => decide (a ∉ la))).Nodup := by
    apply List.Nodup.append hla (hlb.filter _)
    intro a ha hb
    simp only [List.mem_filter, decide_eq_true_eq] at hb
    exact hb.2 ha
  have hsub : (la ++ lb.filter (fun a => decide (a ∉ la))) ⊆ ds.betas.map Beta.addr := by
    intro a ha
    rcases List.mem_append.1 ha with ha | ha
    · rw [← hA] at ha
      obtain ⟨kvp, hk, rfl⟩ := List.mem_map.1 ha
      exact List.mem_map.2 ⟨kvp.1, h1 kvp hk, rfl⟩
    · have ha' := (List.mem_filter.1 ha).1
      rw [← hB] at ha'
      obtain ⟨kvp, hk, rfl⟩ := List.mem_map.1 ha'
      exact List.mem_map.2 ⟨kvp.1, h2 kvp hk, rfl⟩
  have hlen := (List.subperm_of_subset hunion hsub).length_le
  rw [List.length_append, List.length_map] at hlen
  have hsplit : (lb.filter (fun a => decide (a ∈ la))).length
      + (lb.filter (fun a => decide (a ∉ la))).length = lb.length := by
    have := List.length_eq_length_filter_add (l := lb) (fun a => decide (a ∈ la))
    rw [this]
    congr 2
    apply List.filter_congr
    intro a _
    simp
  have hcomm := inter_length_comm la lb hla hlb
  have hlena : alpha_yain.edges.size = la.length := by
    rw [← hA]; simp [EdgeMap.size]
  have hlenb : alpha_tain.edges.size = lb.length := by
    rw [← hB]; simp [EdgeMap.size]
  rw [hov, hlena, hlenb]
  simp only [total_range]
  omega

/-- What a call of the binomial test says about the iteration: the name filter was passed, the
set-mode switch gave `num_observations`, the max-mode switch gave `successes` and `rate`, and the
rate is neither 0 nor 1. -/
theorem test_call_some (ds : DataSet) (y t : Nat) (alpha_yain alpha_tain : Alpha)
    (hy : ds.alphas.get? y = some alpha_yain) (ht : ds.alphas.get? t = some alpha_tain)
    (h : EHypothesis) (s n : Int) (r : Dbl) (hcall : test_call ds y t = some (h, s, n, r)) :
    name_filter alpha_yain alpha_tain = true ∧
    h = ds.options.alt_hypothesis ∧
    set_mode_switch ds.options.coin_set_mode
      (total_range alpha_yain.edges.size alpha_tain.edges.size
        (count_overlaps y alpha_yain.edges t alpha_tain.edges).overlaps)
      ds.betas.length = .ok (some n) ∧
    max_mode_switch ds.options.coin_max_mode
      (total_range alpha_yain.edges.size alpha_tain.edges.size
        (count_overlaps y alpha_yain.edges t alpha_tain.edges).overlaps)
      (count_overlaps y alpha_yain.edges t alpha_tain.edges).overlaps
      (chance alpha_yain.edges.size n) (chance alpha_tain.edges.size n)
      (not_cross_chance alpha_yain.edges.size n) (not_cross_chance alpha_tain.edges.size n)
      = .ok (s, r) ∧
    r ≠ some 0 ∧ r ≠ some 1 := by
  unfold test_call at hcall
  rw [hy, ht] at hcall
  simp only at hcall
  by_cases hf : name_filter alpha_yain alpha_tain = false
  · simp only [hf, if_true] at hcall
    cases hcall
  · simp only [hf, if_false] at hcall
    cases hn : set_mode_switch ds.options.coin_set_mode
        (total_range alpha_yain.edges.size alpha_tain.edges.size
          (count_overlaps y alpha_yain.edges t alpha_tain.edges).overlaps)
        ds.betas.length with
    | error e =>
      rw [hn] at hcall
      cases hcall
    | ok o =>
      cases o with
      | none =>
        rw [hn] at hcall
        cases hcall
      | some n' =>
        rw [hn] at hcall
        simp only at hcall
        cases hsr : max_mode_switch ds.options.coin_max_mode
            (total_range alpha_yain.edges.size alpha_tain.edges.size
              (count_overlaps y alpha_yain.edges t alpha_tain.edges).overlaps)
            (count_overlaps y alpha_yain.edges t alpha_tain.edges).overlaps
            (chance alpha_yain.edges.size n') (chance alpha_tain.edges.size n')
            (not_cross_chance alpha_yain.edges.size n')
            (not_cross_chance alpha_tain.edges.size n') with
        | error e =>
          rw [hsr] at hcall
          cases hcall
        | ok sr =>
          obtain ⟨s', r'⟩ := sr
          rw [hsr] at hcall
          simp only at hcall
          by_cases hdeg : r' = some 0 ∨ r' = some 1
          · simp only [hdeg, if_true] at hcall
            cases hcall
          · simp only [hdeg, if_false, Option.some.injEq, Prod.mk.injEq] at hcall
            obtain ⟨rfl, rfl, rfl, rfl⟩ := hcall
            refine ⟨by simpa using hf, rfl, rfl, hsr, ?_, ?_⟩
            · exact fun h0 => hdeg (Or.inl h0)
            · exact fun h1 => hdeg (Or.inr h1)

theorem accompany_rate_interval (x z : ℚ) (hx : 0 ≤ x ∧ x ≤ 1) (hz : 0 ≤ z ∧ z ≤ 1) :
    0 ≤ x * z ∧ x * z ≤ 1 :=
  ⟨mul_nonneg hx.1 hz.1, mul_le_one₀ hx.2 hz.1 hz.2⟩

theorem avoid_rate_interval (x z : ℚ) (hx : 0 ≤ x ∧ x ≤ 1) (hz : 0 ≤ z ∧ z ≤ 1) :
    0 ≤ x * (1 - z) + z * (1 - x) ∧ x * (1 - z) + z * (1 - x) ≤ 1 := by
  obtain ⟨hx0, hx1⟩ := hx
  obtain ⟨hz0, hz1⟩ := hz
  constructor
  · exact add_nonneg (mul_nonneg hx0 (by linarith)) (mul_nonneg hz0 (by linarith))
  · have h1 : 0 ≤ (1 - x) * (1 - z) := mul_nonneg (by linarith) (by linarith)
    have h2 : 0 ≤ x * z := mul_nonneg hx0 hz0
    nlinarith

/-- The arguments of a call of the binomial test, when `num_observations` is positive, both
degrees are at most `num_observations`, and `total_range` is at most `num_observations`. -/
theorem test_arguments_of_bounds (mode : EMaxMode) (a b ov n s : Int) (r : Dbl)
    (hn : 0 < n) (ha : 0 ≤ a) (hb : 0 ≤ b) (han : a ≤ n) (hbn : b ≤ n)
    (hov0 : 0 ≤ ov) (hova : ov ≤ a) (hovb : ov ≤ b) (htr : total_range a b ov ≤ n)
    (hsr : max_mode_switch mode (total_range a b ov) ov (chance a n) (chance b n)
      (not_cross_chance a n) (not_cross_chance b n) = .ok (s, r))
    (h0 : r ≠ some 0) (h1 : r ≠ some 1) :
    0 ≤ s ∧ s ≤ n ∧ ∃ q : ℚ, r = some q ∧ 0 < q ∧ q < 1 := by
  have hne : n ≠ 0 := ne_of_gt hn
  have hx := unit_interval_of_le a n ha hn han
  have hz := unit_interval_of_le b n hb hn hbn
  cases mode with
  | OTHER => simp [max_mode_switch] at hsr
  | ACCOMPANY =>
    rw [max_mode_accompany_eval _ _ _ _ _ hne] at hsr
    simp only [Except.ok.injEq, Prod.mk.injEq] at hsr
    obtain ⟨rfl, rfl⟩ := hsr
    have hi := accompany_rate_interval _ _ hx hz
    refine ⟨hov0, by omega, _, rfl, ?_, ?_⟩
    · exact lt_of_le_of_ne hi.1 (fun h => h0 (by rw [← h]))
    · exact lt_of_le_of_ne hi.2 (fun h => h1 (by rw [h]))
  | AVOID =>
    rw [max_mode_avoid_eval _ _ _ _ _ hne] at hsr
    simp only [Except.ok.injEq, Prod.mk.injEq] at hsr
    obtain ⟨rfl, rfl⟩ := hsr
    have hi := avoid_rate_interval _ _ hx hz
    simp only [total_range] at htr ⊢
    refine ⟨by omega, by omega, _, rfl, ?_, ?_⟩
    · exact lt_of_le_of_ne hi.1 (fun h => h0 (by rw [← h]))
    · exact lt_of_le_of_ne hi.2 (fun h => h1 (by rw [h]))

/-- C19. Binomial test precondition: whenever an iteration of the double loop calls
`Binomial::test`, its arguments satisfy `num_observations > 0`,
`0 <= successes <= num_observations` and `0 < rate < 1`. This holds for every pair under
INTERSECTION sizing, in both max modes, and under FULL sizing for every pair whose edge sets
hold only connectors of the dataset when the dataset has at least one connector. -/
theorem test_arguments_valid (ds : DataSet) (y t : Nat) (alpha_yain alpha_tain : Alpha)
    (hy : ds.alphas.get? y = some alpha_yain) (ht : ds.alphas.get? t = some alpha_tain)
    (h : EHypothesis) (s n : Int) (r : Dbl)
    (hcall : test_call ds y t = some (h, s, n, r))
    (hfull : ds.options.coin_set_mode = .FULL →
      connectors_known ds alpha_yain ∧ connectors_known ds alpha_tain ∧ ds.betas ≠ []) :
    0 < n ∧ 0 ≤ s ∧ s ≤ n ∧ ∃ q : ℚ, r = some q ∧ 0 < q ∧ q < 1 := by
  obtain ⟨-, -, hswitch, hsr, h0, h1⟩ :=
    test_call_some ds y t alpha_yain alpha_tain hy ht h s n r hcall
  obtain ⟨han, hbn⟩ := degrees_le_observations ds y t alpha_yain alpha_tain n hswitch
    (fun hm => ⟨(hfull hm).1, (hfull hm).2.1⟩)
  obtain ⟨hmin, -, hmax⟩ := total_range_bounds y alpha_yain.edges t alpha_tain.edges
  have hov0 := overlaps_nonneg y alpha_yain.edges t alpha_tain.edges
  have hova := le_trans hmin (min_le_left _ _)
  have hovb := le_trans hmin (min_le_right _ _)
  have ha : (0 : Int) ≤ alpha_yain.edges.size := Int.natCast_nonneg _
  have hb : (0 : Int) ≤ alpha_tain.edges.size := Int.natCast_nonneg _
  have hpos_tr : total_range alpha_yain.edges.size alpha_tain.edges.size
      (count_overlaps y alpha_yain.edges t alpha_tain.edges).overlaps ≤ n ∧ 0 < n := by
    rcases set_mode_switch_some _ _ _ _ hswitch with ⟨-, hn, hne⟩ | ⟨hm, hn⟩
    · rw [hn]
      refine ⟨le_refl _, ?_⟩
      have h0le : (0 : Int) ≤ total_range alpha_yain.edges.size alpha_tain.edges.size
          (count_overlaps y alpha_yain.edges t alpha_tain.edges).overlaps :=
        le_trans ha (le_trans (le_max_left _ _) hmax)
      exact lt_of_le_of_ne h0le (Ne.symm hne)
    · obtain ⟨hk1, hk2, hne⟩ := hfull hm
      rw [hn]
      refine ⟨by exact_mod_cast total_range_le_of_known ds y t alpha_yain alpha_tain hk1 hk2, ?_⟩
      have := List.length_pos.2 hne
      exact_mod_cast this
  exact ⟨hpos_tr.2, test_arguments_of_bounds ds.options.coin_max_mode _ _ _ n s r hpos_tr.2 ha hb
    han hbn hov0 hova hovb hpos_tr.1 hsr h0 h1⟩

/-- C19, witness: the pair `(X, Y)` under FULL sizing and AVOID; the test is called with
`successes = 2`, `num_observations = 4` and `rate = 1 / 2`. -/
theorem test_arguments_valid_witness :
    test_call (example_dataset .FULL .AVOID true) 0 1 = some (.TWOTAILED, 2, 4, some (1 / 2)) ∧
    ((0 : Int) < 4 ∧ (0 : Int) ≤ 2 ∧ (2 : Int) ≤ 4 ∧
      ∃ q : ℚ, (some (1 / 2) : Dbl) = some q ∧ 0 < q ∧ q < 1) :=
  ⟨by decide!, test_arguments_valid (example_dataset .FULL .AVOID true) 0 1 alpha_X alpha_Y rfl rfl
    .TWOTAILED 2 4 (some (1 / 2)) (by decide!)
    (fun _ => ⟨(by unfold connectors_known; decide), (by unfold connectors_known; decide),
      (by decide)⟩)⟩

/-! ## When the rate is 0 or 1 under INTERSECTION sizing -/

/-- Two maps hold the same connectors exactly when the overlap count is the size of both. -/
theorem identical_iff_overlap (yain_obj : Nat) (edges_yain : EdgeMap) (tain_obj : Nat)
    (edges_tain : EdgeMap) :
    edges_yain.entries.map (fun kvp => kvp.1.addr)
      = edges_tain.entries.map (fun kvp => kvp.1.addr) ↔
    ((edges_yain.size : Int) = (count_overlaps yain_obj edges_yain tain_obj edges_tain).overlaps ∧
     (edges_tain.size : Int) = (count_overlaps yain_obj edges_yain tain_obj edges_tain).overlaps)
    := by
  constructor
  · intro hsame
    obtain ⟨hov, -, hsz⟩ := overlap_of_identical yain_obj edges_yain tain_obj edges_tain hsame
    rw [hov, hsz]
    exact ⟨rfl, rfl⟩
  · rintro ⟨h1, h2⟩
    rw [count_overlaps_eq] at h1 h2
    simp only [EdgeMap.size, Nat.cast_inj] at h1 h2
    have hfilter : edges_yain.entries.filter (fun kvp => has_key edges_tain kvp.1)
        = edges_yain.entries :=
      (List.filter_sublist _).eq_of_length h1.symm
    have hsub : edges_yain.entries.map (fun kvp => kvp.1.addr)
        ⊆ edges_tain.entries.map (fun kvp => kvp.1.addr) := by
      intro x hx
      obtain ⟨kvp, hk, rfl⟩ := List.mem_map.1 hx
      have := (List.filter_eq_self.1 hfilter) kvp hk
      exact (has_key_iff edges_tain kvp.1).1 this
    have hlen : (edges_tain.entries.map (fun kvp => kvp.1.addr)).length
        ≤ (edges_yain.entries.map (fun kvp => kvp.1.addr)).length := by
      rw [List.length_map, List.length_map, h2, h1]
    have hperm := (List.subperm_of_subset (nodup_addr edges_yain) hsub).perm_of_length_le hlen
    exact List.eq_of_perm_of_sorted hperm edges_yain.sorted edges_tain.sorted

theorem product_eq_one_iff (x z : ℚ) (hx : 0 ≤ x ∧ x ≤ 1) (hz : 0 ≤ z ∧ z ≤ 1) :
    x * z = 1 ↔ x = 1 ∧ z = 1 := by
  constructor
  · intro h
    have h1 : x * z ≤ x := by nlinarith [hx.1, hz.2]
    have h2 : x * z ≤ z := by nlinarith [hx.2, hz.1]
    exact ⟨le_antisymm hx.2 (by linarith), le_antisymm hz.2 (by linarith)⟩
  · rintro ⟨rfl, rfl⟩
    norm_num

theorem cross_eq_zero_iff (x z : ℚ) (hx : 0 ≤ x ∧ x ≤ 1) (hz : 0 ≤ z ∧ z ≤ 1) :
    x * (1 - z) + z * (1 - x) = 0 ↔ (x = 0 ∧ z = 0) ∨ (x = 1 ∧ z = 1) := by
  constructor
  · intro h
    have h1 : 0 ≤ x * (1 - z) := mul_nonneg hx.1 (by linarith [hz.2])
    have h2 : 0 ≤ z * (1 - x) := mul_nonneg hz.1 (by linarith [hx.2])
    have h3 : x * (1 - z) = 0 := by linarith
    have h4 : z * (1 - x) = 0 := by linarith
    rcases mul_eq_zero.1 h3 with hx0 | hz1
    · rcases mul_eq_zero.1 h4 with hz0 | hx1
      · exact Or.inl ⟨hx0, hz0⟩
      · exfalso; linarith
    · rcases mul_eq_zero.1 h4 with hz0 | hx1
      · exfalso; linarith
      · exact Or.inr ⟨by linarith, by linarith⟩
  · rintro (⟨rfl, rfl⟩ | ⟨rfl, rfl⟩) <;> norm_num

theorem cross_eq_one_iff (x z : ℚ) (hx : 0 ≤ x ∧ x ≤ 1) (hz : 0 ≤ z ∧ z ≤ 1) :
    x * (1 - z) + z * (1 - x) = 1 ↔ (x = 0 ∧ z = 1) ∨ (x = 1 ∧ z = 0) := by
  constructor
  · intro h
    have h1 : 0 ≤ x * z := mul_nonneg hx.1 hz.1
    have h2 : 0 ≤ (1 - x) * (1 - z) := mul_nonneg (by linarith [hx.2]) (by linarith [hz.2])
    have h3 : x * z = 0 := by nlinarith
    have h4 : (1 - x) * (1 - z) = 0 := by nlinarith
    rcases mul_eq_zero.1 h3 with hx0 | hz0
    · rcases mul_eq_zero.1 h4 with hx1 | hz1
      · exfalso; linarith
      · exact Or.inl ⟨hx0, by linarith⟩
    · rcases mul_eq_zero.1 h4 with hx1 | hz1
      · exact Or.inr ⟨by linarith, hz0⟩
      · exfalso; linarith
  · rintro (⟨rfl, rfl⟩ | ⟨rfl, rfl⟩) <;> norm_num

theorem ratio_eq_zero_iff (k n : Int) (hn : 0 < n) : (k : ℚ) / (n : ℚ) = 0 ↔ k = 0 := by
  have hq : (n : ℚ) ≠ 0 := by exact_mod_cast ne_of_gt hn
  rw [div_eq_zero_iff]
  constructor
  · rintro (h | h)
    · exact_mod_cast h
    · exact absurd h hq
  · intro h
    exact Or.inl (by exact_mod_cast h)

theorem ratio_eq_one_iff (k n : Int) (hn : 0 < n) : (k : ℚ) / (n : ℚ) = 1 ↔ k = n := by
  have hq : (n : ℚ) ≠ 0 := by exact_mod_cast ne_of_gt hn
  rw [div_eq_one_iff_eq hq]
  exact_mod_cast Iff.rfl

/-- The rate under INTERSECTION sizing, for degrees `a`, `b` and overlap count `ov` with a
positive `total_range`: in ACCOMPANY mode it is 0 exactly when a degree is 0 and 1 exactly when
both degrees equal the overlap count; in AVOID mode the other way round. -/
theorem intersection_rate_degenerate (mode : EMaxMode) (a b ov : Int) (hmode : mode ≠ .OTHER)
    (hov0 : 0 ≤ ov) (hova : ov ≤ a) (hovb : ov ≤ b) (hpos : 0 < total_range a b ov) :
    ∃ (s : Int) (r : Dbl),
      max_mode_switch mode (total_range a b ov) ov (chance a (total_range a b ov))
        (chance b (total_range a b ov)) (not_cross_chance a (total_range a b ov))
        (not_cross_chance b (total_range a b ov)) = .ok (s, r) ∧
      (mode = .ACCOMPANY → ((r = some 0 ↔ a = 0 ∨ b = 0) ∧ (r = some 1 ↔ a = ov ∧ b = ov))) ∧
      (mode = .AVOID → ((r = some 1 ↔ a = 0 ∨ b = 0) ∧ (r = some 0 ↔ a = ov ∧ b = ov))) := by
  have hne : total_range a b ov ≠ 0 := ne_of_gt hpos
  have han : a ≤ total_range a b ov := by simp only [total_range]; omega
  have hbn : b ≤ total_range a b ov := by simp only [total_range]; omega
  have hx := unit_interval_of_le a _ (le_trans hov0 hova) hpos han
  have hz := unit_interval_of_le b _ (le_trans hov0 hovb) hpos hbn
  have hx0 := ratio_eq_zero_iff a _ hpos
  have hz0 := ratio_eq_zero_iff b _ hpos
  have hx1 := ratio_eq_one_iff a _ hpos
  have hz1 := ratio_eq_one_iff b _ hpos
  have htr : total_range a b ov = a + b - ov := rfl
  cases mode with
  | OTHER => exact absurd rfl hmode
  | ACCOMPANY =>
    refine ⟨_, _, max_mode_accompany_eval _ _ _ _ _ hne, fun _ => ⟨?_, ?_⟩,
      fun h => EMaxMode.noConfusion h⟩
    · rw [Option.some.injEq, mul_eq_zero, hx0, hz0]
    · rw [Option.some.injEq, product_eq_one_iff _ _ hx hz, hx1, hz1, htr]
      omega
  | AVOID =>
    refine ⟨_, _, max_mode_avoid_eval _ _ _ _ _ hne, fun h => EMaxMode.noConfusion h,
      fun _ => ⟨?_, ?_⟩⟩
    · rw [Option.some.injEq, cross_eq_one_iff _ _ hx hz, hx0, hz0, hx1, hz1, htr]
      omega
    · rw [Option.some.injEq, cross_eq_zero_iff _ _ hx hz, hx0, hz0, hx1, hz1, htr]
      omega

/-- C20. Characterisation of the degenerate-rate guard under INTERSECTION sizing: for a pair
whose `num_observations` (the value `total_range`) is positive, in both max modes, the computed
rate is 0 or 1 if and only if one of the two edge maps is empty or the two hold the same
connectors. With the same connectors the rate is 1 in ACCOMPANY and 0 in AVOID, the iteration is
a `continue`, it makes no call of the binomial test and writes no line. -/
theorem degenerate_rate_characterisation (ds : DataSet) (ext : Externals) (cor_sig : ℚ)
    (y t : Nat) (alpha_yain alpha_tain : Alpha)
    (hy : ds.alphas.get? y = some alpha_yain) (ht : ds.alphas.get? t = some alpha_tain)
    (hset : ds.options.coin_set_mode = .INTERSECTION)
    (hmax : ds.options.coin_max_mode ≠ .OTHER)
    (hpos : 0 < total_range alpha_yain.edges.size alpha_tain.edges.size
      (count_overlaps y alpha_yain.edges t alpha_tain.edges).overlaps) :
    set_mode_switch ds.options.coin_set_mode
      (total_range alpha_yain.edges.size alpha_tain.edges.size
        (count_overlaps y alpha_yain.edges t alpha_tain.edges).overlaps) ds.betas.length
      = .ok (some (total_range alpha_yain.edges.size alpha_tain.edges.size
        (count_overlaps y alpha_yain.edges t alpha_tain.edges).overlaps)) ∧
    ∃ (s : Int) (r : Dbl),
      max_mode_switch ds.options.coin_max_mode
        (total_range alpha_yain.edges.size alpha_tain.edges.size
          (count_overlaps y alpha_yain.edges t alpha_tain.edges).overlaps)
        (count_overlaps y alpha_yain.edges t alpha_tain.edges).overlaps
        (chance alpha_yain.edges.size (total_range alpha_yain.edges.size alpha_tain.edges.size
          (count_overlaps y alpha_yain.edges t alpha_tain.edges).overlaps))
        (chance alpha_tain.edges.size (total_range alpha_yain.edges.size alpha_tain.edges.size
          (count_overlaps y alpha_yain.edges t alpha_tain.edges).overlaps))
        (not_cross_chance alpha_yain.edges.size
          (total_range alpha_yain.edges.size alpha_tain.edges.size
            (count_overlaps y alpha_yain.edges t alpha_tain.edges).overlaps))
        (not_cross_chance alpha_tain.edges.size
          (total_range alpha_yain.edges.size alpha_tain.edges.size
            (count_overlaps y alpha_yain.edges t alpha_tain.edges).overlaps))
        = .ok (s, r) ∧
      ((r = some 0 ∨ r = some 1) ↔
        (alpha_yain.edges.entries = [] ∨ alpha_tain.edges.entries = [] ∨
          alpha_yain.edges.entries.map (fun kvp => kvp.1.addr)
            = alpha_tain.edges.entries.map (fun kvp => kvp.1.addr))) ∧
      (alpha_yain.edges.entries.map (fun kvp => kvp.1.addr)
          = alpha_tain.edges.entries.map (fun kvp => kvp.1.addr) →
        (ds.options.coin_max_mode = .ACCOMPANY → r = some 1) ∧
        (ds.options.coin_max_mode = .AVOID → r = some 0) ∧
        iteration ds ext cor_sig y t = .ok none ∧
        test_call ds y t = none ∧
        pair_lines ds ext cor_sig y t = []) := by
  obtain ⟨hmin, -, -⟩ := total_range_bounds y alpha_yain.edges t alpha_tain.edges
  have hov0 := overlaps_nonneg y alpha_yain.edges t alpha_tain.edges
  have hova := le_trans hmin (min_le_left _ _)
  have hovb := le_trans hmin (min_le_right _ _)
  have hid := identical_iff_overlap y alpha_yain.edges t alpha_tain.edges
  have hea : alpha_yain.edges.entries = [] ↔ ((alpha_yain.edges.size : Nat) : Int) = 0 := by
    simp [EdgeMap.size]
  have heb : alpha_tain.edges.entries = [] ↔ ((alpha_tain.edges.size : Nat) : Int) = 0 := by
    simp [EdgeMap.size]
  refine ⟨?_, ?_⟩
  · rw [hset]
    simp [set_mode_switch, ne_of_gt hpos]
  obtain ⟨s, r, hsr, hacc, havo⟩ := intersection_rate_degenerate ds.options.coin_max_mode
    alpha_yain.edges.size alpha_tain.edges.size
    (count_overlaps y alpha_yain.edges t alpha_tain.edges).overlaps hmax hov0 hova hovb hpos
  refine ⟨s, r, hsr, ?_, ?_⟩
  · rw [hea, heb, hid]
    cases hm : ds.options.coin_max_mode with
    | OTHER => exact absurd hm hmax
    | ACCOMPANY =>
      obtain ⟨h0, h1⟩ := hacc hm
      constructor
      · rintro (hr | hr)
        · rcases h0.1 hr with h | h
          · exact Or.inl h
          · exact Or.inr (Or.inl h)
        · exact Or.inr (Or.inr (h1.1 hr))
      · rintro (h | h | h)
        · exact Or.inl (h0.2 (Or.inl h))
        · exact Or.inl (h0.2 (Or.inr h))
        · exact Or.inr (h1.2 h)
    | AVOID =>
      obtain ⟨h1, h0⟩ := havo hm
      constructor
      · rintro (hr | hr)
        · exact Or.inr (Or.inr (h0.1 hr))
        · rcases h1.1 hr with h | h
          · exact Or.inl h
          · exact Or.inr (Or.inl h)
      · rintro (h | h | h)
        · exact Or.inr (h1.2 (Or.inl h))
        · exact Or.inr (h1.2 (Or.inr h))
        · exact Or.inl (h0.2 h)
  · intro hsame
    have hsame' := hid.1 hsame
    obtain ⟨hit, htc⟩ := intersection_identical_skip ds ext cor_sig y t alpha_yain alpha_tain
      hy ht hsame hset hmax
    refine ⟨fun hm => ((hacc hm).2).2 ⟨hsame'.1, hsame'.2⟩,
      fun hm => ((havo hm).2).2 ⟨hsame'.1, hsame'.2⟩, hit, htc, ?_⟩
    unfold pair_lines
    rw [hit]

/-- C20, witness: `X` and `Z` hold the same two connectors; under INTERSECTION sizing and
ACCOMPANY the rate is 1 and the pair is skipped. -/
theorem degenerate_rate_characterisation_witness :
    (0 : Int) < total_range alpha_X.edges.size alpha_Z.edges.size
      (count_overlaps 0 alpha_X.edges 1 alpha_Z.edges).overlaps ∧
    iteration (twin_dataset .INTERSECTION) (example_externals 0) (1 / 20) 0 1 = .ok none ∧
    test_call (twin_dataset .INTERSECTION) 0 1 = none ∧
    pair_lines (twin_dataset .INTERSECTION) (example_externals 0) (1 / 20) 0 1 = [] :=
  have hpos : (0 : Int) < total_range alpha_X.edges.size alpha_Z.edges.size
      (count_overlaps 0 alpha_X.edges 1 alpha_Z.edges).overlaps := by decide
  have h := degenerate_rate_characterisation (twin_dataset .INTERSECTION) (example_externals 0)
    (1 / 20) 0 1 alpha_X alpha_Z rfl rfl rfl (fun h => EMaxMode.noConfusion h) hpos
  match h.2 with
  | ⟨_, _, _, _, hskip⟩ => ⟨hpos, (hskip rfl).2.2⟩

end Coinfinder
